import Mathlib

/-!
# iLand snapshot subsystem: a shallow embedding of `output/snapshot.cpp`

The snapshot code copies simulation state between the live landscape and the
rows of a relational store.  The embedding below keeps the shape of the C++:

* a `ResourceUnit*` is a position in the model's unit list `mRU`;
* a result row is a list of `QVariant` cells, read by column position;
* `mRUHash` is an association list from stored unit index to unit pointer;
* floating-point fields are only ever copied by the codecs, so they are
  carried as integer codes (`Scalar`), with `0` the code of `0.0`.
-/

namespace Snapshot

/-! ## Constants of `global.h` -/

/-- Modelled from the spec: `global.h` is not among the sources.  The side of a
resource unit in metres; the error text of `loadSnapshot` names it (100m). -/
def cRUSize : Int := 100

/-- Modelled from the spec: `global.h` is not among the sources.  The number of
light-grid pixels along one side of a resource unit (100m tile, 2m pixels, see
the comment on `Model::grid` in `model.h`). -/
def cPxPerRU : Int := 50

/-- Modelled from the spec: `saplings.h` is not among the sources.  The fixed
number of sapling slots of one sapling cell. -/
def NSAPCELLS : Nat := 5

/-! ## Store cells -/

/-- Code of a floating-point value; the codecs copy such values unchanged. -/
abbrev Scalar := Int

/-- One cell of a result row, as `QSqlQuery::value` hands it out.  A column
position past the end of the row gives the invalid variant. -/
inductive QVariant where
  | invalid : QVariant
  | int (i : Int) : QVariant
  | real (x : Scalar) : QVariant
  | text (s : String) : QVariant
  deriving DecidableEq

namespace QVariant

/-- `QVariant::toInt`: zero for the invalid variant and for text that is not a
number. -/
def toInt : QVariant → Int
  | .invalid => 0
  | .int i => i
  | .real x => x
  | .text s => s.toInt?.getD 0

/-- `QVariant::toDouble` (also used for `toFloat`): zero for the invalid
variant and for text that is not a number. -/
def toDouble : QVariant → Scalar
  | .invalid => 0
  | .int i => i
  | .real x => x
  | .text s => s.toInt?.getD 0

/-- `QVariant::toString`: the empty string for the invalid variant. -/
def toString : QVariant → String
  | .invalid => ""
  | .int i => ToString.toString i
  | .real x => ToString.toString x
  | .text s => s

end QVariant

/-- A result row: the cells in the column order of the `select`. -/
abbrev Row := List QVariant

/-- `q.value(i)` on the current row. -/
def value (row : Row) (i : Nat) : QVariant := row.getD i QVariant.invalid

/-! ## Live state -/

/-- A carbon/nitrogen pair (`CNPair`). -/
structure CNPair where
  C : Scalar
  N : Scalar
  deriving DecidableEq

/-- A carbon/nitrogen pool with its parameter (`CNPool`); `parameter()` reads
and `setParameter` writes `mParameter`. -/
structure CNPool where
  C : Scalar
  N : Scalar
  mParameter : Scalar
  deriving DecidableEq

/-- The symbolic value of `Species::stamp(dbh, height)`. -/
structure Stamp where
  species : String
  dbh : Scalar
  height : Scalar
  deriving DecidableEq

/-- An individual tree.  `mSpecies` is the species pointer (null until
`setSpecies`), held as the species identifier. -/
structure Tree where
  mId : Int
  mPositionIndex : Int × Int
  mSpecies : Option String
  mAge : Int
  mHeight : Scalar
  mDbh : Scalar
  mLeafArea : Scalar
  mOpacity : Scalar
  mFoliageMass : Scalar
  mWoodyMass : Scalar
  mFineRootMass : Scalar
  mCoarseRootMass : Scalar
  mNPPReserve : Scalar
  mStressIndex : Scalar
  mStamp : Option Stamp
  deriving DecidableEq

/-- The decomposition state of one unit (`Soil`). -/
structure Soil where
  mKyl : Scalar
  mKyr : Scalar
  mInputLab : CNPool
  mInputRef : CNPool
  mYL : CNPool
  mYR : CNPool
  mSOM : CNPair
  deriving DecidableEq

/-- The water state touched by the soil codec (`WaterCycle`). -/
structure WaterCycle where
  mContent : Scalar
  mSnowPack : Scalar
  deriving DecidableEq

/-- `WaterCycle::setContent(content, snow_pack)`. -/
def WaterCycle.setContent (_w : WaterCycle) (content snow_pack : Scalar) : WaterCycle :=
  { mContent := content, mSnowPack := snow_pack }

/-- The deadwood state of one unit (`Snag`); the C++ arrays `mSWD[3]`,
`mNumberOfSnags[3]`, ... `mOtherWood[5]` are laid out element by element. -/
structure Snag where
  mClimateFactor : Scalar
  mSWD0 : CNPair
  mSWD1 : CNPair
  mSWD2 : CNPair
  mTotalSWD : CNPair
  mNumberOfSnags0 : Scalar
  mNumberOfSnags1 : Scalar
  mNumberOfSnags2 : Scalar
  mAvgDbh0 : Scalar
  mAvgDbh1 : Scalar
  mAvgDbh2 : Scalar
  mAvgHeight0 : Scalar
  mAvgHeight1 : Scalar
  mAvgHeight2 : Scalar
  mAvgVolume0 : Scalar
  mAvgVolume1 : Scalar
  mAvgVolume2 : Scalar
  mTimeSinceDeath0 : Scalar
  mTimeSinceDeath1 : Scalar
  mTimeSinceDeath2 : Scalar
  mKSW0 : Scalar
  mKSW1 : Scalar
  mKSW2 : Scalar
  mHalfLife0 : Scalar
  mHalfLife1 : Scalar
  mHalfLife2 : Scalar
  mOtherWood0 : CNPair
  mOtherWood1 : CNPair
  mOtherWood2 : CNPair
  mOtherWood3 : CNPair
  mOtherWood4 : CNPair
  mBranchCounter : Int
  deriving DecidableEq

/-- A resource unit: its index, the pixel offset of its corner, its trees and
its pools (a null `soil()`/`snag()` is `none`). -/
structure ResourceUnit where
  index : Int
  cornerPointOffset : Int × Int
  trees : List Tree
  soil : Option Soil
  snag : Option Snag
  waterCycle : WaterCycle
  deriving DecidableEq

/-- A `ResourceUnit*`: the position of the unit in `Model::mRU`. -/
abbrev RUPtr := Nat

/-- The list `Model::ruList()`. -/
abbrev RUList := List ResourceUnit

/-- The member `mRUHash`: stored unit index to live unit. -/
abbrev RUHash := List (Int × RUPtr)

/-- `mRUHash[key]` read as a pointer: null (`none`) when the key is absent.
(`QHash::operator[]` also inserts a null entry for an absent key, which
resolves to null just as the absent key does.) -/
def hashValue (h : RUHash) (key : Int) : Option RUPtr := h.lookup key

/-- `mRUHash[key] = ru`. -/
def hashAssign (h : RUHash) (key : Int) (ru : RUPtr) : RUHash := (key, ru) :: h

/-- Writes through a unit pointer. -/
def modifyRU (units : RUList) (ru : RUPtr) (f : ResourceUnit → ResourceUnit) : RUList :=
  units.modify f ru

/-- `mRUHash[key]` as a live unit: a pointer that does not point into the unit
list is treated as null. -/
def resolve (h : RUHash) (units : RUList) (key : Int) : Option RUPtr :=
  (hashValue h key).filter fun p => decide (p < units.length)

/-- The `IException`s thrown by the snapshot code, by throw site. -/
inductive SnapshotError where
  | storeUnavailable : SnapshotError
  | spatialMisalignment : SnapshotError
  | invalidSpecies : SnapshotError
  | soilDisabled : SnapshotError
  | saplingInvalidSpecies : SnapshotError
  | saveSaplingsNotImplemented : SnapshotError
  | prepareFailed : SnapshotError
  | insertFailed : SnapshotError
  deriving DecidableEq

/-- How an operation ends: it runs to its end in state `s`, or it throws, in
which case `s` is the state the live data is left in at the throw. -/
inductive Outcome (σ : Type) where
  | done (s : σ) : Outcome σ
  | raised (e : SnapshotError) (s : σ) : Outcome σ
  deriving DecidableEq

/-- Applies `f` to the state an operation ends in. -/
def Outcome.map {σ τ : Type} (f : σ → τ) : Outcome σ → Outcome τ
  | .done s => .done (f s)
  | .raised e s => .raised e (f s)

/-- Runs the body of a loop over the rows; a throw ends the loop. -/
def forRows {σ : Type} (step : σ → Row → Outcome σ) : σ → List Row → Outcome σ
  | s, [] => .done s
  | s, row :: rest =>
    match step s row with
    | .done s1 => forRows step s1 rest
    | .raised e s1 => .raised e s1

/-! ## Snag codec -/

/-- The bound values of one `insert into snag`, in the order of the
`addBindValue` calls of `saveSnags`. -/
def snagRow (ru : ResourceUnit) (s : Snag) : Row :=
  [ .int ru.index, .real s.mClimateFactor,
    .real s.mSWD0.C, .real s.mSWD0.N, .real s.mSWD1.C, .real s.mSWD1.N,
    .real s.mSWD2.C, .real s.mSWD2.N,
    .real s.mTotalSWD.C, .real s.mTotalSWD.N,
    .real s.mNumberOfSnags0, .real s.mNumberOfSnags1, .real s.mNumberOfSnags2,
    .real s.mAvgDbh0, .real s.mAvgDbh1, .real s.mAvgDbh2,
    .real s.mAvgHeight0, .real s.mAvgHeight1, .real s.mAvgHeight2,
    .real s.mAvgVolume0, .real s.mAvgVolume1, .real s.mAvgVolume2,
    .real s.mTimeSinceDeath0, .real s.mTimeSinceDeath1, .real s.mTimeSinceDeath2,
    .real s.mKSW0, .real s.mKSW1, .real s.mKSW2,
    .real s.mHalfLife0, .real s.mHalfLife1, .real s.mHalfLife2,
    .real s.mOtherWood0.C, .real s.mOtherWood0.N,
    .real s.mOtherWood1.C, .real s.mOtherWood1.N,
    .real s.mOtherWood2.C, .real s.mOtherWood2.N,
    .real s.mOtherWood3.C, .real s.mOtherWood3.N,
    .real s.mOtherWood4.C, .real s.mOtherWood4.N,
    .int s.mBranchCounter ]

/-- `Snapshot::saveSnags`: one row per unit of `ruList()` that has a snag pool;
a unit without one is passed over. -/
def saveSnags (units : RUList) : List Row :=
  units.filterMap fun ru => ru.snag.map (snagRow ru)

/-- The 41 assignments of the body of the loop of `loadSnags`, reading the
columns `ci, ci+1, ...` of the row (each read is `q.value(ci++)`). -/
def loadSnagFields (s : Snag) (row : Row) (ci : Nat) : Snag :=
  { s with
    mClimateFactor := (value row ci).toDouble
    mSWD0 := { C := (value row (ci + 1)).toDouble, N := (value row (ci + 2)).toDouble }
    mSWD1 := { C := (value row (ci + 3)).toDouble, N := (value row (ci + 4)).toDouble }
    mSWD2 := { C := (value row (ci + 5)).toDouble, N := (value row (ci + 6)).toDouble }
    mTotalSWD := { C := (value row (ci + 7)).toDouble, N := (value row (ci + 8)).toDouble }
    mNumberOfSnags0 := (value row (ci + 9)).toDouble
    mNumberOfSnags1 := (value row (ci + 10)).toDouble
    mNumberOfSnags2 := (value row (ci + 11)).toDouble
    mAvgDbh0 := (value row (ci + 12)).toDouble
    mAvgDbh1 := (value row (ci + 13)).toDouble
    mAvgDbh2 := (value row (ci + 14)).toDouble
    mAvgHeight0 := (value row (ci + 15)).toDouble
    mAvgHeight1 := (value row (ci + 16)).toDouble
    mAvgHeight2 := (value row (ci + 17)).toDouble
    mAvgVolume0 := (value row (ci + 18)).toDouble
    mAvgVolume1 := (value row (ci + 19)).toDouble
    mAvgVolume2 := (value row (ci + 20)).toDouble
    mTimeSinceDeath0 := (value row (ci + 21)).toDouble
    mTimeSinceDeath1 := (value row (ci + 22)).toDouble
    mTimeSinceDeath2 := (value row (ci + 23)).toDouble
    mKSW0 := (value row (ci + 24)).toDouble
    mKSW1 := (value row (ci + 25)).toDouble
    mKSW2 := (value row (ci + 26)).toDouble
    mHalfLife0 := (value row (ci + 27)).toDouble
    mHalfLife1 := (value row (ci + 28)).toDouble
    mHalfLife2 := (value row (ci + 29)).toDouble
    mOtherWood0 := { C := (value row (ci + 30)).toDouble, N := (value row (ci + 31)).toDouble }
    mOtherWood1 := { C := (value row (ci + 32)).toDouble, N := (value row (ci + 33)).toDouble }
    mOtherWood2 := { C := (value row (ci + 34)).toDouble, N := (value row (ci + 35)).toDouble }
    mOtherWood3 := { C := (value row (ci + 36)).toDouble, N := (value row (ci + 37)).toDouble }
    mOtherWood4 := { C := (value row (ci + 38)).toDouble, N := (value row (ci + 39)).toDouble }
    mBranchCounter := (value row (ci + 40)).toInt }

/-- The state of the loop of `loadSnags`: the column counter `ci`, which is
declared before the loop and lives across its iterations, and the units. -/
structure SnagLoad where
  ci : Nat
  units : RUList
  deriving DecidableEq

/-- One iteration of the `while (q.next())` loop of `loadSnags`.
`ru_index = q.value(ci++).toInt()`; a record that does not resolve, or whose
unit has no snag pool, takes the `continue` with `ci` already advanced. -/
def loadSnagsStep (h : RUHash) (st : SnagLoad) (row : Row) : SnagLoad :=
  let ru_index := (value row st.ci).toInt
  let ci := st.ci + 1
  match resolve h st.units ru_index with
  | none => { st with ci := ci }
  | some ru =>
    match st.units[ru]?.bind (fun u => u.snag) with
    | none => { st with ci := ci }
    | some s =>
      { ci := ci + 41
        units := modifyRU st.units ru fun u => { u with snag := some (loadSnagFields s row ci) } }

/-- `Snapshot::loadSnags`: `ci` starts at 0 before the loop. -/
def loadSnags (h : RUHash) (rows : List Row) (units : RUList) : RUList :=
  (rows.foldl (loadSnagsStep h) { ci := 0, units := units }).units

/-! ## Tree codec -/

/-- The bound values of one `insert into trees`, in the order of the
`addBindValue` calls of `saveTrees`; `ru` is `t->ru()`.  (A tree without a
species cannot be saved: `t->species()->id()` dereferences the pointer.) -/
def treeRow (ru : ResourceUnit) (t : Tree) : Row :=
  [ .int t.mId, .int ru.index, .int t.mPositionIndex.1, .int t.mPositionIndex.2,
    .text (t.mSpecies.getD ""), .int t.mAge, .real t.mHeight, .real t.mDbh,
    .real t.mLeafArea, .real t.mOpacity, .real t.mFoliageMass, .real t.mWoodyMass,
    .real t.mFineRootMass, .real t.mCoarseRootMass, .real t.mNPPReserve,
    .real t.mStressIndex ]

/-- `Snapshot::saveTrees`: `AllTreeIterator` walks the units of `ruList()` in
order and the trees of each unit in order. -/
def saveTrees (units : RUList) : List Row :=
  units.flatMap fun ru => ru.trees.map (treeRow ru)

/-- The tree that `ResourceUnit::newTree()` appends: a default-constructed
`Tree`. -/
def newTree : Tree :=
  { mId := 0, mPositionIndex := (0, 0), mSpecies := none, mAge := 0, mHeight := 0,
    mDbh := 0, mLeafArea := 0, mOpacity := 0, mFoliageMass := 0, mWoodyMass := 0,
    mFineRootMass := 0, mCoarseRootMass := 0, mNPPReserve := 0, mStressIndex := 0,
    mStamp := none }

/-- `SpeciesSet::species(id)`: the species of that identifier, null when the
catalog has none. -/
def speciesOf (catalog : List String) (id : String) : Option String :=
  if id ∈ catalog then some id else none

/-- The position rule of `loadTrees` and `loadSaplings`:
`offset + stored % cPxPerRU`, with the truncating remainder of C++. -/
def foldPosition (offset stored : Int) : Int :=
  offset + stored.tmod cPxPerRU

/-- The first assignments to a new tree in `loadTrees`: `mId` and
`mPositionIndex`, the latter by the position rule on each axis. -/
def treeIdPos (offsetx offsety : Int) (row : Row) : Tree :=
  { newTree with
    mId := (value row 0).toInt
    mPositionIndex := (foldPosition offsetx (value row 2).toInt,
                       foldPosition offsety (value row 3).toInt) }

/-- The assignments of `loadTrees` after the species check: species, the
eleven scalar columns, and the stamp from the restored dbh and height. -/
def treeScalars (t : Tree) (s : String) (row : Row) : Tree :=
  { t with
    mSpecies := some s
    mAge := (value row 5).toInt
    mHeight := (value row 6).toDouble
    mDbh := (value row 7).toDouble
    mLeafArea := (value row 8).toDouble
    mOpacity := (value row 9).toDouble
    mFoliageMass := (value row 10).toDouble
    mWoodyMass := (value row 11).toDouble
    mFineRootMass := (value row 12).toDouble
    mCoarseRootMass := (value row 13).toDouble
    mNPPReserve := (value row 14).toDouble
    mStressIndex := (value row 15).toDouble
    mStamp := some { species := s, dbh := (value row 7).toDouble,
                     height := (value row 6).toDouble } }

/-- Appends a tree to the tree list of a unit. -/
def addTree (units : RUList) (ru : RUPtr) (t : Tree) : RUList :=
  modifyRU units ru fun u => { u with trees := u.trees ++ [t] }

/-- The state of the loop of `loadTrees`: the stored index of the previous
record, the unit cached for it with the offset of its corner, and the units. -/
structure TreeLoad where
  ru_index : Int
  ru : Option RUPtr
  offsetx : Int
  offsety : Int
  units : RUList
  deriving DecidableEq

/-- The `if (new_ru != ru_index)` block of `loadTrees`: the unit is looked up
only when the stored index differs from that of the previous record. -/
def treeLookup (h : RUHash) (st : TreeLoad) (new_ru : Int) : TreeLoad :=
  if new_ru != st.ru_index then
    match resolve h st.units new_ru with
    | none => { st with ru_index := new_ru, ru := none }
    | some p =>
      { st with
        ru_index := new_ru
        ru := some p
        offsetx := (st.units[p]?.map fun u => u.cornerPointOffset.1).getD st.offsetx
        offsety := (st.units[p]?.map fun u => u.cornerPointOffset.2).getD st.offsety }
  else st

/-- One iteration of the `while (q.next())` loop of `loadTrees`.  The new tree
is appended and given its id and position before the species is looked up, so
the throw for an unknown species leaves that tree in the list. -/
def loadTreesStep (h : RUHash) (catalog : List String) (st : TreeLoad) (row : Row) :
    Outcome TreeLoad :=
  let st1 := treeLookup h st (value row 1).toInt
  match st1.ru with
  | none => .done st1
  | some p =>
    let t := treeIdPos st1.offsetx st1.offsety row
    match speciesOf catalog (value row 4).toString with
    | none => .raised .invalidSpecies { st1 with units := addTree st1.units p t }
    | some s => .done { st1 with units := addTree st1.units p (treeScalars t s row) }

/-- The `foreach` that opens `loadTrees`: `ru->trees().clear()` on every unit
of `ruList()`. -/
def clearTrees (units : RUList) : RUList :=
  units.map fun u => { u with trees := [] }

/-- The loop state at the entry of the loop of `loadTrees`. -/
def treeLoadInit (units : RUList) : TreeLoad :=
  { ru_index := -1, ru := none, offsetx := 0, offsety := 0, units := clearTrees units }

/-- `Snapshot::loadTrees`. -/
def loadTrees (h : RUHash) (catalog : List String) (rows : List Row) (units : RUList) :
    Outcome RUList :=
  (forRows (loadTreesStep h catalog) (treeLoadInit units) rows).map fun st => st.units

/-- The loop body of the tree load as the specification words it: the unit of
every record is looked up through the mapping, with no cache. -/
def loadTreesStepFresh (h : RUHash) (catalog : List String) (units : RUList) (row : Row) :
    Outcome RUList :=
  match resolve h units (value row 1).toInt with
  | none => .done units
  | some p =>
    let offset := (units[p]?.map fun u => u.cornerPointOffset).getD (0, 0)
    let t := treeIdPos offset.1 offset.2 row
    match speciesOf catalog (value row 4).toString with
    | none => .raised .invalidSpecies (addTree units p t)
    | some s => .done (addTree units p (treeScalars t s row))

/-- The tree load as the specification words it: clear every list, then treat
every record with a fresh lookup. -/
def loadTreesFresh (h : RUHash) (catalog : List String) (rows : List Row) (units : RUList) :
    Outcome RUList :=
  forRows (loadTreesStepFresh h catalog) (clearTrees units) rows

/-- A tree with its stamp recomputed from its species, dbh and height, as the
load does. -/
def restamp (t : Tree) : Tree :=
  { t with mStamp := t.mSpecies.map fun s => { species := s, dbh := t.mDbh, height := t.mHeight } }

/-! ## Soil codec -/

/-- The bound values of one `insert into soil`, in the order of the
`addBindValue` calls of `saveSoil`. -/
def soilRow (ru : ResourceUnit) (s : Soil) : Row :=
  [ .int ru.index, .real s.mKyl, .real s.mKyr,
    .real s.mInputLab.C, .real s.mInputLab.N, .real s.mInputLab.mParameter,
    .real s.mInputRef.C, .real s.mInputRef.N, .real s.mInputRef.mParameter,
    .real s.mYL.C, .real s.mYL.N, .real s.mYL.mParameter,
    .real s.mYR.C, .real s.mYR.N, .real s.mYR.mParameter,
    .real s.mSOM.C, .real s.mSOM.N,
    .real ru.waterCycle.mContent, .real ru.waterCycle.mSnowPack ]

/-- `Snapshot::saveSoil`: one row per unit of `ruList()` that has a soil pool;
a unit without one is passed over. -/
def saveSoil (units : RUList) : List Row :=
  units.filterMap fun ru => ru.soil.map (soilRow ru)

/-- The sixteen assignments to the soil pool in the loop of `loadSoil`. -/
def loadSoilFields (s : Soil) (row : Row) : Soil :=
  { s with
    mKyl := (value row 1).toDouble
    mKyr := (value row 2).toDouble
    mInputLab := { C := (value row 3).toDouble, N := (value row 4).toDouble,
                   mParameter := (value row 5).toDouble }
    mInputRef := { C := (value row 6).toDouble, N := (value row 7).toDouble,
                   mParameter := (value row 8).toDouble }
    mYL := { C := (value row 9).toDouble, N := (value row 10).toDouble,
             mParameter := (value row 11).toDouble }
    mYR := { C := (value row 12).toDouble, N := (value row 13).toDouble,
             mParameter := (value row 14).toDouble }
    mSOM := { C := (value row 15).toDouble, N := (value row 16).toDouble } }

/-- One iteration of the `while (q.next())` loop of `loadSoil`: the unit is
looked up for every record; a resolved unit without a soil pool is the throw. -/
def loadSoilStep (h : RUHash) (units : RUList) (row : Row) : Outcome RUList :=
  match resolve h units (value row 0).toInt with
  | none => .done units
  | some ru =>
    match units[ru]?.bind (fun u => u.soil) with
    | none => .raised .soilDisabled units
    | some s =>
      .done (modifyRU units ru fun u =>
        { u with
          soil := some (loadSoilFields s row)
          waterCycle := u.waterCycle.setContent (value row 17).toDouble (value row 18).toDouble })

/-- `Snapshot::loadSoil`. -/
def loadSoil (h : RUHash) (rows : List Row) (units : RUList) : Outcome RUList :=
  forRows (loadSoilStep h) units rows

/-! ## Sapling cells -/

/-- Modelled from the spec: `saplings.h` is not among the sources.  One slot of
a sapling cell: whether it is occupied, species index, age, height, the
stress-years counter and the flag byte. -/
structure SaplingTree where
  occupied : Bool
  species_index : Int
  age : Int
  height : Scalar
  stress_years : Int
  flags : Int
  deriving DecidableEq

/-- Modelled from the spec: `saplings.h` is not among the sources.  A sapling
cell: its `NSAPCELLS` slots. -/
structure SaplingCell where
  saplings : List SaplingTree
  deriving DecidableEq

/-- Modelled from the spec: `saplings.h` is not among the sources.  The sapling
grid: the cells addressed by pixel coordinate. -/
abbrev SaplingGrid := List ((Int × Int) × SaplingCell)

/-- Modelled from the spec: `Saplings::cell(QPoint)`, the cell of a pixel, null
when the pixel has no cell. -/
def saplingCellAt (g : SaplingGrid) (p : Int × Int) : Option Nat :=
  let i := g.findIdx fun e => decide (e.1 = p)
  if i < g.length then some i else none

/-- Modelled from the spec: `SaplingCell::addSapling(height, age, species_idx)`:
the first free slot is occupied with the three values and its position is
returned; null when the cell has no free slot, and the cell is left as it is. -/
def addSapling (c : SaplingCell) (h : Scalar) (age : Int) (species_idx : Int) :
    Option (Nat × SaplingCell) :=
  let i := c.saplings.findIdx fun s => !s.occupied
  if i < c.saplings.length then
    let occupy : SaplingTree → SaplingTree := fun s =>
      { s with occupied := true, height := h, age := age, species_index := species_idx }
    some (i, { saplings := c.saplings.modify occupy i })
  else none

/-- `static_cast<unsigned char>` of an `int`. -/
def toUChar (i : Int) : Int := i % 256

/-- `Species::index()`: the position of the species in the catalog. -/
def speciesIndex (catalog : List String) (id : String) : Int :=
  (catalog.indexOf id : Nat)

/-- The live data a load writes to: the units and the sapling grid. -/
structure Live where
  units : RUList
  saplings : SaplingGrid
  deriving DecidableEq

/-- One iteration of the `while (q.next())` loop of `loadSaplings`; `ci` is
reset to 0 at the top of every iteration, so the columns are 0 to 6. -/
def loadSaplingsStep (h : RUHash) (catalog : List String) (w : Live) (row : Row) :
    Outcome Live :=
  match resolve h w.units (value row 0).toInt with
  | none => .done w
  | some ru =>
    match speciesOf catalog (value row 1).toString with
    | none => .raised .saplingInvalidSpecies w
    | some species =>
      let offset := (w.units[ru]?.map fun u => u.cornerPointOffset).getD (0, 0)
      let posx := foldPosition offset.1 (value row 2).toInt
      let posy := foldPosition offset.2 (value row 3).toInt
      match saplingCellAt w.saplings (posx, posy) with
      | none => .done w
      | some ci =>
        match w.saplings[ci]?.bind fun e =>
            addSapling e.2 (value row 5).toDouble (value row 4).toInt
              (speciesIndex catalog species) with
        | none => .done w
        | some (slot, cell) =>
          let stress : SaplingTree → SaplingTree := fun s =>
            { s with stress_years := toUChar (value row 6).toInt }
          let cell1 : SaplingCell := { saplings := cell.saplings.modify stress slot }
          .done { w with saplings := w.saplings.modify (fun e => (e.1, cell1)) ci }

/-- `Snapshot::loadSaplings`. -/
def loadSaplings (h : RUHash) (catalog : List String) (rows : List Row) (w : Live) :
    Outcome Live :=
  forRows (loadSaplingsStep h catalog) w rows

/-! ## The remapper and `loadSnapshot` -/

/-- Modelled from the spec: `grid.h` is not among the sources.  The unit grid
`Model::RUgrid()`: the model coordinates of its corner, its width in cells and
its cells in row order, each a unit pointer or null; the cell size is
`cRUSize`. -/
structure RUGrid where
  left : Int
  top : Int
  sizeX : Nat
  cells : List (Option RUPtr)
  deriving DecidableEq

/-- Modelled from the spec: `Grid::cellCenterPoint(i)`, the model coordinates of
the centre of cell `i`. -/
def RUGrid.cellCenterPoint (g : RUGrid) (i : Nat) : Int × Int :=
  (g.left + ((i % g.sizeX : Nat) : Int) * cRUSize + cRUSize / 2,
   g.top + ((i / g.sizeX : Nat) : Int) * cRUSize + cRUSize / 2)

/-- Modelled from the spec: `gisgrid.h` is not among the sources.  The companion
raster: origin in world coordinates, cell size, extent and the stored unit
indices in row order from the origin. -/
structure GisGrid where
  origin : Int × Int
  cellSize : Int
  nCols : Nat
  nRows : Nat
  data : List Int
  deriving DecidableEq

/-- Modelled from the spec: `GisGrid::worldToModel`; `world` is the world
coordinate of the model origin. -/
def worldToModel (world : Int × Int) (p : Int × Int) : Int × Int :=
  (p.1 - world.1, p.2 - world.2)

/-- Modelled from the spec: `GisGrid::modelToWorld`. -/
def modelToWorld (world : Int × Int) (p : Int × Int) : Int × Int :=
  (p.1 + world.1, p.2 + world.2)

/-- Modelled from the spec: `GisGrid::value(p)`, the raster value at the model
coordinate `p`; a negative value outside the raster. -/
def GisGrid.value (g : GisGrid) (world : Int × Int) (p : Int × Int) : Int :=
  let w := modelToWorld world p
  let dx := w.1 - g.origin.1
  let dy := w.2 - g.origin.2
  if dx < 0 ∨ dy < 0 then -1
  else
    let ix := (dx / g.cellSize).toNat
    let iy := (dy / g.cellSize).toNat
    if ix < g.nCols ∧ iy < g.nRows then g.data.getD (iy * g.nCols + ix) (-1) else -10

/-- The first branch of `loadSnapshot` (no valid raster): one assignment
`mRUHash[(*ru)->index()] = *ru` for every non-null cell of the unit grid. -/
def identityHash (units : RUList) (cells : List (Option RUPtr)) : RUHash :=
  cells.foldl (fun h c =>
    match c.bind fun p => units[p]?.map fun u => (u.index, p) with
    | some (i, p) => hashAssign h i p
    | none => h) []

/-- The alignment test of `loadSnapshot`: `fmod(to.x(), cRUSize) != 0. ||
fmod(to.y(), cRUSize) != 0.` for `to = worldToModel(grid.origin())`. -/
def misaligned (world : Int × Int) (grid : GisGrid) : Bool :=
  let origin := worldToModel world grid.origin
  origin.1.tmod cRUSize != 0 || origin.2.tmod cRUSize != 0

/-- The body of the `for` over the cells of the unit grid in the second
branch of `loadSnapshot`. -/
def rasterHashStep (world : Int × Int) (grid : GisGrid) (rugrid : RUGrid) (units : RUList)
    (h : RUHash) (i : Nat) : RUHash :=
  match (rugrid.cells.getD i none).bind fun p => units[p]?.map fun u => (u.index, p) with
  | some (index, p) =>
    if index > -1 then
      let v := grid.value world (rugrid.cellCenterPoint i)
      if v > -1 then hashAssign h v p else h
    else h
  | none => h

/-- The second branch of `loadSnapshot` after the alignment test. -/
def rasterHash (world : Int × Int) (grid : GisGrid) (rugrid : RUGrid) (units : RUList) :
    RUHash :=
  (List.range rugrid.cells.length).foldl (rasterHashStep world grid rugrid units) []

/-- What `loadSnapshot` is run against: whether the store opens, the companion
raster (`none` when `loadFromFile` fails), the world coordinate of the model
origin, the unit grid, the species catalog, the regeneration setting and the
rows of the four tables. -/
structure LoadEnv where
  storeOpens : Bool
  raster : Option GisGrid
  world : Int × Int
  rugrid : RUGrid
  catalog : List String
  regenerationEnabled : Bool
  trees : List Row
  soil : List Row
  snag : List Row
  saplings : List Row

/-- The part of `loadSnapshot` up to the call of `loadTrees`: `mRUHash`, or the
throw for a raster that is not aligned. -/
def buildHash (env : LoadEnv) (units : RUList) : Except SnapshotError RUHash :=
  match env.raster with
  | none => .ok (identityHash units env.rugrid.cells)
  | some grid =>
    if misaligned env.world grid then .error .spatialMisalignment
    else .ok (rasterHash env.world grid env.rugrid units)

/-- The part of `loadSnapshot` from the call of `loadTrees` on: the four
loaders in turn, the sapling load only when regeneration is enabled.  The
light pattern and the stand statistics that are recomputed after them are
derived data outside this state. -/
def loadTables (h : RUHash) (env : LoadEnv) (w : Live) : Outcome Live :=
  match loadTrees h env.catalog env.trees w.units with
  | .raised e u => .raised e { w with units := u }
  | .done u1 =>
    match loadSoil h env.soil u1 with
    | .raised e u => .raised e { w with units := u }
    | .done u2 =>
      let w3 : Live := { w with units := loadSnags h env.snag u2 }
      if env.regenerationEnabled then loadSaplings h env.catalog env.saplings w3
      else .done w3

/-- `Snapshot::loadSnapshot`. -/
def loadSnapshot (env : LoadEnv) (w : Live) : Outcome Live :=
  if !env.storeOpens then .raised .storeUnavailable w
  else
    match buildHash env w.units with
    | .error e => .raised e w
    | .ok h => loadTables h env w

/-! ## The relational store and `createSnapshot` -/

/-- The committed rows of the four tables of the snapshot database. -/
structure Store where
  trees : List Row
  soil : List Row
  snag : List Row
  saplings : List Row
  deriving DecidableEq

/-- What a save is run against: whether the store can be created or opened,
which rows an `insert` accepts (`q.exec()` returns true), the regeneration
setting and the unit grid. -/
structure SaveEnv where
  storeOpens : Bool
  accepts : Row → Bool
  regenerationEnabled : Bool
  rugrid : RUGrid

/-- `Snapshot::openDatabase(file_name, false)`: the throw when the connection
cannot be set up; otherwise each of the four tables is dropped and created
anew, outside any transaction. -/
def openDatabaseForWrite (storeOpens : Bool) (store : Store) : Outcome Store :=
  if !storeOpens then .raised .storeUnavailable store
  else .done { trees := [], soil := [], snag := [], saplings := [] }

/-- The `db.transaction()` ... `db.commit()` bracket of a save pass over one
table: the rows are inserted in order and committed after the rows the table
holds; the first `q.exec()` that fails is the throw, which leaves the
transaction without its commit (`none`). -/
def insertRows (accepts : Row → Bool) (table rows : List Row) : Option (List Row) :=
  if rows.all accepts then some (table ++ rows) else none

/-- `Snapshot::saveTrees` against the store. -/
def saveTreesDb (env : SaveEnv) (units : RUList) (store : Store) : Outcome Store :=
  match insertRows env.accepts store.trees (saveTrees units) with
  | some t => .done { store with trees := t }
  | none => .raised .insertFailed store

/-- `Snapshot::saveSoil` against the store. -/
def saveSoilDb (env : SaveEnv) (units : RUList) (store : Store) : Outcome Store :=
  match insertRows env.accepts store.soil (saveSoil units) with
  | some t => .done { store with soil := t }
  | none => .raised .insertFailed store

/-- `Snapshot::saveSnags` against the store. -/
def saveSnagsDb (env : SaveEnv) (units : RUList) (store : Store) : Outcome Store :=
  match insertRows env.accepts store.snag (saveSnags units) with
  | some t => .done { store with snag := t }
  | none => .raised .insertFailed store

/-- `Snapshot::saveSaplings`: after `prepare` and `db.transaction()` the
function throws `Snapshot::saveSaplings() not implemented`; the loop over the
saplings is commented out and `db.commit()` is not reached. -/
def saveSaplingsDb (_w : Live) (store : Store) : Outcome Store :=
  .raised .saveSaplingsNotImplemented store

/-- The grid of unit indices that `createSnapshot` sets up with the extent and
cell size of the unit grid. -/
structure IndexGrid where
  left : Int
  top : Int
  sizeX : Nat
  cellsize : Int
  values : List Int
  deriving DecidableEq

/-- The loop of `createSnapshot` over the cells of the unit grid: the index of
the unit of the cell, -1 for a null cell. -/
def indexGrid (rugrid : RUGrid) (units : RUList) : IndexGrid :=
  { left := rugrid.left, top := rugrid.top, sizeX := rugrid.sizeX, cellsize := cRUSize
    values := rugrid.cells.map fun c =>
      match c.bind fun p => units[p]? with
      | some u => u.index
      | none => -1 }

/-- `Snapshot::createSnapshot`: the store after the call and the raster that
was written, if any; `done` is the `return true`.  The four save passes run
one after the other, the sapling pass whatever the regeneration setting is,
and the raster is written after them. -/
def createSnapshot (env : SaveEnv) (w : Live) (store : Store) :
    Outcome (Store × Option IndexGrid) :=
  match openDatabaseForWrite env.storeOpens store with
  | .raised e s => .raised e (s, none)
  | .done s0 =>
    match saveTreesDb env w.units s0 with
    | .raised e s => .raised e (s, none)
    | .done s1 =>
      match saveSoilDb env w.units s1 with
      | .raised e s => .raised e (s, none)
      | .done s2 =>
        match saveSnagsDb env w.units s2 with
        | .raised e s => .raised e (s, none)
        | .done s3 =>
          match saveSaplingsDb w s3 with
          | .raised e s => .raised e (s, none)
          | .done s4 => .done (s4, some (indexGrid env.rugrid w.units))

/-! ## Stand-scoped snapshot -/

/-- The state an operation ends in, whether it ran to its end or threw. -/
def Outcome.state {σ : Type} : Outcome σ → σ
  | .done s => s
  | .raised _ s => s

/-- Modelled from the spec: `global.h` is not among the sources.  The side of a
pixel of the light grid in metres (see the comment on `Model::grid` in
`model.h`). -/
def cPxSize : Int := 2

/-- Modelled from the spec: `Grid::indexAt` on the light grid, whose corner is
the model origin: the pixel of a model coordinate; the `int(...)` conversions
truncate. -/
def lifIndexAt (c : Int × Int) : Int × Int :=
  (c.1.tdiv cPxSize, c.2.tdiv cPxSize)

/-- Modelled from the spec: `Tree::position()`, the model coordinate of the
centre of the pixel of the tree. -/
def treePosition (t : Tree) : Int × Int :=
  (t.mPositionIndex.1 * cPxSize + cPxSize / 2, t.mPositionIndex.2 * cPxSize + cPxSize / 2)

/-- A rectangle in model coordinates (`QRectF`). -/
structure Rect where
  left : Int
  top : Int
  right : Int
  bottom : Int
  deriving DecidableEq

/-- `QRectF::contains(point)`: the edges belong to the rectangle. -/
def Rect.contains (r : Rect) (p : Int × Int) : Bool :=
  decide (r.left ≤ p.1) && decide (p.1 ≤ r.right) && decide (r.top ≤ p.2) &&
    decide (p.2 ≤ r.bottom)

/-- Modelled from the spec: `Model::ru(QPointF)`, the unit at a model
coordinate, null outside the unit grid and for a null cell. -/
def ruAt (rugrid : RUGrid) (units : RUList) (c : Int × Int) : Option RUPtr :=
  let dx := c.1 - rugrid.left
  let dy := c.2 - rugrid.top
  if dx < 0 ∨ dy < 0 then none
  else
    let ix := (dx / cRUSize).toNat
    let iy := (dy / cRUSize).toNat
    if ix < rugrid.sizeX then
      (rugrid.cells.getD (iy * rugrid.sizeX + ix) none).filter fun p => decide (p < units.length)
    else none

/-- The committed state of the stand database: whether the connection
`snapshotstand` is open, and the rows of the two tables (`none` for a table
that does not exist). -/
structure StandStore where
  isOpen : Bool
  trees_stand : Option (List Row)
  saplings_stand : Option (List Row)
  deriving DecidableEq

/-- What a stand-scoped operation is run against: whether the stand database
can be opened, which rows an `insert` accepts, the regeneration setting, the
world coordinate of the model origin, the extent of the model, the unit grid,
the stand map (the stand id of every pixel of the light grid) and the species
catalog. -/
structure StandEnv where
  storeOpens : Bool
  accepts : Row → Bool
  regenerationEnabled : Bool
  world : Int × Int
  extent : Rect
  rugrid : RUGrid
  standAt : Int × Int → Int
  catalog : List String

/-- The stand id of a row of `trees_stand` or `saplings_stand` (column
`standID`). -/
def rowStand (row : Row) : Int := (value row 0).toInt

/-- The rows that `delete from ... where standID=X` leaves. -/
def deleteStand (X : Int) (rows : List Row) : List Row :=
  rows.filter fun r => rowStand r != X

/-- The rows that `select ... where standID=X` returns. -/
def selectStand (X : Int) (rows : List Row) : List Row :=
  rows.filter fun r => rowStand r == X

/-- The bound values of one `insert into trees_stand`, in the order of the
`addBindValue` calls of `saveStandSnapshot`. -/
def standTreeRow (env : StandEnv) (X : Int) (t : Tree) : Row :=
  [ .int X, .int t.mId, .real ((treePosition t).1 + env.world.1),
    .real ((treePosition t).2 + env.world.2), .text (t.mSpecies.getD ""), .int t.mAge,
    .real t.mHeight, .real t.mDbh, .real t.mLeafArea, .real t.mOpacity, .real t.mFoliageMass,
    .real t.mWoodyMass, .real t.mFineRootMass, .real t.mCoarseRootMass, .real t.mNPPReserve,
    .real t.mStressIndex ]

/-- Modelled from the spec: `MapGrid::trees(stand_id)`, the trees standing on
the pixels of the stand, unit by unit. -/
def standTrees (env : StandEnv) (X : Int) (units : RUList) : List Tree :=
  units.flatMap fun u => u.trees.filter fun t => env.standAt t.mPositionIndex == X

/-- The tree rows that `saveStandSnapshot` inserts for the stand. -/
def standTreeRows (env : StandEnv) (X : Int) (units : RUList) : List Row :=
  (standTrees env X units).map (standTreeRow env X)

/-- The bound values of one `insert into saplings_stand` for an occupied slot
of the cell at pixel `p`; `scr.currentCoord()` is the centre of the pixel. -/
def standSaplingRow (env : StandEnv) (X : Int) (p : Int × Int) (s : SaplingTree) : Row :=
  [ .int X, .real (p.1 * cPxSize + cPxSize / 2 + env.world.1),
    .real (p.2 * cPxSize + cPxSize / 2 + env.world.2), .int s.species_index, .int s.age,
    .real s.height, .int s.stress_years, .int s.flags ]

/-- The sapling rows that `saveStandSnapshot` inserts: `SaplingCellRunner`
(modelled from the spec) visits the cells on the pixels of the stand, and the
inner loop the first `NSAPCELLS` slots of each. -/
def standSaplingRows (env : StandEnv) (X : Int) (g : SaplingGrid) : List Row :=
  g.flatMap fun e =>
    if env.standAt e.1 == X then
      ((e.2.saplings.take NSAPCELLS).filter fun s => s.occupied).map (standSaplingRow env X e.1)
    else []

/-- The first block of `saveStandSnapshot`: a connection that is open is used
as it is; otherwise the database is opened, and when one of the two tables is
missing both are dropped and created. -/
def openStandForWrite (env : StandEnv) (store : StandStore) : Outcome StandStore :=
  if store.isOpen then .done store
  else if !env.storeOpens then .raised .storeUnavailable store
  else if store.trees_stand.isNone || store.saplings_stand.isNone then
    .done { isOpen := true, trees_stand := some [], saplings_stand := some [] }
  else .done { store with isOpen := true }

/-- `Snapshot::saveStandSnapshot`.  The `delete` of the tree rows of the stand
runs before `db.transaction()`; the inserts, the `delete` of the sapling rows
and the sapling inserts run inside the transaction and are committed together
at the end.  A `prepare` against a missing table is a throw. -/
def saveStandSnapshot (env : StandEnv) (X : Int) (w : Live) (store : StandStore) :
    Outcome StandStore :=
  match openStandForWrite env store with
  | .raised e s => .raised e s
  | .done s0 =>
    let s1 : StandStore := { s0 with trees_stand := s0.trees_stand.map (deleteStand X) }
    match s1.trees_stand with
    | none => .raised .prepareFailed s1
    | some trees =>
      match insertRows env.accepts trees (standTreeRows env X w.units) with
      | none => .raised .insertFailed s1
      | some trees1 =>
        if env.regenerationEnabled then
          match s1.saplings_stand with
          | none => .raised .prepareFailed s1
          | some saps =>
            match insertRows env.accepts (deleteStand X saps)
                (standSaplingRows env X w.saplings) with
            | none => .raised .insertFailed s1
            | some saps1 =>
              .done { s1 with trees_stand := some trees1, saplings_stand := some saps1 }
        else .done { s1 with trees_stand := some trees1 }

/-- The loop `(*it)->remove(1., 1., 1.)` over `stand_grid->trees(stand_id)` of
`loadStandSnapshot` together with the `cleanTreeLists` at its end: the trees
on the pixels of the stand leave the tree lists. -/
def removeStandTrees (env : StandEnv) (X : Int) (units : RUList) : RUList :=
  units.map fun u => { u with trees := u.trees.filter fun t => env.standAt t.mPositionIndex != X }

/-- The model coordinate of a stored pair of world coordinates. -/
def storedCoord (env : StandEnv) (x y : QVariant) : Int × Int :=
  worldToModel env.world (x.toInt, y.toInt)

/-- One iteration of the loop of `loadStandSnapshot` over the tree rows of the
stand. -/
def loadStandTreeStep (env : StandEnv) (units : RUList) (row : Row) : Outcome RUList :=
  let coord := storedCoord env (value row 2) (value row 3)
  if !env.extent.contains coord then .done units
  else
    match ruAt env.rugrid units coord with
    | none => .done units
    | some ru =>
      let t : Tree := { newTree with mId := (value row 1).toInt, mPositionIndex := lifIndexAt coord }
      match speciesOf env.catalog (value row 4).toString with
      | none => .raised .invalidSpecies (addTree units ru t)
      | some s => .done (addTree units ru (treeScalars t s row))

/-- Modelled from the spec: a slot after `clearSaplings`. -/
def clearedSlot : SaplingTree :=
  { occupied := false, species_index := -1, age := 0, height := 0, stress_years := 0, flags := 0 }

/-- Step (1) of the sapling part of `loadStandSnapshot`: `clearSaplings` on
every cell that `SaplingCellRunner` visits, the cells on the pixels of the
stand. -/
def clearStandSaplings (env : StandEnv) (X : Int) (g : SaplingGrid) : SaplingGrid :=
  g.map fun e =>
    if env.standAt e.1 == X then (e.1, { saplings := e.2.saplings.map fun _ => clearedSlot })
    else e

/-- `static_cast<unsigned char>(v.toChar().toLatin1())` for an integer
variant: the code unit of the `QChar`, 0 when it is not a Latin-1 character. -/
def toLatin1UChar (i : Int) : Int :=
  if i % 65536 ≤ 255 then i % 65536 else 0

/-- One iteration of the loop of `loadStandSnapshot` over the sapling rows of
the stand; the row has the seven selected columns `posx, posy, species_index,
age, height, stress_years, flags`. -/
def loadStandSaplingStep (env : StandEnv) (g : SaplingGrid) (row : Row) : SaplingGrid :=
  let coord := storedCoord env (value row 0) (value row 1)
  if !env.extent.contains coord then g
  else
    match saplingCellAt g (lifIndexAt coord) with
    | none => g
    | some ci =>
      match g[ci]?.bind fun e =>
          addSapling e.2 (value row 4).toDouble (value row 3).toInt (value row 2).toInt with
      | none => g
      | some (slot, cell) =>
        let marks : SaplingTree → SaplingTree := fun s =>
          { s with stress_years := toLatin1UChar (value row 5).toInt
                   flags := toLatin1UChar (value row 6).toInt }
        let cell1 : SaplingCell := { saplings := cell.saplings.modify marks slot }
        g.modify (fun e => (e.1, cell1)) ci

/-- The sapling rows of the stand as `loadStandSnapshot` selects them: the
columns after `standID`. -/
def selectStandSaplings (X : Int) (rows : List Row) : List Row :=
  (selectStand X rows).map fun r => r.drop 1

/-- `Snapshot::loadStandSnapshot`.  A query against a missing table returns no
rows. -/
def loadStandSnapshot (env : StandEnv) (X : Int) (w : Live) (store : StandStore) :
    Outcome Live :=
  if !store.isOpen && !env.storeOpens then .raised .storeUnavailable w
  else
    let units0 := removeStandTrees env X w.units
    match forRows (loadStandTreeStep env) units0 (selectStand X (store.trees_stand.getD [])) with
    | .raised e u => .raised e { w with units := u }
    | .done u1 =>
      if env.regenerationEnabled then
        .done { units := u1
                saplings := (selectStandSaplings X (store.saplings_stand.getD [])).foldl
                  (loadStandSaplingStep env) (clearStandSaplings env X w.saplings) }
      else .done { w with units := u1 }

/-! ## The height grid cell of `model.h` -/

/-- Modelled from the spec: `isBitSet(value, bit)` of `global.h`, which is not
among the sources: whether bit `bit` of the 32-bit pattern is 1. -/
def isBitSet (value : Nat) (bit : Nat) : Bool :=
  (value / 2 ^ bit) % 2 == 1

/-- `struct HeightGridValue`: the dominant height and the `int mCount`, held as
its 32-bit two's complement pattern. -/
structure HeightGridValue where
  height : Scalar
  mCount : Nat
  deriving DecidableEq

/-- `count()`: `mCount & 0x0000ffff`. -/
def HeightGridValue.count (v : HeightGridValue) : Nat := v.mCount % 2 ^ 16

/-- `increaseCount()`: `mCount++` on the 32-bit pattern. -/
def HeightGridValue.increaseCount (v : HeightGridValue) : HeightGridValue :=
  { v with mCount := (v.mCount + 1) % 2 ^ 32 }

/-- `resetCount()`: `mCount &= 0xffff0000`. -/
def HeightGridValue.resetCount (v : HeightGridValue) : HeightGridValue :=
  { v with mCount := v.mCount - v.mCount % 2 ^ 16 }

/-- `isValid()`: `!isBitSet(mCount, 16)`. -/
def HeightGridValue.isValid (v : HeightGridValue) : Bool := !isBitSet v.mCount 16

/-- `isForestOutside()`: `isBitSet(mCount, 17)`. -/
def HeightGridValue.isForestOutside (v : HeightGridValue) : Bool := isBitSet v.mCount 17

/-- `isRadiating()`: `isBitSet(mCount, 18)`. -/
def HeightGridValue.isRadiating (v : HeightGridValue) : Bool := isBitSet v.mCount 18

/-- `init(aheight, acount)`. -/
def HeightGridValue.init (aheight : Scalar) (acount : Nat) : HeightGridValue :=
  { height := aheight, mCount := acount }

/-! ## Example data for the snag codec -/

/-- A snag pool whose 41 persisted fields are `b+1, ..., b+41` in column
order. -/
def snagFrom (b : Int) : Snag :=
  { mClimateFactor := b + 1
    mSWD0 := { C := b + 2, N := b + 3 }
    mSWD1 := { C := b + 4, N := b + 5 }
    mSWD2 := { C := b + 6, N := b + 7 }
    mTotalSWD := { C := b + 8, N := b + 9 }
    mNumberOfSnags0 := b + 10
    mNumberOfSnags1 := b + 11
    mNumberOfSnags2 := b + 12
    mAvgDbh0 := b + 13
    mAvgDbh1 := b + 14
    mAvgDbh2 := b + 15
    mAvgHeight0 := b + 16
    mAvgHeight1 := b + 17
    mAvgHeight2 := b + 18
    mAvgVolume0 := b + 19
    mAvgVolume1 := b + 20
    mAvgVolume2 := b + 21
    mTimeSinceDeath0 := b + 22
    mTimeSinceDeath1 := b + 23
    mTimeSinceDeath2 := b + 24
    mKSW0 := b + 25
    mKSW1 := b + 26
    mKSW2 := b + 27
    mHalfLife0 := b + 28
    mHalfLife1 := b + 29
    mHalfLife2 := b + 30
    mOtherWood0 := { C := b + 31, N := b + 32 }
    mOtherWood1 := { C := b + 33, N := b + 34 }
    mOtherWood2 := { C := b + 35, N := b + 36 }
    mOtherWood3 := { C := b + 37, N := b + 38 }
    mOtherWood4 := { C := b + 39, N := b + 40 }
    mBranchCounter := b + 41 }

/-- A unit without trees or soil at tile column `i`, holding the snag pool
`snagFrom b`. -/
def snagUnit (i : Int) (b : Int) : ResourceUnit :=
  { index := i, cornerPointOffset := (cPxPerRU * i, 0), trees := [], soil := none,
    snag := some (snagFrom b), waterCycle := { mContent := 0, mSnowPack := 0 } }

/-- The landscape that is saved: units 0 and 1 with snag fields `101..141`
and `201..241`. -/
def snagSaved : RUList := [snagUnit 0 100, snagUnit 1 200]

/-- The live landscape that is loaded into: the same two units, with snag
fields `901..941` and `951..991`. -/
def snagLive : RUList := [snagUnit 0 900, snagUnit 1 950]

/-- The mapping of a same-run reload of two units. -/
def twoUnitHash : RUHash := [(0, 0), (1, 1)]

/-! ## Example data for the tree codec and the remapper -/

/-- A tree of species `piab` with the given id and pixel position; its scalar
fields are told apart by their values. -/
def sampleTree (id : Int) (x y : Int) : Tree :=
  { mId := id, mPositionIndex := (x, y), mSpecies := some "piab", mAge := 40, mHeight := 21,
    mDbh := 30, mLeafArea := 55, mOpacity := 7, mFoliageMass := 11, mWoodyMass := 12,
    mFineRootMass := 13, mCoarseRootMass := 14, mNPPReserve := 15, mStressIndex := 16,
    mStamp := some { species := "piab", dbh := 30, height := 21 } }

/-- A unit with the given index at tile column `col`, holding the given
trees and no pools. -/
def treeUnit (index : Int) (col : Int) (trees : List Tree) : ResourceUnit :=
  { index := index, cornerPointOffset := (cPxPerRU * col, 0), trees := trees, soil := none,
    snag := none, waterCycle := { mContent := 0, mSnowPack := 0 } }

/-- The catalog of the examples. -/
def sampleCatalog : List String := ["piab", "fasy"]

/-- The saved landscape of the shifted-landscape scenario: unit 0 at the
origin with tree 100, unit 1 next to it with tree 200. -/
def scenarioSaved : RUList :=
  [treeUnit 0 0 [sampleTree 100 10 20], treeUnit 1 1 [sampleTree 200 60 20]]

/-- The companion raster of the saved landscape, whose model origin is at the
world coordinate (1000, 2000): one row of two cells holding 0 and 1. -/
def scenarioRaster : GisGrid :=
  { origin := (1000, 2000), cellSize := 100, nCols := 2, nRows := 1, data := [0, 1] }

/-- The live landscape of the scenario before the load: two units, each with
a tree of an earlier state. -/
def scenarioLive : Live :=
  { units := [treeUnit 0 0 [sampleTree 7 1 1], treeUnit 1 1 [sampleTree 8 51 1]]
    saplings := [] }

/-- The load of the scenario: the model origin of the live landscape is at the
world coordinate (900, 2000), one tile width to the left of the saved one, so
that live unit 1 lies over saved unit 0 and live unit 0 lies outside the
raster. -/
def scenarioEnv : LoadEnv :=
  { storeOpens := true, raster := some scenarioRaster, world := (900, 2000)
    rugrid := { left := 0, top := 0, sizeX := 2, cells := [some 0, some 1] }
    catalog := sampleCatalog, regenerationEnabled := false
    trees := saveTrees scenarioSaved, soil := [], snag := [], saplings := [] }

/-- A landscape of one unit whose index is -1, holding one tree. -/
def minusOneLandscape : RUList := [treeUnit (-1) 0 [sampleTree 100 10 20]]

/-- The mapping that the first branch of `loadSnapshot` builds for
`minusOneLandscape`. -/
def minusOneHash : RUHash := identityHash minusOneLandscape [some 0]

/-! ## Example data for the soil codec and further loads -/

/-- A unit at tile column `i` with index `i`, no trees and no snag pool, whose
soil and water fields are `b+1, ..., b+18` in column order. -/
def soilUnit (i : Int) (b : Int) : ResourceUnit :=
  { index := i, cornerPointOffset := (cPxPerRU * i, 0), trees := [], snag := none
    soil := some
      { mKyl := b + 1, mKyr := b + 2
        mInputLab := { C := b + 3, N := b + 4, mParameter := b + 5 }
        mInputRef := { C := b + 6, N := b + 7, mParameter := b + 8 }
        mYL := { C := b + 9, N := b + 10, mParameter := b + 11 }
        mYR := { C := b + 12, N := b + 13, mParameter := b + 14 }
        mSOM := { C := b + 15, N := b + 16 } }
    waterCycle := { mContent := b + 17, mSnowPack := b + 18 } }

/-- The landscape whose soil is saved. -/
def soilSaved : RUList := [soilUnit 0 100, soilUnit 1 200]

/-- The live landscape the soil is loaded into. -/
def soilLive : RUList := [soilUnit 0 900, soilUnit 1 950]

/-- The load of a same-run reload of the saved landscape of the scenario: no
companion raster. -/
def sameRunEnv : LoadEnv :=
  { scenarioEnv with raster := none, world := (1000, 2000) }

/-- The load of the scenario with the model origin of the live landscape at
the world coordinate (950, 2000), half a tile off the raster. -/
def misalignedEnv : LoadEnv :=
  { scenarioEnv with world := (950, 2000) }

/-! ## Example data for the full-landscape save and the saplings -/

/-- A tree record with stored unit index `idx` whose species identifier `abal`
is not in `sampleCatalog`. -/
def unknownSpeciesRow (idx : Int) : Row :=
  treeRow (treeUnit idx 0 []) { sampleTree 300 10 20 with mSpecies := some "abal" }

/-- A sapling slot that is occupied. -/
def sampleSapling : SaplingTree :=
  { occupied := true, species_index := 0, age := 3, height := 12, stress_years := 1, flags := 2 }

/-- A sapling slot that is free. -/
def freeSlot : SaplingTree :=
  { occupied := false, species_index := -1, age := 0, height := 0, stress_years := 0, flags := 0 }

/-- The saved landscape of the scenario with a sapling grid of one cell, at
pixel (10, 20), whose first slot is occupied. -/
def saplingLive : Live :=
  { units := scenarioSaved
    saplings := [((10, 20), { saplings := [sampleSapling, freeSlot, freeSlot, freeSlot, freeSlot] })] }

/-- A save against a store that opens and accepts every row, over the unit
grid of the scenario. -/
def saveEnvOk (regenerationEnabled : Bool) : SaveEnv :=
  { storeOpens := true, accepts := fun _ => true, regenerationEnabled := regenerationEnabled
    rugrid := scenarioEnv.rugrid }

/-- A store that holds a committed snapshot: the tree row of another
landscape. -/
def priorStore : Store :=
  { trees := saveTrees minusOneLandscape, soil := [], snag := [], saplings := [] }

/-- A live landscape whose one sapling cell, at pixel (10, 20), is full. -/
def fullCellLive : Live :=
  { units := scenarioSaved
    saplings := [((10, 20), { saplings := [sampleSapling, sampleSapling, sampleSapling,
      sampleSapling, sampleSapling] })] }

/-- A row of the table `saplings` for unit 0 and pixel (10, 20). -/
def sampleSaplingRow : Row :=
  [.int 0, .text "piab", .int 10, .int 20, .int 4, .real 9, .int 2]

/-! ## Example data for the stand-scoped snapshot -/

/-- The stand map of the examples: pixel columns below 25 are stand 1, the
others stand 2. -/
def sampleStandAt (p : Int × Int) : Int := if p.1 < 25 then 1 else 2

/-- A stand-scoped operation on the two-unit landscape of the scenario, against
a stand database that opens and accepts every row. -/
def standEnv (regenerationEnabled : Bool) : StandEnv :=
  { storeOpens := true, accepts := fun _ => true, regenerationEnabled := regenerationEnabled
    world := (1000, 2000), extent := { left := 0, top := 0, right := 200, bottom := 100 }
    rugrid := scenarioEnv.rugrid, standAt := sampleStandAt, catalog := sampleCatalog }

/-- A row of `saplings_stand` for stand 5. -/
def otherSaplingRow : Row :=
  [.int 5, .real 1021, .real 2041, .int 0, .int 3, .real 12, .int 1, .int 2]

/-- A row of `trees_stand` for stand 5. -/
def otherTreeRow : Row :=
  standTreeRow (standEnv false) 5 (sampleTree 500 70 20)

/-- A stand database that is not open and holds the table `saplings_stand`
with a row of stand 5, but no table `trees_stand`. -/
def saplingsOnlyStore : StandStore :=
  { isOpen := false, trees_stand := none, saplings_stand := some [otherSaplingRow] }

/-- A stand database that is not open and holds the table `trees_stand` with a
row of stand 5, but no table `saplings_stand`. -/
def treesOnlyStore : StandStore :=
  { isOpen := false, trees_stand := some [otherTreeRow], saplings_stand := none }

/-- A stand database that is not open and holds both tables, each with a row
of stand 5. -/
def bothTablesStore : StandStore :=
  { isOpen := false, trees_stand := some [otherTreeRow], saplings_stand := some [otherSaplingRow] }

/-- A row of `trees_stand` tagged with stand 1 whose stored coordinates
(1121, 2041) are those of pixel (60, 20), a pixel of stand 2. -/
def strayTreeRow : Row :=
  standTreeRow (standEnv false) 1 (sampleTree 900 60 20)

/-- A stand database whose only tree row is `strayTreeRow`. -/
def strayStore : StandStore :=
  { isOpen := true, trees_stand := some [strayTreeRow], saplings_stand := some [] }

/-! ## Predicates used in the proofs -/

/-- The cache of `loadTrees` agrees with the mapping. -/
def CacheOk (h : RUHash) (st : TreeLoad) : Prop :=
  st.ru = resolve h st.units st.ru_index ∧
  ∀ p u, st.ru = some p → st.units[p]? = some u →
    st.offsetx = u.cornerPointOffset.1 ∧ st.offsety = u.cornerPointOffset.2

/-- What `loadTrees` makes of a record: the tree `t` attached to unit `p` is
built from one of the rows whose stored index resolves to `p`. -/
def MadeFrom (h : RUHash) (catalog : List String) (rows : List Row) (units : RUList)
    (p : RUPtr) (t : Tree) : Prop :=
  ∃ row ∈ rows, ∃ (s : String) (u : ResourceUnit), resolve h units (value row 1).toInt = some p ∧
    speciesOf catalog (value row 4).toString = some s ∧ units[p]? = some u ∧
    t = treeScalars (treeIdPos u.cornerPointOffset.1 u.cornerPointOffset.2 row) s row

/-- The invariant of the loop of `loadTrees` with respect to the units at its
entry: same units and corners, a cached unit is the one the mapping gives for
the cached index, and every tree in a list is made from a row. -/
def TreeLoadInv (h : RUHash) (catalog : List String) (rows : List Row) (units : RUList)
    (st : TreeLoad) : Prop :=
  st.units.length = units.length ∧
  (∀ p : RUPtr, st.units[p]?.map (fun u : ResourceUnit => u.cornerPointOffset)
      = units[p]?.map (fun u : ResourceUnit => u.cornerPointOffset)) ∧
  (∀ p : RUPtr, st.ru = some p → resolve h units st.ru_index = some p ∧
      ∃ u : ResourceUnit, units[p]? = some u ∧ st.offsetx = u.cornerPointOffset.1 ∧
        st.offsety = u.cornerPointOffset.2) ∧
  (∀ (p : RUPtr) (u1 : ResourceUnit), st.units[p]? = some u1 → ∀ t ∈ u1.trees, MadeFrom h catalog rows units p t)

/-- The corner of the unit is a multiple of `cPxPerRU` on both axes. -/
abbrev unitAligned (u : ResourceUnit) : Prop :=
  u.cornerPointOffset.1 % cPxPerRU = 0 ∧ u.cornerPointOffset.2 % cPxPerRU = 0

/-- The pixel position of the tree is not negative and lies inside the tile
of the unit. -/
abbrev treeInTile (u : ResourceUnit) (t : Tree) : Prop :=
  0 ≤ t.mPositionIndex.1 ∧ 0 ≤ t.mPositionIndex.2 ∧
  u.cornerPointOffset.1 ≤ t.mPositionIndex.1 ∧
  t.mPositionIndex.1 < u.cornerPointOffset.1 + cPxPerRU ∧
  u.cornerPointOffset.2 ≤ t.mPositionIndex.2 ∧
  t.mPositionIndex.2 < u.cornerPointOffset.2 + cPxPerRU

/-- The tree has a species, and the catalog knows its identifier. -/
abbrev speciesKnown (catalog : List String) (t : Tree) : Prop :=
  ∃ s ∈ catalog, t.mSpecies = some s

/-- A unit with its trees re-stamped, as a load of its own records leaves it. -/
def restampUnit (u : ResourceUnit) : ResourceUnit :=
  { u with trees := u.trees.map restamp }

/-- A unit with its tree list emptied. -/
def clearUnit (u : ResourceUnit) : ResourceUnit :=
  { u with trees := [] }

/-- A live unit with the soil pool and the water state of a saved unit. -/
def restoreSoil (v u : ResourceUnit) : ResourceUnit :=
  { v with soil := u.soil, waterCycle := u.waterCycle }

/-- The entry that the no-raster branch of `loadSnapshot` assigns for a cell of
the unit grid: none for a null cell. -/
def identityEntry (units : RUList) (c : Option RUPtr) : Option (Int × RUPtr) :=
  c.bind fun p => units[p]?.map fun u => (u.index, p)

/-- The entry that the raster branch of `loadSnapshot` assigns for cell `i` of
the unit grid: none for a null cell, a unit with a negative index, or a
negative raster value. -/
def rasterEntry (world : Int × Int) (grid : GisGrid) (rugrid : RUGrid) (units : RUList)
    (i : Nat) : Option (Int × RUPtr) :=
  match (rugrid.cells.getD i none).bind fun p => units[p]?.map fun u => (u.index, p) with
  | some (index, p) =>
    if index > -1 then
      let v := grid.value world (rugrid.cellCenterPoint i)
      if v > -1 then some (v, p) else none
    else none
  | none => none

/-- The live units `cur` during a soil load have the soil pools where the
units at its entry had them. -/
def SoilSame (units cur : RUList) : Prop :=
  cur.length = units.length ∧
  ∀ p : RUPtr, (cur[p]?.bind fun u => u.soil).isSome = (units[p]?.bind fun u => u.soil).isSome

/-- The cache of `loadTrees` is either in its state at the entry of the loop
(previous index -1, no unit) or agrees with the mapping, and the units are as
many as at the entry. -/
def CacheWeak (h : RUHash) (units : RUList) (st : TreeLoad) : Prop :=
  st.units.length = units.length ∧ ((st.ru_index = -1 ∧ st.ru = none) ∨ CacheOk h st)

/-- The cell has its `NSAPCELLS` slots, and all of them are occupied. -/
abbrev cellFull (c : SaplingCell) : Prop :=
  c.saplings.length = NSAPCELLS ∧ ∀ s ∈ c.saplings, s.occupied = true

/-- The trees of a unit that stand on pixels outside stand `X`. -/
def outsideTrees (env : StandEnv) (X : Int) (u : ResourceUnit) : List Tree :=
  u.trees.filter fun t => env.standAt t.mPositionIndex != X

/-- The units `cur` have, outside stand `X`, the trees of `units`. -/
def TreesOutsideSame (env : StandEnv) (X : Int) (units cur : RUList) : Prop :=
  cur.length = units.length ∧
  ∀ p : RUPtr, cur[p]?.map (outsideTrees env X) = units[p]?.map (outsideTrees env X)

/-- The sapling grid `g` has, on the pixels outside stand `X`, the cells of
`g0`. -/
def SaplingsOutsideSame (env : StandEnv) (X : Int) (g0 g : SaplingGrid) : Prop :=
  g.length = g0.length ∧
  ∀ (i : Nat) (e : (Int × Int) × SaplingCell), g0[i]? = some e → env.standAt e.1 ≠ X →
    g[i]? = some e

/-- A snag table of two records: the record of unit 0 with fields 101 to 141,
and a record with the stored index 7 and fields 701 to 741. -/
def snagRowsWithStranger : List Row :=
  [snagRow (snagUnit 0 100) (snagFrom 100), snagRow (snagUnit 7 700) (snagFrom 700)]

/-- The sapling grid `g` has the cells of `g0`, and every slot that is occupied
in `g0` is the same slot in `g`. -/
def OccupiedKept (g0 g : SaplingGrid) : Prop :=
  g.length = g0.length ∧
  ∀ (i : Nat) (e : (Int × Int) × SaplingCell), g0[i]? = some e →
    ∃ e1 : (Int × Int) × SaplingCell, g[i]? = some e1 ∧ e1.1 = e.1 ∧
      e1.2.saplings.length = e.2.saplings.length ∧
      ∀ (k : Nat) (s : SaplingTree), e.2.saplings[k]? = some s → s.occupied = true →
        e1.2.saplings[k]? = some s

/-- A live landscape whose one sapling cell, at pixel (10, 20), has four
occupied slots and one free slot. -/
def nearlyFullLive : Live :=
  { units := scenarioSaved
    saplings := [((10, 20), { saplings := [sampleSapling, sampleSapling, sampleSapling,
      sampleSapling, freeSlot] })] }

/-- The model coordinate of the centre of light pixel `p`. -/
def pixelCentre (p : Int × Int) : Int × Int :=
  (p.1 * cPxSize + cPxSize / 2, p.2 * cPxSize + cPxSize / 2)

/-- The occupants of a cell that `saveStandSnapshot` writes: the occupied ones
of the first `NSAPCELLS` slots, in slot order. -/
def savedOccupants (c : SaplingCell) : List SaplingTree :=
  (c.saplings.take NSAPCELLS).filter fun s => s.occupied

/-- A cleared cell refilled with the saved occupants of `c`, slot by slot from
the first. -/
def restoredCell (c : SaplingCell) : SaplingCell :=
  { saplings := savedOccupants c ++
      List.replicate (NSAPCELLS - (savedOccupants c).length) clearedSlot }

/-- The sapling grid after a stand load: the cells of the stand refilled from
the saved grid `g`, the others as they are in the grid `g1` at load time. -/
def restoredGrid (env : StandEnv) (X : Int) (g g1 : SaplingGrid) : SaplingGrid :=
  List.zipWith (fun e e1 => if env.standAt e.1 == X then (e.1, restoredCell e.2) else e1) g g1

/-- The cell lies on a pixel of the landscape, and the stress counter and flag
byte of its occupants are bytes. -/
def StandCellOk (env : StandEnv) (e : (Int × Int) × SaplingCell) : Prop :=
  0 ≤ e.1.1 ∧ 0 ≤ e.1.2 ∧ env.extent.contains (pixelCentre e.1) = true ∧
  ∀ s ∈ e.2.saplings, s.occupied = true →
    (0 ≤ s.stress_years ∧ s.stress_years ≤ 255) ∧ (0 ≤ s.flags ∧ s.flags ≤ 255)

/-- The load of the scenario, with its aligned raster, from a tree table whose
only record is of the unknown species `abal` for the saved unit 0. -/
def unknownSpeciesEnv : LoadEnv :=
  { scenarioEnv with trees := [unknownSpeciesRow 0] }

/-- The units `cur` hold, outside stand `X`, the trees of `units` in their
order, followed at most by trees that were appended. -/
def TreesOutsideKept (env : StandEnv) (X : Int) (units cur : RUList) : Prop :=
  cur.length = units.length ∧
  ∀ (p : RUPtr) (u : ResourceUnit), units[p]? = some u →
    ∃ (u1 : ResourceUnit) (added : List Tree), cur[p]? = some u1 ∧
      outsideTrees env X u1 = outsideTrees env X u ++ added

/-- The stand database after stand 1 of the sapling scenario was saved into
`bothTablesStore`: the rows of stand 5 and the rows of stand 1. -/
def savedStandStore : StandStore :=
  { isOpen := true
    trees_stand := some [otherTreeRow, standTreeRow (standEnv true) 1 (sampleTree 100 10 20)]
    saplings_stand := some [otherSaplingRow,
      standSaplingRow (standEnv true) 1 (10, 20) sampleSapling] }

/-- A stand database that is not open and has neither stand table yet. -/
def freshStandStore : StandStore :=
  { isOpen := false, trees_stand := none, saplings_stand := none }

/-- The stand database after stand 1 of the sapling scenario was saved into
`freshStandStore`: the rows of stand 1. -/
def firstSaveStore : StandStore :=
  { isOpen := true
    trees_stand := some [standTreeRow (standEnv true) 1 (sampleTree 100 10 20)]
    saplings_stand := some [standSaplingRow (standEnv true) 1 (10, 20) sampleSapling] }

end Snapshot

/-! # Theorems -/

namespace Snapshot

/-! ## Snag codec: the column counter -/

/-- C1 (evaluation at the failing input): a snag table of two records, for
units 0 and 1, is loaded into two live units.  The first record is read from
its columns 0 to 41.  The column counter is not reset, so the unit index of the
second record is read at column 42, past the end of the row: the invalid
variant gives index 0, unit 0 is written a second time with the zeros of
columns 43 to 83, and unit 1 keeps the pool it had before the load instead of
receiving the fields 201 to 241 of its own record. -/
theorem loadSnags_two_records_misread :
    (saveSnags snagSaved).length = 2 ∧
    ((loadSnags twoUnitHash (saveSnags snagSaved) snagLive).get? 1).bind (fun u => u.snag)
      = some (snagFrom 950) ∧
    ((loadSnags twoUnitHash (saveSnags snagSaved) snagLive).get? 0).bind (fun u => u.snag)
      = some (loadSnagFields (snagFrom 900) [] 0) ∧
    ((loadSnags twoUnitHash (saveSnags snagSaved) snagLive).get? 1).bind (fun u => u.snag)
      ≠ some (snagFrom 200) ∧
    ((loadSnags twoUnitHash (saveSnags snagSaved) snagLive).get? 0).bind (fun u => u.snag)
      ≠ some (snagFrom 100) ∧
    (loadSnags twoUnitHash (saveSnags snagSaved).tail snagLive).get? 1
      = some (snagUnit 1 200) := by
  decide

/-! ## The position rule -/

/-- C4 (counterexample): for the unit whose corner offset is 0, a multiple of
`cPxPerRU`, the stored coordinate -3 is reconstructed as -3, which lies below
the offset and so outside the tile. -/
theorem foldPosition_negative_outside_tile :
    (0 : Int) % cPxPerRU = 0 ∧ foldPosition 0 (-3) = -3 ∧ ¬ ((0 : Int) ≤ foldPosition 0 (-3)) ∧
    (treeIdPos 0 0 [.int 1, .int 0, .int (-3), .int 4]).mPositionIndex = (-3, 4) := by
  decide

/-- C4 (amended): for corner offsets that are multiples of `cPxPerRU` and
stored coordinates that are not negative, the coordinate reconstructed by
`loadTrees` and `loadSaplings` lies inside the tile on each axis. -/
theorem foldPosition_inside_tile (ox oy sx sy : Int)
    (_hox : ox % cPxPerRU = 0) (_hoy : oy % cPxPerRU = 0) (hsx : 0 ≤ sx) (hsy : 0 ≤ sy) :
    (ox ≤ foldPosition ox sx ∧ foldPosition ox sx < ox + cPxPerRU) ∧
    (oy ≤ foldPosition oy sy ∧ foldPosition oy sy < oy + cPxPerRU) := by
  have hpos : (0 : Int) < cPxPerRU := by decide
  have hx0 := Int.tmod_nonneg cPxPerRU hsx
  have hx1 := Int.tmod_lt_of_pos sx hpos
  have hy0 := Int.tmod_nonneg cPxPerRU hsy
  have hy1 := Int.tmod_lt_of_pos sy hpos
  unfold foldPosition
  omega

/-- C4 (witness): offset (50, 100) and stored coordinate (123, 7). -/
theorem foldPosition_inside_tile_witness :
    ((50 : Int) ≤ foldPosition 50 123 ∧ foldPosition 50 123 < 50 + cPxPerRU) ∧
    ((100 : Int) ≤ foldPosition 100 7 ∧ foldPosition 100 7 < 100 + cPxPerRU) :=
  foldPosition_inside_tile 50 100 123 7 (by decide) (by decide) (by decide) (by decide)

/-! ## The shifted-landscape scenario -/

/-- C8: in the scenario the remapper maps stored index 0 to live unit 1 and
nothing else; after the load tree 100 is the only tree of live unit 1, at
`cornerOffset + stored % cPxPerRU` on each axis, tree 200 is in no list, and
live unit 0 has no trees. -/
theorem shifted_landscape_scenario :
    saveTrees scenarioSaved =
      [treeRow (treeUnit 0 0 []) (sampleTree 100 10 20),
       treeRow (treeUnit 1 1 []) (sampleTree 200 60 20)] ∧
    buildHash scenarioEnv scenarioLive.units = .ok [(0, 1)] ∧
    loadSnapshot scenarioEnv scenarioLive =
      .done { units := [treeUnit 0 0 [], treeUnit 1 1 [sampleTree 100 60 20]], saplings := [] } ∧
    (sampleTree 100 60 20).mPositionIndex =
      (foldPosition (treeUnit 1 1 []).cornerPointOffset.1 10,
       foldPosition (treeUnit 1 1 []).cornerPointOffset.2 20) := by
  refine ⟨by decide, rfl, by decide, by decide⟩

/-! ## Tree load: the cached unit -/

/-- C10 (counterexample): the mapping of the one-unit landscape whose unit has
index -1 resolves stored index -1 to that unit, and the tree table holds one
record with stored index -1; `loadTrees` starts with the previous index at -1
and no unit, performs no lookup, and skips the record, where a fresh lookup
attaches the tree. -/
theorem loadTrees_cache_misses_minus_one :
    resolve minusOneHash minusOneLandscape (-1) = some 0 ∧
    (saveTrees minusOneLandscape).map (fun row => (value row 1).toInt) = [-1] ∧
    loadTrees minusOneHash sampleCatalog (saveTrees minusOneLandscape) minusOneLandscape
      = .done [treeUnit (-1) 0 []] ∧
    loadTreesFresh minusOneHash sampleCatalog (saveTrees minusOneLandscape) minusOneLandscape
      = .done minusOneLandscape := by
  decide

/-! ## Shared lemmas: loops and unit pointers -/

theorem forRows_append {σ : Type} (step : σ → Row → Outcome σ) (s : σ) (xs ys : List Row) :
    forRows step s (xs ++ ys) =
      match forRows step s xs with
      | .done s1 => forRows step s1 ys
      | .raised e s1 => .raised e s1 := by
  induction xs generalizing s with
  | nil => rfl
  | cons x xs ih =>
    simp only [List.cons_append, forRows]
    cases step s x with
    | done s1 => exact ih s1
    | raised e s1 => rfl

theorem resolve_length (h : RUHash) {a b : RUList} (hlen : a.length = b.length) (k : Int) :
    resolve h a k = resolve h b k := by
  simp [resolve, hlen]

theorem resolve_lt {h : RUHash} {units : RUList} {k : Int} {p : RUPtr}
    (hp : resolve h units k = some p) : p < units.length := by
  unfold resolve at hp
  cases hv : hashValue h k with
  | none => simp [hv] at hp
  | some q =>
    simp only [hv, Option.filter_some] at hp
    split at hp
    · rename_i hq
      simp only [Option.some.injEq] at hp
      subst hp
      simpa using hq
    · cases hp

theorem addTree_length (units : RUList) (p : RUPtr) (t : Tree) :
    (addTree units p t).length = units.length := by
  simp [addTree, modifyRU]

theorem addTree_getElem? (units : RUList) (p q : RUPtr) (t : Tree) :
    (addTree units p t)[q]? =
      units[q]?.map fun u => if p = q then { u with trees := u.trees ++ [t] } else u := by
  simp [addTree, modifyRU, List.getElem?_modify]

theorem treeLookup_units (h : RUHash) (st : TreeLoad) (k : Int) :
    (treeLookup h st k).units = st.units := by
  unfold treeLookup
  split
  · split <;> rfl
  · rfl

theorem treeLookup_ok (h : RUHash) (st : TreeLoad) (k : Int)
    (hst : k = st.ru_index → CacheOk h st) :
    CacheOk h (treeLookup h st k) ∧ (treeLookup h st k).ru = resolve h st.units k := by
  unfold treeLookup
  by_cases hk : k = st.ru_index
  · have hst1 := hst hk
    subst hk
    simp only [bne_self_eq_false, Bool.false_eq_true, ↓reduceIte]
    exact ⟨hst1, hst1.1⟩
  · have hb : (k != st.ru_index) = true := by simpa using hk
    simp only [hb, ↓reduceIte]
    cases hr : resolve h st.units k with
    | none =>
      refine ⟨⟨by simp [hr], ?_⟩, rfl⟩
      intro p u hp
      cases hp
    | some p =>
      refine ⟨⟨by simp [hr], ?_⟩, rfl⟩
      intro q u hq hu
      simp only [Option.some.injEq] at hq
      subst hq
      simp only at hu
      simp [hu]

theorem loadTreesStep_fresh (h : RUHash) (catalog : List String) (st : TreeLoad) (row : Row)
    (hst : (value row 1).toInt = st.ru_index → CacheOk h st) :
    (loadTreesStep h catalog st row).map (fun s => s.units)
      = loadTreesStepFresh h catalog st.units row ∧
    ∀ st1, loadTreesStep h catalog st row = .done st1 → CacheOk h st1 := by
  obtain ⟨hok, hru⟩ := treeLookup_ok h st (value row 1).toInt hst
  have hun := treeLookup_units h st (value row 1).toInt
  unfold loadTreesStep loadTreesStepFresh
  simp only
  generalize treeLookup h st (value row 1).toInt = st1 at hok hru hun
  rw [← hru]
  cases hp : st1.ru with
  | none =>
    simp only [Outcome.map, hun, true_and]
    intro st2 h2
    cases h2
    exact hok
  | some p =>
    have hlt : p < st1.units.length := by
      have := hok.1
      rw [hp] at this
      exact resolve_lt this.symm
    obtain ⟨u, hu⟩ : ∃ u, st1.units[p]? = some u := ⟨st1.units[p], by simp [hlt]⟩
    obtain ⟨hox, hoy⟩ := hok.2 p u hp hu
    simp only [← hun, hu, Option.map_some', Option.getD_some, hox, hoy]
    cases hs : speciesOf catalog (value row 4).toString with
    | none =>
      simp only [Outcome.map, true_and]
      intro st2 h2
      cases h2
    | some s =>
      simp only [Outcome.map, true_and]
      intro st2 h2
      cases h2
      refine ⟨?_, ?_⟩
      · simp only
        rw [resolve_length h (addTree_length _ _ _)]
        rw [← hp]
        exact hok.1
      · intro q v hq hv
        simp only [Option.some.injEq] at hq
        subst hq
        rw [addTree_getElem?, hu] at hv
        simp only [Option.map_some', ↓reduceIte, Option.some.injEq] at hv
        subst hv
        exact ⟨rfl, rfl⟩

theorem forRows_loadTrees_fresh (h : RUHash) (catalog : List String) (rows : List Row)
    (st : TreeLoad)
    (hst : CacheOk h st ∨ ∀ row, rows.head? = some row → (value row 1).toInt ≠ st.ru_index) :
    (forRows (loadTreesStep h catalog) st rows).map (fun s => s.units)
      = forRows (loadTreesStepFresh h catalog) st.units rows := by
  induction rows generalizing st with
  | nil => rfl
  | cons row rows ih =>
    have hweak : (value row 1).toInt = st.ru_index → CacheOk h st := by
      intro heq
      rcases hst with hst | hst
      · exact hst
      · exact absurd heq (hst row rfl)
    obtain ⟨h1, h2⟩ := loadTreesStep_fresh h catalog st row hweak
    simp only [forRows]
    cases hstep : loadTreesStep h catalog st row with
    | done st1 =>
      rw [hstep] at h1
      simp only [Outcome.map] at h1
      rw [← h1]
      exact ih st1 (Or.inl (h2 st1 hstep))
    | raised e st1 =>
      rw [hstep] at h1
      simp only [Outcome.map] at h1
      rw [← h1]
      rfl

theorem clearTrees_length (units : RUList) : (clearTrees units).length = units.length := by
  simp [clearTrees]

theorem loadTrees_eq_fresh_aux (h : RUHash) (catalog : List String) (rows : List Row)
    (units : RUList)
    (hminus : resolve h units (-1) = none ∨
      ∀ row, rows.head? = some row → (value row 1).toInt ≠ -1) :
    loadTrees h catalog rows units = loadTreesFresh h catalog rows units := by
  unfold loadTrees loadTreesFresh
  apply forRows_loadTrees_fresh
  rcases hminus with hminus | hminus
  · left
    refine ⟨?_, ?_⟩
    · simp only [treeLoadInit]
      rw [resolve_length h (clearTrees_length units), hminus]
    · intro p u hp
      cases hp
  · right
    exact hminus

theorem forRows_done_inv {σ : Type} (step : σ → Row → Outcome σ) (P : σ → Prop)
    (rows : List Row)
    (hstep : ∀ s row s1, row ∈ rows → P s → step s row = .done s1 → P s1) :
    ∀ s s1, P s → forRows step s rows = .done s1 → P s1 := by
  induction rows with
  | nil =>
    intro s s1 hs hrun
    simp only [forRows, Outcome.done.injEq] at hrun
    exact hrun ▸ hs
  | cons row rows ih =>
    intro s s1 hs hrun
    simp only [forRows] at hrun
    cases hr : step s row with
    | done s2 =>
      rw [hr] at hrun
      exact ih (fun a r b hr' => hstep a r b (List.mem_cons_of_mem _ hr')) s2 s1
        (hstep s row s2 (List.mem_cons_self _ _) hs hr) hrun
    | raised e s2 =>
      rw [hr] at hrun
      cases hrun

theorem treeLookup_inv (h : RUHash) (catalog : List String) (rows : List Row) (units : RUList)
    (st : TreeLoad) (k : Int) (hst : TreeLoadInv h catalog rows units st) :
    TreeLoadInv h catalog rows units (treeLookup h st k) ∧
    ∀ p, (treeLookup h st k).ru = some p → (treeLookup h st k).ru_index = k := by
  obtain ⟨hlen, hcpo, hcache, hmade⟩ := hst
  unfold treeLookup
  by_cases hk : k = st.ru_index
  · subst hk
    simp only [bne_self_eq_false, Bool.false_eq_true, ↓reduceIte]
    exact ⟨⟨hlen, hcpo, hcache, hmade⟩, fun _ _ => trivial⟩
  · have hb : (k != st.ru_index) = true := by simpa using hk
    simp only [hb, ↓reduceIte]
    cases hr : resolve h st.units k with
    | none =>
      refine ⟨⟨hlen, hcpo, ?_, hmade⟩, fun _ _ => rfl⟩
      intro p hp
      cases hp
    | some p =>
      refine ⟨⟨hlen, hcpo, ?_, hmade⟩, fun _ _ => rfl⟩
      intro q hq
      simp only [Option.some.injEq] at hq
      subst hq
      have hr2 : resolve h units k = some p := by rw [← resolve_length h hlen]; exact hr
      have hlt := resolve_lt hr2
      have hu : units[p]? = some units[p] := by simp [hlt]
      have hc := hcpo p
      rw [hu] at hc
      cases hsu : st.units[p]? with
      | none => simp [hsu] at hc
      | some v =>
        simp only [hsu, Option.map_some', Option.some.injEq] at hc
        refine ⟨hr2, units[p], hu, ?_, ?_⟩
        · simp [hsu, hc]
        · simp [hsu, hc]

theorem loadTreesStep_inv (h : RUHash) (catalog : List String) (rows : List Row)
    (units : RUList) (st : TreeLoad) (row : Row) (st1 : TreeLoad) (hrow : row ∈ rows)
    (hst : TreeLoadInv h catalog rows units st)
    (hstep : loadTreesStep h catalog st row = .done st1) :
    TreeLoadInv h catalog rows units st1 := by
  obtain ⟨hinv, hidx⟩ := treeLookup_inv h catalog rows units st (value row 1).toInt hst
  unfold loadTreesStep at hstep
  simp only at hstep
  generalize treeLookup h st (value row 1).toInt = st2 at hinv hidx hstep
  cases hp : st2.ru with
  | none =>
    simp only [hp, Outcome.done.injEq] at hstep
    exact hstep ▸ hinv
  | some p =>
    simp only [hp] at hstep
    cases hs : speciesOf catalog (value row 4).toString with
    | none => simp [hs] at hstep
    | some s =>
      simp only [hs, Outcome.done.injEq] at hstep
      subst hstep
      obtain ⟨hlen, hcpo, hcache, hmade⟩ := hinv
      obtain ⟨hres, u, hu, hox, hoy⟩ := hcache p hp
      rw [hidx p hp] at hres
      refine ⟨?_, ?_, ?_, ?_⟩
      · simp only [addTree_length]
        exact hlen
      · intro q
        simp only [addTree_getElem?]
        rw [← hcpo q]
        cases st2.units[q]? with
        | none => rfl
        | some v =>
          simp only [Option.map_some', Option.some.injEq]
          split <;> rfl
      · intro q hq
        have hq2 : st2.ru = some q := by rw [hp]; exact hq
        exact hcache q hq2
      · intro q u1 hq t ht
        simp only [addTree_getElem?] at hq
        cases hv : st2.units[q]? with
        | none => simp [hv] at hq
        | some v =>
          simp only [hv, Option.map_some', Option.some.injEq] at hq
          by_cases hpq : p = q
          · subst hpq
            simp only [↓reduceIte] at hq
            subst hq
            simp only [List.mem_append, List.mem_singleton] at ht
            rcases ht with ht | ht
            · exact hmade p v hv t ht
            · refine ⟨row, hrow, s, u, hres, hs, hu, ?_⟩
              rw [ht, hox, hoy]
          · simp only [hpq, ↓reduceIte] at hq
            subst hq
            exact hmade q v hv t ht

theorem clearTrees_idem (units : RUList) : clearTrees (clearTrees units) = clearTrees units := by
  simp [clearTrees, List.map_map, Function.comp_def]

theorem treeLoadInit_inv (h : RUHash) (catalog : List String) (rows : List Row)
    (units : RUList) : TreeLoadInv h catalog rows units (treeLoadInit units) := by
  refine ⟨clearTrees_length units, ?_, ?_, ?_⟩
  · intro p
    simp only [treeLoadInit, clearTrees, List.getElem?_map, Option.map_map]
    rfl
  · intro p hp
    cases hp
  · intro p u1 hu t ht
    simp only [treeLoadInit, clearTrees, List.getElem?_map] at hu
    cases hv : units[p]? with
    | none => simp [hv] at hu
    | some v =>
      simp only [hv, Option.map_some', Option.some.injEq] at hu
      subst hu
      simp at ht

theorem loadTrees_done_inv (h : RUHash) (catalog : List String) (rows : List Row)
    (units units1 : RUList) (hdone : loadTrees h catalog rows units = .done units1) :
    ∃ st, TreeLoadInv h catalog rows units st ∧ st.units = units1 := by
  unfold loadTrees at hdone
  cases hrun : forRows (loadTreesStep h catalog) (treeLoadInit units) rows with
  | raised e st => simp [hrun, Outcome.map] at hdone
  | done st =>
    simp only [hrun, Outcome.map, Outcome.done.injEq] at hdone
    refine ⟨st, ?_, hdone⟩
    exact forRows_done_inv (loadTreesStep h catalog) (TreeLoadInv h catalog rows units) rows
      (fun s row s1 hrow hs hstep => loadTreesStep_inv h catalog rows units s row s1 hrow hs hstep)
      _ _ (treeLoadInit_inv h catalog rows units) hrun

/-- C10 (amended): for every index mapping and every sequence of tree records
such that the mapping does not resolve -1 or the first record's stored index is
not -1, `loadTrees` with its cached unit does what the record-by-record load
does that looks every stored index up afresh: a tree is created for a record
exactly when the mapping resolves the record's stored index to a live unit, it
is attached to that unit, and records that do not resolve are skipped. -/
theorem loadTrees_cached_eq_fresh (h : RUHash) (catalog : List String) (rows : List Row)
    (units : RUList)
    (hminus : resolve h units (-1) = none ∨
      ∀ row, rows.head? = some row → (value row 1).toInt ≠ -1) :
    loadTrees h catalog rows units = loadTreesFresh h catalog rows units :=
  loadTrees_eq_fresh_aux h catalog rows units hminus

/-- C10 (witness): the two-unit mapping, which has no key -1, and the tree
table of the scenario. -/
theorem loadTrees_cached_eq_fresh_witness :
    (resolve twoUnitHash scenarioSaved (-1) = none ∨
      ∀ row, (saveTrees scenarioSaved).head? = some row → (value row 1).toInt ≠ -1) ∧
    loadTrees twoUnitHash sampleCatalog (saveTrees scenarioSaved) scenarioSaved
      = loadTreesFresh twoUnitHash sampleCatalog (saveTrees scenarioSaved) scenarioSaved :=
  ⟨Or.inl (by decide),
   loadTrees_cached_eq_fresh twoUnitHash sampleCatalog (saveTrees scenarioSaved) scenarioSaved
    (Or.inl (by decide))⟩

/-! ## Tree load: hard replace -/

/-- C9: when `loadTrees` completes, the outcome is the one it has on the
landscape with every tree list emptied beforehand; every tree in the list of a
unit is a tree built from a record whose stored index the mapping resolves to
that unit; and a unit to which no record resolves has an empty list. -/
theorem loadTrees_hard_replace (h : RUHash) (catalog : List String) (rows : List Row)
    (units units1 : RUList) (hdone : loadTrees h catalog rows units = .done units1) :
    loadTrees h catalog rows (clearTrees units) = .done units1 ∧
    (∀ (p : RUPtr) (u1 : ResourceUnit), units1[p]? = some u1 → ∀ t ∈ u1.trees,
      ∃ row ∈ rows, ∃ (s : String) (u : ResourceUnit),
        resolve h units (value row 1).toInt = some p ∧
        speciesOf catalog (value row 4).toString = some s ∧ units[p]? = some u ∧
        t = treeScalars (treeIdPos u.cornerPointOffset.1 u.cornerPointOffset.2 row) s row) ∧
    (∀ (p : RUPtr) (u1 : ResourceUnit), units1[p]? = some u1 →
      (∀ row ∈ rows, resolve h units (value row 1).toInt ≠ some p) → u1.trees = []) := by
  obtain ⟨st, ⟨_, _, _, hmade⟩, hst⟩ := loadTrees_done_inv h catalog rows units units1 hdone
  subst hst
  refine ⟨?_, hmade, ?_⟩
  · rw [← hdone]
    simp only [loadTrees, treeLoadInit, clearTrees_idem]
  · intro p u1 hu hnone
    cases htr : u1.trees with
    | nil => rfl
    | cons t ts =>
      obtain ⟨row, hrow, s, u, hres, _⟩ := hmade p u1 hu t (by simp [htr])
      exact absurd hres (hnone row hrow)

/-- C9 (witness): the load of the scenario's tree table into the live
landscape of the scenario under the mapping of its remapper. -/
theorem loadTrees_hard_replace_witness :
    loadTrees [(0, 1)] sampleCatalog (saveTrees scenarioSaved) (clearTrees scenarioLive.units)
      = .done [treeUnit 0 0 [], treeUnit 1 1 [sampleTree 100 60 20]] ∧
    (∀ (p : RUPtr) (u1 : ResourceUnit),
      [treeUnit 0 0 [], treeUnit 1 1 [sampleTree 100 60 20]][p]? = some u1 → ∀ t ∈ u1.trees,
      ∃ row ∈ saveTrees scenarioSaved, ∃ (s : String) (u : ResourceUnit),
        resolve [(0, 1)] scenarioLive.units (value row 1).toInt = some p ∧
        speciesOf sampleCatalog (value row 4).toString = some s ∧
        scenarioLive.units[p]? = some u ∧
        t = treeScalars (treeIdPos u.cornerPointOffset.1 u.cornerPointOffset.2 row) s row) ∧
    (∀ (p : RUPtr) (u1 : ResourceUnit),
      [treeUnit 0 0 [], treeUnit 1 1 [sampleTree 100 60 20]][p]? = some u1 →
      (∀ row ∈ saveTrees scenarioSaved,
        resolve [(0, 1)] scenarioLive.units (value row 1).toInt ≠ some p) → u1.trees = []) :=
  loadTrees_hard_replace [(0, 1)] sampleCatalog (saveTrees scenarioSaved) scenarioLive.units
    [treeUnit 0 0 [], treeUnit 1 1 [sampleTree 100 60 20]] (by decide)

theorem foldPosition_of_inTile (o s : Int) (ho : o % cPxPerRU = 0) (h0 : 0 ≤ s)
    (h1 : o ≤ s) (h2 : s < o + cPxPerRU) : foldPosition o s = s := by
  unfold foldPosition
  rw [Int.tmod_eq_emod h0 (by decide)]
  unfold cPxPerRU at *
  omega

theorem loadTreesStepFresh_treeRow (h : RUHash) (catalog : List String) (cur : RUList)
    (p : RUPtr) (u : ResourceUnit) (t : Tree)
    (hres : resolve h cur u.index = some p)
    (hcur : cur[p]?.map (fun v => v.cornerPointOffset) = some u.cornerPointOffset)
    (hal : unitAligned u) (hin : treeInTile u t) (hsp : speciesKnown catalog t) :
    loadTreesStepFresh h catalog cur (treeRow u t) = .done (addTree cur p (restamp t)) := by
  obtain ⟨s, hs, hts⟩ := hsp
  obtain ⟨hx0, hy0, hx1, hx2, hy1, hy2⟩ := hin
  cases hv : cur[p]? with
  | none => simp [hv] at hcur
  | some v =>
    simp only [hv, Option.map_some', Option.some.injEq] at hcur
    have hfx := foldPosition_of_inTile _ _ hal.1 hx0 hx1 hx2
    have hfy := foldPosition_of_inTile _ _ hal.2 hy0 hy1 hy2
    have hspec : speciesOf catalog s = some s := by simp [speciesOf, hs]
    cases t with
    | mk mId mPositionIndex mSpecies mAge mHeight mDbh mLeafArea mOpacity mFoliageMass
        mWoodyMass mFineRootMass mCoarseRootMass mNPPReserve mStressIndex mStamp =>
      simp only at hts hfx hfy
      subst hts
      simp only [loadTreesStepFresh, treeRow, value, List.getD_cons_succ, List.getD_cons_zero,
        QVariant.toInt, QVariant.toString, QVariant.toDouble, Option.getD_some, hres, hv,
        Option.map_some', hcur, hspec, treeIdPos, treeScalars, newTree, hfx, hfy, restamp]

theorem addTree_map_corner (cur : RUList) (p : RUPtr) (t : Tree) :
    (addTree cur p t).map (fun v => v.cornerPointOffset)
      = cur.map (fun v => v.cornerPointOffset) := by
  apply List.ext_getElem?
  intro q
  simp only [List.getElem?_map, addTree_getElem?, Option.map_map]
  cases cur[q]? with
  | none => rfl
  | some v =>
    simp only [Option.map_some', Function.comp_apply, Option.some.injEq]
    split <;> rfl

theorem addTree_addTrees (cur : RUList) (p : RUPtr) (t : Tree) (ts : List Tree) :
    modifyRU (addTree cur p t) p (fun v => { v with trees := v.trees ++ ts })
      = modifyRU cur p (fun v => { v with trees := v.trees ++ t :: ts }) := by
  simp only [addTree, modifyRU, List.modify_modify_eq]
  congr 1
  funext v
  simp

theorem forRows_unit_rows (h : RUHash) (catalog : List String) (L : RUList)
    (p : RUPtr) (u : ResourceUnit) (hu : L[p]? = some u)
    (hres : resolve h L u.index = some p) (hal : unitAligned u) (ts : List Tree)
    (hts : ∀ t ∈ ts, treeInTile u t ∧ speciesKnown catalog t) (cur : RUList)
    (hcur : cur.map (fun v => v.cornerPointOffset) = L.map (fun v => v.cornerPointOffset)) :
    forRows (loadTreesStepFresh h catalog) cur (ts.map (treeRow u))
      = .done (modifyRU cur p (fun v => { v with trees := v.trees ++ ts.map restamp })) := by
  induction ts generalizing cur with
  | nil =>
    simp only [List.map_nil, forRows, List.append_nil, Outcome.done.injEq]
    exact (List.modify_id p cur).symm
  | cons t ts ih =>
    have hlen : cur.length = L.length := by
      have := congrArg List.length hcur
      simpa using this
    have hcp : cur[p]?.map (fun v => v.cornerPointOffset) = some u.cornerPointOffset := by
      have := congrArg (fun l => l[p]?) hcur
      simp only [List.getElem?_map, hu, Option.map_some'] at this
      exact this
    have hstep := loadTreesStepFresh_treeRow h catalog cur p u t
      (by rw [resolve_length h hlen]; exact hres) hcp hal
      (hts t (List.mem_cons_self _ _)).1 (hts t (List.mem_cons_self _ _)).2
    simp only [List.map_cons, forRows, hstep]
    rw [ih (fun t' ht' => hts t' (List.mem_cons_of_mem _ ht')) (addTree cur p (restamp t))
      (by rw [addTree_map_corner]; exact hcur)]
    rw [addTree_addTrees]

theorem modifyRU_append_cons (pre : RUList) (u : ResourceUnit) (suf : RUList)
    (f : ResourceUnit → ResourceUnit) :
    modifyRU (pre ++ u :: suf) pre.length f = pre ++ f u :: suf := by
  induction pre with
  | nil => simp [modifyRU]
  | cons a pre ih =>
    simp only [modifyRU] at ih
    simp [modifyRU, ih]

theorem forRows_saveTrees_suffix (h : RUHash) (catalog : List String) (L : RUList)
    (hid : ∀ (p : RUPtr) (u : ResourceUnit), L[p]? = some u → resolve h L u.index = some p)
    (hal : ∀ u ∈ L, unitAligned u)
    (hts : ∀ u ∈ L, ∀ t ∈ u.trees, treeInTile u t ∧ speciesKnown catalog t)
    (suf pre : RUList) (hL : L = pre ++ suf) :
    forRows (loadTreesStepFresh h catalog) (pre.map restampUnit ++ suf.map clearUnit)
        (saveTrees suf)
      = .done (L.map restampUnit) := by
  induction suf generalizing pre with
  | nil =>
    subst hL
    simp [saveTrees, forRows]
  | cons u suf ih =>
    have hu : L[pre.length]? = some u := by
      subst hL
      rw [List.getElem?_append_right (Nat.le_refl _)]
      simp
    have hmem : u ∈ L := by
      subst hL
      simp
    have hcur : (pre.map restampUnit ++ (u :: suf).map clearUnit).map
        (fun v => v.cornerPointOffset) = L.map (fun v => v.cornerPointOffset) := by
      subst hL
      simp [restampUnit, clearUnit, Function.comp_def]
    have hunit := forRows_unit_rows h catalog L pre.length u hu (hid _ _ hu) (hal u hmem)
      u.trees (hts u hmem) _ hcur
    simp only [saveTrees, List.flatMap_cons] at hunit ⊢
    rw [forRows_append, hunit]
    simp only
    have hmod : modifyRU (pre.map restampUnit ++ (u :: suf).map clearUnit) pre.length
        (fun v => { v with trees := v.trees ++ u.trees.map restamp })
        = (pre ++ [u]).map restampUnit ++ suf.map clearUnit := by
      have := modifyRU_append_cons (pre.map restampUnit) (clearUnit u) (suf.map clearUnit)
        (fun v => { v with trees := v.trees ++ u.trees.map restamp })
      simp only [List.length_map] at this
      simp only [List.map_cons, this, List.map_append, List.map_nil, List.append_assoc,
        List.singleton_append]
      rfl
    rw [hmod]
    exact ih (pre ++ [u]) (by rw [hL]; simp)

theorem saveTrees_row_index (L : RUList) (row : Row) (hrow : row ∈ saveTrees L) :
    ∃ u ∈ L, (value row 1).toInt = u.index := by
  simp only [saveTrees, List.mem_flatMap, List.mem_map] at hrow
  obtain ⟨u, hu, t, _, ht⟩ := hrow
  refine ⟨u, hu, ?_⟩
  subst ht
  rfl

/-! ## Tree round trip -/

/-- C2 (counterexample): the one-unit landscape whose unit has index -1 meets
the conditions of the claim (distinct indices, the tree at a non-negative
position inside the tile, species in the catalog, mapping built by the
no-raster branch of `loadSnapshot`), and the load of its own records leaves the
unit without its tree. -/
theorem tree_roundtrip_fails_for_index_minus_one :
    (minusOneLandscape.map fun u => u.index).Nodup ∧
    (∀ u ∈ minusOneLandscape, unitAligned u ∧
      ∀ t ∈ u.trees, treeInTile u t ∧ speciesKnown sampleCatalog t) ∧
    minusOneHash = identityHash minusOneLandscape [some 0] ∧
    resolve minusOneHash minusOneLandscape (-1) = some 0 ∧
    loadTrees minusOneHash sampleCatalog (saveTrees minusOneLandscape) minusOneLandscape
      = .done [treeUnit (-1) 0 []] ∧
    (minusOneLandscape.map fun u => u.trees.map fun t => t.mId) = [[100]] := by
  decide

/-- C2 (amended): for every landscape whose units have indices that the
mapping resolves to the units themselves (so the indices are distinct), none
of them -1, whose corners are multiples of `cPxPerRU`, and whose trees each
have a non-negative pixel position inside their own unit's tile and a species
known to the catalog, the records written by `saveTrees`, read back by
`loadTrees` into that landscape (whatever its tree lists hold by then), give
every unit the same sequence of trees as before the save, each tree equal in
every field but the stamp, which is recomputed from species, dbh and height. -/
theorem saveTrees_loadTrees_roundtrip (h : RUHash) (catalog : List String) (L live : RUList)
    (hlive : clearTrees live = clearTrees L)
    (hid : ∀ (p : RUPtr) (u : ResourceUnit), L[p]? = some u → resolve h L u.index = some p)
    (hne : ∀ u ∈ L, u.index ≠ -1)
    (hal : ∀ u ∈ L, unitAligned u)
    (hin : ∀ u ∈ L, ∀ t ∈ u.trees, treeInTile u t)
    (hsp : ∀ u ∈ L, ∀ t ∈ u.trees, speciesKnown catalog t) :
    loadTrees h catalog (saveTrees L) live = .done (L.map restampUnit) ∧
    (∀ u : ResourceUnit, (restampUnit u).trees = u.trees.map restamp ∧
      { restampUnit u with trees := u.trees } = u) ∧
    ∀ t : Tree, { restamp t with mStamp := t.mStamp } = t := by
  refine ⟨?_, fun u => ⟨rfl, rfl⟩, fun t => rfl⟩
  rw [loadTrees_eq_fresh_aux h catalog (saveTrees L) live (Or.inr ?_)]
  · unfold loadTreesFresh
    rw [hlive]
    have := forRows_saveTrees_suffix h catalog L hid hal
      (fun u hu t ht => ⟨hin u hu t ht, hsp u hu t ht⟩) L [] rfl
    simpa [clearTrees, clearUnit] using this
  · intro row hrow
    obtain ⟨u, hu, hidx⟩ := saveTrees_row_index L row (List.mem_of_mem_head? hrow)
    rw [hidx]
    exact hne u hu

/-- C2 (witness): the saved landscape of the scenario, reloaded into itself
under the mapping of a same-run reload. -/
theorem saveTrees_loadTrees_roundtrip_witness :
    loadTrees twoUnitHash sampleCatalog (saveTrees scenarioSaved) scenarioSaved
      = .done (scenarioSaved.map restampUnit) ∧
    (∀ u : ResourceUnit, (restampUnit u).trees = u.trees.map restamp ∧
      { restampUnit u with trees := u.trees } = u) ∧
    ∀ t : Tree, { restamp t with mStamp := t.mStamp } = t :=
  saveTrees_loadTrees_roundtrip twoUnitHash sampleCatalog scenarioSaved scenarioSaved rfl
    (by
      intro p u hp
      match p with
      | 0 => cases hp; decide
      | 1 => cases hp; decide
      | n + 2 => simp [scenarioSaved] at hp)
    (by decide) (by decide) (by decide) (by decide)

theorem loadSoilFields_soilRow (s0 su : Soil) (u : ResourceUnit) :
    loadSoilFields s0 (soilRow u su) = su := by
  cases su with
  | mk mKyl mKyr mInputLab mInputRef mYL mYR mSOM =>
    simp [loadSoilFields, soilRow, value, QVariant.toDouble]

theorem loadSoilStep_soilRow (h : RUHash) (cur : RUList) (p : RUPtr) (u v : ResourceUnit)
    (su sv : Soil) (hres : resolve h cur u.index = some p) (hv : cur[p]? = some v)
    (hsu : u.soil = some su) (hsv : v.soil = some sv) :
    loadSoilStep h cur (soilRow u su) = .done (modifyRU cur p fun w => restoreSoil w u) := by
  have hidx : (value (soilRow u su) 0).toInt = u.index := rfl
  have hw : (value (soilRow u su) 17).toDouble = u.waterCycle.mContent := rfl
  have hs : (value (soilRow u su) 18).toDouble = u.waterCycle.mSnowPack := rfl
  unfold loadSoilStep
  simp only [hidx, hres, hv, Option.some_bind, hsv, loadSoilFields_soilRow, hw, hs,
    WaterCycle.setContent, restoreSoil, hsu]

theorem forRows_saveSoil_suffix (h : RUHash) (L live : RUList)
    (hid : ∀ (p : RUPtr) (u : ResourceUnit), L[p]? = some u → resolve h L u.index = some p)
    (hsoil : ∀ u ∈ L, u.soil.isSome) (hsoilLive : ∀ v ∈ live, v.soil.isSome)
    (sufL preL sufV preV : RUList) (hL : L = preL ++ sufL) (hV : live = preV ++ sufV)
    (hpre : preV.length = preL.length) (hsuf : sufV.length = sufL.length) :
    forRows (loadSoilStep h) (List.zipWith restoreSoil preV preL ++ sufV) (saveSoil sufL)
      = .done (List.zipWith restoreSoil live L) := by
  induction sufL generalizing preL sufV preV with
  | nil =>
    have : sufV = [] := List.length_eq_zero.mp (by simpa using hsuf)
    subst this
    subst hL hV
    simp [saveSoil, forRows]
  | cons u sufL ih =>
    cases sufV with
    | nil => simp at hsuf
    | cons v sufV =>
      have huL : u ∈ L := by subst hL; simp
      have hvV : v ∈ live := by subst hV; simp
      obtain ⟨su, hsu⟩ := Option.isSome_iff_exists.mp (hsoil u huL)
      obtain ⟨sv, hsv⟩ := Option.isSome_iff_exists.mp (hsoilLive v hvV)
      have hlenz : (List.zipWith restoreSoil preV preL).length = preL.length := by
        simp [hpre]
      have hu : L[preL.length]? = some u := by
        subst hL
        rw [List.getElem?_append_right (Nat.le_refl _)]
        simp
      have hcurlen : (List.zipWith restoreSoil preV preL ++ v :: sufV).length = L.length := by
        subst hL
        simp only [List.length_append, hlenz, List.length_cons]
        simp only [List.length_cons] at hsuf
        omega
      have hres : resolve h (List.zipWith restoreSoil preV preL ++ v :: sufV) u.index
          = some preL.length := by
        rw [resolve_length h hcurlen]
        exact hid _ _ hu
      have hcv : (List.zipWith restoreSoil preV preL ++ v :: sufV)[preL.length]? = some v := by
        rw [List.getElem?_append_right (by omega)]
        simp [hlenz]
      have hstep := loadSoilStep_soilRow h _ preL.length u v su sv hres hcv hsu hsv
      have hrows : saveSoil (u :: sufL) = soilRow u su :: saveSoil sufL := by
        simp [saveSoil, List.filterMap_cons, hsu]
      rw [hrows]
      simp only [forRows, hstep]
      have hmod : modifyRU (List.zipWith restoreSoil preV preL ++ v :: sufV) preL.length
          (fun w => restoreSoil w u)
          = List.zipWith restoreSoil (preV ++ [v]) (preL ++ [u]) ++ sufV := by
        have := modifyRU_append_cons (List.zipWith restoreSoil preV preL) v sufV
          (fun w => restoreSoil w u)
        rw [hlenz] at this
        rw [this, List.zipWith_append _ _ _ _ _ hpre]
        simp
      rw [hmod]
      exact ih (preL ++ [u]) sufV (preV ++ [v]) (by rw [hL]; simp) (by rw [hV]; simp)
        (by simp [hpre]) (by simpa using hsuf)

/-! ## Soil round trip -/

/-- C3: for every landscape in which every unit has a soil pool and whose
indices the mapping resolves to the units themselves (so the indices are
distinct), the records written by `saveSoil`, read back by `loadSoil` into a
live landscape of the same units that all have a soil pool, leave every unit
with the saved soil pool (kyl, kyr, the C, N and parameter of the four pools,
the C and N of SOM: the parameters are the saved values) and with the saved
water content and snow pack, both set together; nothing else of the unit
changes. -/
theorem saveSoil_loadSoil_roundtrip (h : RUHash) (L live : RUList)
    (hlen : live.length = L.length)
    (hid : ∀ (p : RUPtr) (u : ResourceUnit), L[p]? = some u → resolve h L u.index = some p)
    (hsoil : ∀ u ∈ L, u.soil.isSome) (hsoilLive : ∀ v ∈ live, v.soil.isSome) :
    loadSoil h (saveSoil L) live = .done (List.zipWith restoreSoil live L) ∧
    ∀ v u : ResourceUnit, (restoreSoil v u).soil = u.soil ∧
      (restoreSoil v u).waterCycle = u.waterCycle ∧
      { restoreSoil v u with soil := v.soil, waterCycle := v.waterCycle } = v := by
  refine ⟨?_, fun v u => ⟨rfl, rfl, rfl⟩⟩
  have := forRows_saveSoil_suffix h L live hid hsoil hsoilLive L [] live [] rfl rfl rfl hlen
  simpa [loadSoil] using this

/-- C3 (witness): two units with soil fields 101..118 and 201..218, loaded
into live units with fields 901..918 and 951..968. -/
theorem saveSoil_loadSoil_roundtrip_witness :
    loadSoil twoUnitHash (saveSoil soilSaved) soilLive
      = .done (List.zipWith restoreSoil soilLive soilSaved) ∧
    ∀ v u : ResourceUnit, (restoreSoil v u).soil = u.soil ∧
      (restoreSoil v u).waterCycle = u.waterCycle ∧
      { restoreSoil v u with soil := v.soil, waterCycle := v.waterCycle } = v :=
  saveSoil_loadSoil_roundtrip twoUnitHash soilSaved soilLive rfl
    (by
      intro p u hp
      match p with
      | 0 => cases hp; decide
      | 1 => cases hp; decide
      | n + 2 => simp [soilSaved] at hp)
    (by decide) (by decide)

theorem lookup_iff_mem (l : List (Int × RUPtr))
    (hfun : ∀ k a b, (k, a) ∈ l → (k, b) ∈ l → a = b) (k : Int) (p : RUPtr) :
    l.lookup k = some p ↔ (k, p) ∈ l := by
  induction l with
  | nil => simp
  | cons e l ih =>
    obtain ⟨k1, p1⟩ := e
    have ih1 := ih (fun k a b ha hb => hfun k a b (List.mem_cons_of_mem _ ha)
      (List.mem_cons_of_mem _ hb))
    by_cases hk : k = k1
    · subst hk
      simp only [List.lookup_cons, beq_self_eq_true, Option.some.injEq, List.mem_cons,
        Prod.mk.injEq, true_and]
      constructor
      · intro hp
        exact Or.inl hp.symm
      · intro hp
        rcases hp with hp | hp
        · exact hp.symm
        · exact hfun k p1 p (List.mem_cons_self _ _) (List.mem_cons_of_mem _ hp)
    · have hb : (k == k1) = false := by simpa using hk
      simp only [List.lookup_cons, hb, List.mem_cons, Prod.mk.injEq, hk, false_and, false_or]
      exact ih1

theorem foldl_assign_eq {α : Type} (g : α → Option (Int × RUPtr)) (xs : List α)
    (h0 : RUHash) :
    xs.foldl (fun h x => match g x with
      | some (k, p) => hashAssign h k p
      | none => h) h0 = (xs.filterMap g).reverse ++ h0 := by
  induction xs generalizing h0 with
  | nil => rfl
  | cons x xs ih =>
    simp only [List.foldl_cons, ih, List.filterMap_cons]
    cases hg : g x with
    | none => rfl
    | some e =>
      obtain ⟨k, p⟩ := e
      simp [hashAssign]

theorem identityHash_eq (units : RUList) (cells : List (Option RUPtr)) :
    identityHash units cells = (cells.filterMap (identityEntry units)).reverse := by
  have := foldl_assign_eq (identityEntry units) cells []
  simpa [identityHash, identityEntry] using this

theorem rasterHash_eq (world : Int × Int) (grid : GisGrid) (rugrid : RUGrid) (units : RUList) :
    rasterHash world grid rugrid units
      = ((List.range rugrid.cells.length).filterMap
          (rasterEntry world grid rugrid units)).reverse := by
  have := foldl_assign_eq (rasterEntry world grid rugrid units)
    (List.range rugrid.cells.length) []
  rw [List.append_nil] at this
  rw [← this]
  unfold rasterHash
  congr 1
  funext h i
  unfold rasterHashStep rasterEntry
  cases (rugrid.cells.getD i none).bind fun p => units[p]?.map fun u => (u.index, p) with
  | none => rfl
  | some e =>
    obtain ⟨index, p⟩ := e
    simp only
    split
    · split <;> rfl
    · rfl

theorem identityEntry_eq_some (units : RUList) (c : Option RUPtr) (k : Int) (p : RUPtr) :
    identityEntry units c = some (k, p) ↔
      c = some p ∧ ∃ u : ResourceUnit, units[p]? = some u ∧ u.index = k := by
  unfold identityEntry
  cases c with
  | none => simp
  | some q =>
    cases hq : units[q]? with
    | none =>
      simp only [Option.some_bind, hq, Option.map_none', Option.some.injEq, reduceCtorEq,
        false_iff, not_and]
      intro hqp
      subst hqp
      simp [hq]
    | some u =>
      simp only [Option.some_bind, hq, Option.map_some', Option.some.injEq, Prod.mk.injEq]
      constructor
      · rintro ⟨hi, hp⟩
        subst hp
        exact ⟨rfl, u, hq, hi⟩
      · rintro ⟨hp, v, hv, hi⟩
        subst hp
        rw [hq] at hv
        cases hv
        exact ⟨hi, rfl⟩

theorem mem_identityEntries (units : RUList) (cells : List (Option RUPtr)) (k : Int)
    (p : RUPtr) :
    (k, p) ∈ cells.filterMap (identityEntry units) ↔
      some p ∈ cells ∧ ∃ u : ResourceUnit, units[p]? = some u ∧ u.index = k := by
  simp only [List.mem_filterMap, identityEntry_eq_some]
  constructor
  · rintro ⟨c, hc, hcp, hu⟩
    subst hcp
    exact ⟨hc, hu⟩
  · rintro ⟨hc, hu⟩
    exact ⟨some p, hc, rfl, hu⟩

theorem rasterEntry_eq_some (world : Int × Int) (grid : GisGrid) (rugrid : RUGrid)
    (units : RUList) (i : Nat) (v : Int) (p : RUPtr) :
    rasterEntry world grid rugrid units i = some (v, p) ↔
      rugrid.cells.getD i none = some p ∧ ∃ u : ResourceUnit, units[p]? = some u ∧
        0 ≤ u.index ∧ grid.value world (rugrid.cellCenterPoint i) = v ∧ 0 ≤ v := by
  unfold rasterEntry
  cases hc : rugrid.cells.getD i none with
  | none => simp
  | some q =>
    cases hq : units[q]? with
    | none =>
      simp only [Option.some_bind, hq, Option.map_none', Option.some.injEq, reduceCtorEq,
        false_iff, not_and]
      intro hqp
      subst hqp
      simp [hq]
    | some u =>
      simp only [Option.some_bind, hq, Option.map_some', Option.some.injEq]
      by_cases hi : u.index > -1
      · by_cases hv : grid.value world (rugrid.cellCenterPoint i) > -1
        · simp only [hi, hv, ↓reduceIte, Option.some.injEq, Prod.mk.injEq]
          constructor
          · rintro ⟨h1, h2⟩
            subst h1 h2
            exact ⟨rfl, u, hq, by omega, rfl, by omega⟩
          · rintro ⟨h1, w, hw, _, h3, _⟩
            subst h1
            exact ⟨h3, rfl⟩
        · simp only [hi, hv, ↓reduceIte, reduceCtorEq, false_iff, not_and, not_exists]
          intro _ w _ _ h3 h4
          omega
      · simp only [hi, ↓reduceIte, reduceCtorEq, false_iff, not_and, not_exists]
        intro h1 w hw h2
        subst h1
        rw [hq] at hw
        cases hw
        omega

theorem getD_none_eq_some (cells : List (Option RUPtr)) (i : Nat) (p : RUPtr) :
    cells.getD i none = some p ↔ cells[i]? = some (some p) := by
  rw [List.getD_eq_getElem?_getD]
  cases cells[i]? with
  | none => simp
  | some c => simp

theorem mem_rasterEntries (world : Int × Int) (grid : GisGrid) (rugrid : RUGrid)
    (units : RUList) (v : Int) (p : RUPtr) :
    (v, p) ∈ (List.range rugrid.cells.length).filterMap (rasterEntry world grid rugrid units) ↔
      ∃ (i : Nat) (u : ResourceUnit), rugrid.cells[i]? = some (some p) ∧ units[p]? = some u ∧
        0 ≤ u.index ∧ grid.value world (rugrid.cellCenterPoint i) = v ∧ 0 ≤ v := by
  simp only [List.mem_filterMap, List.mem_range, rasterEntry_eq_some, getD_none_eq_some]
  constructor
  · rintro ⟨i, _, hc, u, hu, h1, h2, h3⟩
    exact ⟨i, u, hc, hu, h1, h2, h3⟩
  · rintro ⟨i, u, hc, hu, h1, h2, h3⟩
    refine ⟨i, ?_, hc, u, hu, h1, h2, h3⟩
    by_contra hlt
    rw [List.getElem?_eq_none (by omega)] at hc
    cases hc

/-! ## The remapper -/

/-- C5: when the companion raster loads and is tile-aligned, and two cells of
the unit grid that hold live units with index >= 0 never sample the same
non-negative raster value at their centres unless they hold the same unit,
`loadSnapshot` builds a mapping that resolves a stored index `v` to the live
unit `u` exactly when `u` is in a cell of the unit grid, has index >= 0, and the
raster value at the centre of that cell is `v` with `v >= 0`. -/
theorem buildHash_raster_mapping (env : LoadEnv) (units : RUList) (grid : GisGrid)
    (hraster : env.raster = some grid) (haligned : misaligned env.world grid = false)
    (hdistinct : ∀ (i j : Nat) (p q : RUPtr) (u v : ResourceUnit),
      env.rugrid.cells[i]? = some (some p) → env.rugrid.cells[j]? = some (some q) →
      units[p]? = some u → units[q]? = some v → 0 ≤ u.index → 0 ≤ v.index →
      0 ≤ grid.value env.world (env.rugrid.cellCenterPoint i) →
      grid.value env.world (env.rugrid.cellCenterPoint i)
        = grid.value env.world (env.rugrid.cellCenterPoint j) → p = q) :
    ∃ h, buildHash env units = .ok h ∧
      ∀ (v : Int) (p : RUPtr), hashValue h v = some p ↔
        ∃ (i : Nat) (u : ResourceUnit), env.rugrid.cells[i]? = some (some p) ∧
          units[p]? = some u ∧ 0 ≤ u.index ∧
          grid.value env.world (env.rugrid.cellCenterPoint i) = v ∧ 0 ≤ v := by
  refine ⟨rasterHash env.world grid env.rugrid units, ?_, ?_⟩
  · simp [buildHash, hraster, haligned]
  · intro v p
    rw [← mem_rasterEntries, rasterHash_eq, hashValue, lookup_iff_mem, List.mem_reverse]
    intro k a b ha hb
    rw [List.mem_reverse, mem_rasterEntries] at ha hb
    obtain ⟨i, u, hci, hu, hui, hvi, hk⟩ := ha
    obtain ⟨j, w, hcj, hw, hwi, hvj, _⟩ := hb
    exact hdistinct i j a b u w hci hcj hu hw hui hwi (by rw [hvi]; exact hk)
      (by rw [hvi, hvj])

/-- C5 (witness): the scenario, where live unit 0 samples a negative value
outside the raster and live unit 1 samples 0. -/
theorem buildHash_raster_mapping_witness :
    ∃ h, buildHash scenarioEnv scenarioLive.units = .ok h ∧
      ∀ (v : Int) (p : RUPtr), hashValue h v = some p ↔
        ∃ (i : Nat) (u : ResourceUnit), scenarioEnv.rugrid.cells[i]? = some (some p) ∧
          scenarioLive.units[p]? = some u ∧ 0 ≤ u.index ∧
          scenarioRaster.value scenarioEnv.world (scenarioEnv.rugrid.cellCenterPoint i) = v ∧
          0 ≤ v :=
  buildHash_raster_mapping scenarioEnv scenarioLive.units scenarioRaster rfl (by decide)
    (by
      intro i j p q u v hi hj _ _ _ _ h0 hv
      match i, j with
      | 0, 0 => cases hi; cases hj; rfl
      | 0, 1 => exact absurd h0 (by decide)
      | 1, 0 => exact absurd (hv ▸ h0) (by decide)
      | 1, 1 => cases hi; cases hj; rfl
      | n + 2, _ => simp [scenarioEnv] at hi
      | 0, n + 2 => simp [scenarioEnv] at hj
      | 1, n + 2 => simp [scenarioEnv] at hj)

/-- C6: when the companion raster is missing or cannot be read and the units in
the unit grid have distinct indices, `loadSnapshot` does not fail on that
account: it goes on to the loaders with the identity mapping, in which a stored
index `i` resolves to the live unit `u` exactly when `u` is in a cell of the
unit grid and its index is `i`. -/
theorem loadSnapshot_identity_fallback (env : LoadEnv) (w : Live)
    (hopen : env.storeOpens = true) (hraster : env.raster = none)
    (hdistinct : ∀ (p q : RUPtr) (u v : ResourceUnit), some p ∈ env.rugrid.cells →
      some q ∈ env.rugrid.cells → w.units[p]? = some u → w.units[q]? = some v →
      u.index = v.index → p = q) :
    ∃ h, buildHash env w.units = .ok h ∧
      loadSnapshot env w = loadTables h env w ∧
      ∀ (i : Int) (p : RUPtr), hashValue h i = some p ↔
        (some p ∈ env.rugrid.cells ∧ ∃ u : ResourceUnit, w.units[p]? = some u ∧ u.index = i) := by
  refine ⟨identityHash w.units env.rugrid.cells, ?_, ?_, ?_⟩
  · simp [buildHash, hraster]
  · simp [loadSnapshot, hopen, buildHash, hraster]
  · intro i p
    rw [← mem_identityEntries, identityHash_eq, hashValue, lookup_iff_mem, List.mem_reverse]
    intro k a b ha hb
    rw [List.mem_reverse, mem_identityEntries] at ha hb
    obtain ⟨hca, u, hu, hui⟩ := ha
    obtain ⟨hcb, v, hv, hvi⟩ := hb
    exact hdistinct a b u v hca hcb hu hv (by rw [hui, hvi])

/-- C6 (witness): the same-run reload of the saved landscape of the scenario. -/
theorem loadSnapshot_identity_fallback_witness :
    ∃ h, buildHash sameRunEnv scenarioSaved = .ok h ∧
      loadSnapshot sameRunEnv { units := scenarioSaved, saplings := [] }
        = loadTables h sameRunEnv { units := scenarioSaved, saplings := [] } ∧
      ∀ (i : Int) (p : RUPtr), hashValue h i = some p ↔
        (some p ∈ sameRunEnv.rugrid.cells ∧
          ∃ u : ResourceUnit, scenarioSaved[p]? = some u ∧ u.index = i) :=
  loadSnapshot_identity_fallback sameRunEnv { units := scenarioSaved, saplings := [] } rfl rfl
    (by
      intro p q u v hp hq hu hv huv
      have hp2 : p = 0 ∨ p = 1 := by simpa [sameRunEnv, scenarioEnv] using hp
      have hq2 : q = 0 ∨ q = 1 := by simpa [sameRunEnv, scenarioEnv] using hq
      rcases hp2 with rfl | rfl <;> rcases hq2 with rfl | rfl
      · rfl
      · cases hu; cases hv; exact absurd huv (by decide)
      · cases hu; cases hv; exact absurd huv (by decide)
      · rfl)

theorem forRows_raised_error {σ : Type} (step : σ → Row → Outcome σ) (P : SnapshotError → Prop)
    (hstep : ∀ s row e s1, step s row = .raised e s1 → P e) (rows : List Row) :
    ∀ s e s1, forRows step s rows = .raised e s1 → P e := by
  induction rows with
  | nil =>
    intro s e s1 hrun
    cases hrun
  | cons row rows ih =>
    intro s e s1 hrun
    simp only [forRows] at hrun
    cases hr : step s row with
    | done s2 =>
      rw [hr] at hrun
      exact ih s2 e s1 hrun
    | raised e2 s2 =>
      rw [hr] at hrun
      cases hrun
      exact hstep s row e s1 hr

theorem loadTrees_raised_error (h : RUHash) (catalog : List String) (rows : List Row)
    (units : RUList) (e : SnapshotError) (u1 : RUList)
    (hrun : loadTrees h catalog rows units = .raised e u1) : e = .invalidSpecies := by
  unfold loadTrees at hrun
  cases hf : forRows (loadTreesStep h catalog) (treeLoadInit units) rows with
  | done st => simp [hf, Outcome.map] at hrun
  | raised e2 st =>
    simp only [hf, Outcome.map, Outcome.raised.injEq] at hrun
    rw [← hrun.1]
    refine forRows_raised_error (loadTreesStep h catalog) (fun e => e = .invalidSpecies) ?_
      rows _ e2 st hf
    intro s row e3 s1 hstep
    unfold loadTreesStep at hstep
    simp only at hstep
    split at hstep
    · cases hstep
    · split at hstep
      · cases hstep
        rfl
      · cases hstep

theorem loadSoil_raised_error (h : RUHash) (rows : List Row) (units : RUList)
    (e : SnapshotError) (u1 : RUList) (hrun : loadSoil h rows units = .raised e u1) :
    e = .soilDisabled := by
  refine forRows_raised_error (loadSoilStep h) (fun e => e = .soilDisabled) ?_ rows _ e u1 hrun
  intro s row e3 s1 hstep
  unfold loadSoilStep at hstep
  split at hstep
  · cases hstep
  · split at hstep
    · cases hstep
      rfl
    · cases hstep

theorem loadSaplings_raised_error (h : RUHash) (catalog : List String) (rows : List Row)
    (w : Live) (e : SnapshotError) (w1 : Live)
    (hrun : loadSaplings h catalog rows w = .raised e w1) : e = .saplingInvalidSpecies := by
  refine forRows_raised_error (loadSaplingsStep h catalog)
    (fun e => e = .saplingInvalidSpecies) ?_ rows _ e w1 hrun
  intro s row e3 s1 hstep
  unfold loadSaplingsStep at hstep
  split at hstep
  · cases hstep
  · split at hstep
    · cases hstep
      rfl
    · simp only at hstep
      split at hstep
      · cases hstep
      · split at hstep
        · cases hstep
        · cases hstep

theorem loadTables_not_misalignment (h : RUHash) (env : LoadEnv) (w w1 : Live) :
    loadTables h env w ≠ .raised .spatialMisalignment w1 := by
  intro hrun
  unfold loadTables at hrun
  cases ht : loadTrees h env.catalog env.trees w.units with
  | raised e u =>
    have := loadTrees_raised_error _ _ _ _ _ _ ht
    subst this
    simp [ht] at hrun
  | done u1 =>
    simp only [ht] at hrun
    cases hs : loadSoil h env.soil u1 with
    | raised e u =>
      have := loadSoil_raised_error _ _ _ _ _ hs
      subst this
      simp [hs] at hrun
    | done u2 =>
      simp only [hs] at hrun
      split at hrun
      · have := loadSaplings_raised_error _ _ _ _ _ _ hrun
        cases this
      · cases hrun

theorem misaligned_iff (world : Int × Int) (grid : GisGrid) :
    misaligned world grid = true ↔
      (¬ cRUSize ∣ (worldToModel world grid.origin).1 ∨
       ¬ cRUSize ∣ (worldToModel world grid.origin).2) := by
  simp only [misaligned, Bool.or_eq_true, bne_iff_ne, ne_eq, Int.dvd_iff_tmod_eq_zero]

/-! ## Spatial misalignment -/

/-- C7 (counterexample): the raster origin of `unknownSpeciesEnv` is, in model
coordinates, (100, 0), a multiple of `cRUSize` on both axes, and the only tree
record has an unknown species; `loadSnapshot` raises all the same, with the
invalid-species error of `loadTrees`, after the tree lists of both units were
cleared and the half-built tree 300 was added to unit 1. -/
theorem loadSnapshot_aligned_raises_after_clearing :
    unknownSpeciesEnv.raster = some scenarioRaster ∧
    worldToModel unknownSpeciesEnv.world scenarioRaster.origin = (100, 0) ∧
    cRUSize ∣ (worldToModel unknownSpeciesEnv.world scenarioRaster.origin).1 ∧
    cRUSize ∣ (worldToModel unknownSpeciesEnv.world scenarioRaster.origin).2 ∧
    (∃ w1, loadSnapshot unknownSpeciesEnv scenarioLive = .raised .invalidSpecies w1) ∧
    (loadSnapshot unknownSpeciesEnv scenarioLive).state.units.map
        (fun u => u.trees.map fun t => t.mId) = [[], [300]] ∧
    scenarioLive.units.map (fun u => u.trees.map fun t => t.mId) = [[7], [8]] := by
  refine ⟨rfl, by decide, by decide, by decide,
    ⟨(loadSnapshot unknownSpeciesEnv scenarioLive).state, by decide⟩, by decide, by decide⟩

/-- C7 (amended): when the store opens and the companion raster loads,
`loadSnapshot` raises the misalignment error if and only if the raster origin,
converted to model coordinates, is not a multiple of `cRUSize` on the x axis
or on the y axis; and when it raises that error the live data (tree lists,
soil pools, snag pools and sapling slots) are as they were before the call. -/
theorem loadSnapshot_misalignment (env : LoadEnv) (w : Live) (grid : GisGrid)
    (hopen : env.storeOpens = true) (hraster : env.raster = some grid) :
    ((∃ w1, loadSnapshot env w = .raised .spatialMisalignment w1) ↔
      (¬ cRUSize ∣ (worldToModel env.world grid.origin).1 ∨
       ¬ cRUSize ∣ (worldToModel env.world grid.origin).2)) ∧
    (∀ w1, loadSnapshot env w = .raised .spatialMisalignment w1 → w1 = w) := by
  rw [← misaligned_iff]
  cases hm : misaligned env.world grid with
  | true =>
    have hrun : loadSnapshot env w = .raised .spatialMisalignment w := by
      simp [loadSnapshot, hopen, buildHash, hraster, hm]
    refine ⟨⟨fun _ => rfl, fun _ => ⟨w, hrun⟩⟩, ?_⟩
    intro w1 h1
    rw [hrun] at h1
    cases h1
    rfl
  | false =>
    have hrun : loadSnapshot env w
        = loadTables (rasterHash env.world grid env.rugrid w.units) env w := by
      simp [loadSnapshot, hopen, buildHash, hraster, hm]
    refine ⟨⟨?_, fun hf => by cases hf⟩, ?_⟩
    · rintro ⟨w1, h1⟩
      rw [hrun] at h1
      exact absurd h1 (loadTables_not_misalignment _ env w w1)
    · intro w1 h1
      rw [hrun] at h1
      exact absurd h1 (loadTables_not_misalignment _ env w w1)

/-- C7 (witness): the raster of the scenario against a live landscape that is
half a tile off; the load raises and leaves the live landscape as it was. -/
theorem loadSnapshot_misalignment_witness :
    loadSnapshot misalignedEnv scenarioLive = .raised .spatialMisalignment scenarioLive ∧
    ((∃ w1, loadSnapshot misalignedEnv scenarioLive = .raised .spatialMisalignment w1) ↔
      (¬ cRUSize ∣ (worldToModel misalignedEnv.world scenarioRaster.origin).1 ∨
       ¬ cRUSize ∣ (worldToModel misalignedEnv.world scenarioRaster.origin).2)) ∧
    (∀ w1, loadSnapshot misalignedEnv scenarioLive = .raised .spatialMisalignment w1 →
      w1 = scenarioLive) :=
  ⟨by decide, loadSnapshot_misalignment misalignedEnv scenarioLive scenarioRaster rfl rfl⟩

theorem loadSoilStep_cases (h : RUHash) (units cur : RUList) (row : Row)
    (hsame : SoilSame units cur) :
    (resolve h units (value row 0).toInt = none ∧ loadSoilStep h cur row = .done cur) ∨
    (∃ p, resolve h units (value row 0).toInt = some p ∧
      (units[p]?.bind fun u => u.soil) = none ∧
      loadSoilStep h cur row = .raised .soilDisabled cur) ∨
    (∃ p cur1, resolve h units (value row 0).toInt = some p ∧
      (units[p]?.bind fun u => u.soil).isSome = true ∧
      loadSoilStep h cur row = .done cur1 ∧ SoilSame units cur1) := by
  obtain ⟨hlen, hsoil⟩ := hsame
  unfold loadSoilStep
  rw [resolve_length h hlen]
  cases hres : resolve h units (value row 0).toInt with
  | none => exact Or.inl ⟨rfl, rfl⟩
  | some p =>
    right
    have hp := hsoil p
    cases hs : cur[p]?.bind (fun u => u.soil) with
    | none =>
      left
      rw [hs] at hp
      refine ⟨p, rfl, ?_, by simp only [hs]⟩
      cases hu : units[p]?.bind (fun u => u.soil) with
      | none => rfl
      | some s => simp [hu] at hp
    | some s =>
      right
      rw [hs] at hp
      refine ⟨p, _, rfl, hp.symm, by simp only [hs]; rfl, ?_, ?_⟩
      · simp [modifyRU, hlen]
      · intro q
        rw [← hsoil q]
        simp only [modifyRU, List.getElem?_modify]
        cases hq : cur[q]? with
        | none => simp
        | some v =>
          by_cases hpq : p = q
          · subst hpq
            simp only [hq, Option.some_bind] at hs
            simp [hs]
          · simp [hpq]

theorem forRows_loadSoil_raises_iff (h : RUHash) (units : RUList) (rows : List Row)
    (cur : RUList) (hsame : SoilSame units cur) :
    (∃ u1, forRows (loadSoilStep h) cur rows = .raised .soilDisabled u1) ↔
      ∃ row ∈ rows, ∃ p, resolve h units (value row 0).toInt = some p ∧
        (units[p]?.bind fun u => u.soil) = none := by
  induction rows generalizing cur with
  | nil => simp [forRows]
  | cons row rows ih =>
    simp only [forRows, List.mem_cons, exists_eq_or_imp]
    rcases loadSoilStep_cases h units cur row hsame with ⟨hres, hstep⟩ | ⟨p, hres, hnone, hstep⟩ |
      ⟨p, cur1, hres, hsome, hstep, hsame1⟩
    · rw [hstep]
      simp only [hres, reduceCtorEq, false_and, exists_false, false_or]
      exact ih cur hsame
    · rw [hstep]
      constructor
      · intro _
        exact Or.inl ⟨p, hres, hnone⟩
      · intro _
        exact ⟨cur, rfl⟩
    · rw [hstep]
      simp only
      rw [ih cur1 hsame1]
      constructor
      · intro hr
        exact Or.inr hr
      · intro hr
        rcases hr with ⟨q, hq, hqn⟩ | hr
        · rw [hres] at hq
          cases hq
          rw [hqn] at hsome
          cases hsome
        · exact hr

/-! ## Soil load: configuration mismatch -/

/-- C12: `loadSoil` raises (the soil-disabled error, and no other) if and only
if some soil record's stored index resolves through the mapping to a live unit
that has no soil pool; a record whose index does not resolve is skipped
without a change; and `saveSoil` passes over a unit without a soil pool,
writing no row for it. -/
theorem loadSoil_raises_iff (h : RUHash) (rows : List Row) (units : RUList) :
    ((∃ e u1, loadSoil h rows units = .raised e u1) ↔
      ∃ row ∈ rows, ∃ p, resolve h units (value row 0).toInt = some p ∧
        (units[p]?.bind fun u => u.soil) = none) ∧
    (∀ e u1, loadSoil h rows units = .raised e u1 → e = .soilDisabled) ∧
    (∀ (cur : RUList) (row : Row), resolve h cur (value row 0).toInt = none →
      loadSoilStep h cur row = .done cur) ∧
    (∀ (pre post : RUList) (u : ResourceUnit), u.soil = none →
      saveSoil (pre ++ u :: post) = saveSoil pre ++ saveSoil post) := by
  refine ⟨?_, fun e u1 hrun => loadSoil_raised_error h rows units e u1 hrun, ?_, ?_⟩
  · rw [← forRows_loadSoil_raises_iff h units rows units ⟨rfl, fun _ => rfl⟩]
    constructor
    · rintro ⟨e, u1, hrun⟩
      have he := loadSoil_raised_error h rows units e u1 hrun
      subst he
      exact ⟨u1, hrun⟩
    · rintro ⟨u1, hrun⟩
      exact ⟨_, u1, hrun⟩
  · intro cur row hres
    simp [loadSoilStep, hres]
  · intro pre post u hu
    simp [saveSoil, List.filterMap_append, List.filterMap_cons, hu]

theorem loadTreesStep_length (h : RUHash) (catalog : List String) (st st1 : TreeLoad)
    (row : Row) (hstep : loadTreesStep h catalog st row = .done st1) :
    st1.units.length = st.units.length := by
  unfold loadTreesStep at hstep
  simp only at hstep
  have hun := treeLookup_units h st (value row 1).toInt
  split at hstep
  · cases hstep
    rw [hun]
  · split at hstep
    · cases hstep
    · cases hstep
      simp only [addTree_length, hun]

theorem loadTreesStep_weak (h : RUHash) (catalog : List String) (units : RUList)
    (st st1 : TreeLoad) (row : Row) (hst : CacheWeak h units st)
    (hstep : loadTreesStep h catalog st row = .done st1) : CacheWeak h units st1 := by
  refine ⟨by rw [loadTreesStep_length h catalog st st1 row hstep]; exact hst.1, ?_⟩
  by_cases hk : (value row 1).toInt = st.ru_index
  · rcases hst.2 with ⟨hidx, hru⟩ | hok
    · left
      have hlook : treeLookup h st (value row 1).toInt = st := by
        simp [treeLookup, hk]
      unfold loadTreesStep at hstep
      simp only [hlook, hru] at hstep
      cases hstep
      exact ⟨hidx, hru⟩
    · right
      exact (loadTreesStep_fresh h catalog st row (fun _ => hok)).2 st1 hstep
  · right
    exact (loadTreesStep_fresh h catalog st row (fun heq => absurd heq hk)).2 st1 hstep

theorem loadTreesStep_unknown_species (h : RUHash) (catalog : List String) (units : RUList)
    (st : TreeLoad) (row : Row) (p : RUPtr) (hst : CacheWeak h units st)
    (hres : resolve h units (value row 1).toInt = some p)
    (hunk : speciesOf catalog (value row 4).toString = none)
    (hm : (value row 1).toInt ≠ -1 ∨ resolve h units (-1) = none) :
    ∃ st1, loadTreesStep h catalog st row = .raised .invalidSpecies st1 := by
  have hres1 : resolve h st.units (value row 1).toInt = some p := by
    rw [resolve_length h hst.1]
    exact hres
  have hok : (value row 1).toInt = st.ru_index → CacheOk h st := by
    intro hk
    rcases hst.2 with ⟨hidx, _⟩ | hok
    · exfalso
      rw [hk, hidx] at hres
      rcases hm with hm | hm
      · exact hm (by rw [hk, hidx])
      · rw [hm] at hres
        cases hres
    · exact hok
  have hfresh := (loadTreesStep_fresh h catalog st row hok).1
  have hf : ∃ u1, loadTreesStepFresh h catalog st.units row = .raised .invalidSpecies u1 := by
    unfold loadTreesStepFresh
    simp only [hres1, hunk]
    exact ⟨_, rfl⟩
  obtain ⟨u1, hu1⟩ := hf
  rw [hu1] at hfresh
  cases hstep : loadTreesStep h catalog st row with
  | done st1 => simp [hstep, Outcome.map] at hfresh
  | raised e st1 =>
    simp only [hstep, Outcome.map, Outcome.raised.injEq] at hfresh
    rw [hfresh.1]
    exact ⟨st1, rfl⟩

theorem forRows_loadTrees_unknown_species (h : RUHash) (catalog : List String)
    (units : RUList) (row : Row) (p : RUPtr)
    (hres : resolve h units (value row 1).toInt = some p)
    (hunk : speciesOf catalog (value row 4).toString = none)
    (hm : (value row 1).toInt ≠ -1 ∨ resolve h units (-1) = none)
    (rows : List Row) (hrow : row ∈ rows) (st : TreeLoad) (hst : CacheWeak h units st) :
    ∃ st1, forRows (loadTreesStep h catalog) st rows = .raised .invalidSpecies st1 := by
  induction rows generalizing st with
  | nil => cases hrow
  | cons r rows ih =>
    simp only [forRows]
    cases hstep : loadTreesStep h catalog st r with
    | raised e st1 =>
      have he : e = .invalidSpecies := by
        unfold loadTreesStep at hstep
        simp only at hstep
        split at hstep
        · cases hstep
        · split at hstep
          · cases hstep
            rfl
          · cases hstep
      subst he
      exact ⟨st1, rfl⟩
    | done st1 =>
      simp only
      rcases List.mem_cons.mp hrow with heq | hmem
      · subst heq
        obtain ⟨st2, h2⟩ := loadTreesStep_unknown_species h catalog units st row p hst hres
          hunk hm
        rw [h2] at hstep
        cases hstep
      · exact ih hmem st1 (loadTreesStep_weak h catalog units st st1 r hst hstep)

/-! ## Tree load: unknown species -/

/-- C11 (counterexample): a tree table whose only record names the unknown
species `abal` and carries the stored index 7, which the two-unit mapping does
not resolve; `loadTrees` skips the record before it looks at the species and
completes without error. -/
theorem loadTrees_unknown_species_unresolved_completes :
    speciesOf sampleCatalog (value (unknownSpeciesRow 7) 4).toString = none ∧
    resolve twoUnitHash scenarioSaved (value (unknownSpeciesRow 7) 1).toInt = none ∧
    loadTrees twoUnitHash sampleCatalog [unknownSpeciesRow 7] scenarioSaved
      = .done (clearTrees scenarioSaved) := by
  decide

/-- C11 (amended): `loadTrees` aborts with the invalid-species error whenever
the tree table contains a record whose species identifier is not in the
catalog and whose stored unit index the mapping resolves to a live unit, the
stored index being other than -1 or the mapping not resolving -1. -/
theorem loadTrees_unknown_species_fatal (h : RUHash) (catalog : List String)
    (rows : List Row) (units : RUList) (row : Row) (p : RUPtr) (hrow : row ∈ rows)
    (hres : resolve h units (value row 1).toInt = some p)
    (hunk : speciesOf catalog (value row 4).toString = none)
    (hm : (value row 1).toInt ≠ -1 ∨ resolve h units (-1) = none) :
    ∃ u1, loadTrees h catalog rows units = .raised .invalidSpecies u1 := by
  have hinit : CacheWeak h units (treeLoadInit units) :=
    ⟨clearTrees_length units, Or.inl ⟨rfl, rfl⟩⟩
  obtain ⟨st1, hrun⟩ := forRows_loadTrees_unknown_species h catalog units row p hres hunk hm
    rows hrow (treeLoadInit units) hinit
  exact ⟨st1.units, by simp [loadTrees, hrun, Outcome.map]⟩

/-- C11 (witness): the tree table of the scenario followed by a record of
the unknown species for unit 1. -/
theorem loadTrees_unknown_species_fatal_witness :
    ∃ u1, loadTrees twoUnitHash sampleCatalog (saveTrees scenarioSaved ++ [unknownSpeciesRow 1])
      scenarioSaved = .raised .invalidSpecies u1 :=
  loadTrees_unknown_species_fatal twoUnitHash sampleCatalog
    (saveTrees scenarioSaved ++ [unknownSpeciesRow 1]) scenarioSaved (unknownSpeciesRow 1) 1
    (by decide) (by decide) (by decide) (Or.inl (by decide))

/-! ## Full-landscape save -/

/-- C13 (evaluation at the failing input): `saveSaplings` raises the
not-implemented error for every landscape and every store and leaves the
rows of the store as they are; for the landscape with one occupied sapling
slot no record is emitted. -/
theorem saveSaplings_not_implemented :
    (∀ (w : Live) (store : Store),
      saveSaplingsDb w store = .raised .saveSaplingsNotImplemented store) ∧
    (saplingLive.saplings.map fun e => e.2.saplings.map fun s => s.occupied)
      = [[true, false, false, false, false]] ∧
    saveSaplingsDb saplingLive { trees := [], soil := [], snag := [], saplings := [] }
      = .raised .saveSaplingsNotImplemented
          { trees := [], soil := [], snag := [], saplings := [] } := by
  refine ⟨fun w store => rfl, by decide, rfl⟩

/-- C14 (evaluation at the failing input): with the regeneration setting off,
the store available and every insert accepted, `createSnapshot` still runs the
sapling pass after the tree, soil and snag passes, and so ends in the
not-implemented error instead of returning true. -/
theorem createSnapshot_regeneration_off_raises :
    (saveEnvOk false).regenerationEnabled = false ∧
    ∀ (w : Live) (store : Store),
      createSnapshot (saveEnvOk false) w store
        = .raised .saveSaplingsNotImplemented
            ({ trees := saveTrees w.units, soil := saveSoil w.units,
               snag := saveSnags w.units, saplings := [] }, none) := by
  refine ⟨rfl, fun w store => ?_⟩
  simp [createSnapshot, openDatabaseForWrite, saveTreesDb, saveSoilDb, saveSnagsDb,
    saveSaplingsDb, insertRows, saveEnvOk]

/-- C16 (evaluation at the failing input): for the saved landscape of the
scenario the index grid would hold the indices 0 and 1 over the extent and cell
size of the unit grid, but `createSnapshot` saves trees, soil and snags and
then ends in the sapling pass: no call returns, and no raster is written. -/
theorem createSnapshot_writes_no_raster :
    indexGrid scenarioEnv.rugrid scenarioSaved
      = { left := 0, top := 0, sizeX := 2, cellsize := cRUSize, values := [0, 1] } ∧
    createSnapshot (saveEnvOk true) saplingLive priorStore
      = .raised .saveSaplingsNotImplemented
          ({ trees := saveTrees scenarioSaved, soil := [], snag := [], saplings := [] }, none) ∧
    ∀ (env : SaveEnv) (w : Live) (store : Store) (r : Store × Option IndexGrid),
      createSnapshot env w store ≠ .done r := by
  refine ⟨by decide, by decide, ?_⟩
  intro env w store r hrun
  unfold createSnapshot at hrun
  split at hrun
  · cases hrun
  · split at hrun
    · cases hrun
    · split at hrun
      · cases hrun
      · split at hrun
        · cases hrun
        · simp [saveSaplingsDb] at hrun

theorem insertRows_nil_eq (accepts : Row → Bool) (rows t : List Row)
    (h : insertRows accepts [] rows = some t) : t = rows := by
  unfold insertRows at h
  split at h
  · simpa using h.symm
  · cases h

/-- C17 (counterexample): the store holds a committed snapshot with one tree
row; `createSnapshot` for the scenario aborts in the sapling pass, and the
trees table then holds the two rows of the scenario, not the row it held
before the call. -/
theorem createSnapshot_abort_loses_prior_rows :
    priorStore.trees = saveTrees minusOneLandscape ∧
    createSnapshot (saveEnvOk true) saplingLive priorStore
      = .raised .saveSaplingsNotImplemented
          ({ trees := saveTrees scenarioSaved, soil := [], snag := [], saplings := [] }, none) ∧
    saveTrees scenarioSaved ≠ priorStore.trees := by
  decide

/-- C17 (amended): when `createSnapshot` aborts, either the store could not be
opened and holds the rows it held before, or the tables were dropped and
created anew at the opening and each save pass committed on its own: the
trees, soil and snag tables each hold no rows or the rows of the current
landscape, the saplings table holds no rows, and no raster is written. -/
theorem createSnapshot_abort_store (env : SaveEnv) (w : Live) (store s : Store)
    (e : SnapshotError) (g : Option IndexGrid)
    (hrun : createSnapshot env w store = .raised e (s, g)) :
    (e = .storeUnavailable ∧ s = store ∧ g = none) ∨
    (e ≠ .storeUnavailable ∧
      (s.trees = [] ∨ s.trees = saveTrees w.units) ∧
      (s.soil = [] ∨ s.soil = saveSoil w.units) ∧
      (s.snag = [] ∨ s.snag = saveSnags w.units) ∧
      s.saplings = [] ∧ g = none) := by
  unfold createSnapshot openDatabaseForWrite at hrun
  by_cases hopen : env.storeOpens = true
  · right
    simp only [hopen, Bool.not_true, Bool.false_eq_true, ↓reduceIte] at hrun
    unfold saveTreesDb at hrun
    cases ht : insertRows env.accepts [] (saveTrees w.units) with
    | none =>
      simp only [ht, Outcome.raised.injEq, Prod.mk.injEq] at hrun
      obtain ⟨he, hs, hg⟩ := hrun
      subst he hs hg
      simp
    | some t =>
      have htt := insertRows_nil_eq _ _ _ ht
      subst htt
      simp only [ht] at hrun
      unfold saveSoilDb at hrun
      cases hso : insertRows env.accepts [] (saveSoil w.units) with
      | none =>
        simp only [hso, Outcome.raised.injEq, Prod.mk.injEq] at hrun
        obtain ⟨he, hs, hg⟩ := hrun
        subst he hs hg
        simp
      | some t2 =>
        have htt := insertRows_nil_eq _ _ _ hso
        subst htt
        simp only [hso] at hrun
        unfold saveSnagsDb at hrun
        cases hsn : insertRows env.accepts [] (saveSnags w.units) with
        | none =>
          simp only [hsn, Outcome.raised.injEq, Prod.mk.injEq] at hrun
          obtain ⟨he, hs, hg⟩ := hrun
          subst he hs hg
          simp
        | some t3 =>
          have htt := insertRows_nil_eq _ _ _ hsn
          subst htt
          simp only [hsn, saveSaplingsDb, Outcome.raised.injEq, Prod.mk.injEq] at hrun
          obtain ⟨he, hs, hg⟩ := hrun
          subst he hs hg
          simp
  · left
    simp only [hopen, Bool.not_false, ↓reduceIte, Outcome.raised.injEq, Prod.mk.injEq] at hrun
    exact ⟨hrun.1.symm, hrun.2.1.symm, hrun.2.2.symm⟩

/-- C17 (witness): the abort of the scenario's save against the store that
held a committed snapshot. -/
theorem createSnapshot_abort_store_witness :
    (SnapshotError.saveSaplingsNotImplemented = .storeUnavailable ∧
      ({ trees := saveTrees scenarioSaved, soil := [], snag := [], saplings := [] } : Store)
        = priorStore ∧ (none : Option IndexGrid) = none) ∨
    (SnapshotError.saveSaplingsNotImplemented ≠ .storeUnavailable ∧
      (saveTrees scenarioSaved = [] ∨ saveTrees scenarioSaved = saveTrees saplingLive.units) ∧
      (([] : List Row) = [] ∨ [] = saveSoil saplingLive.units) ∧
      (([] : List Row) = [] ∨ [] = saveSnags saplingLive.units) ∧
      ([] : List Row) = [] ∧ (none : Option IndexGrid) = none) :=
  createSnapshot_abort_store (saveEnvOk true) saplingLive priorStore
    { trees := saveTrees scenarioSaved, soil := [], snag := [], saplings := [] }
    .saveSaplingsNotImplemented none (by decide)

theorem addSapling_full (c : SaplingCell) (hfull : ∀ s ∈ c.saplings, s.occupied = true)
    (h : Scalar) (age species_idx : Int) : addSapling c h age species_idx = none := by
  unfold addSapling
  have hidx : c.saplings.findIdx (fun s => !s.occupied) = c.saplings.length :=
    List.findIdx_eq_length_of_false (fun s hs => by simp [hfull s hs])
  simp [hidx]

/-! ## Capacity boundary -/

/-- C20: when the cell a sapling record is for has all its `NSAPCELLS` slots
occupied, the loop body of `loadSaplings` and the loop body of the sapling pass
of `loadStandSnapshot` both end without error and leave the live data,
and so every slot of the cell and the number of occupied slots, as they
were; the load then goes on with the next record. -/
theorem full_cell_drops_record :
    (∀ (h : RUHash) (catalog : List String) (w : Live) (row : Row) (rest : List Row)
      (ru : RUPtr) (species : String) (ci : Nat) (e : (Int × Int) × SaplingCell),
      resolve h w.units (value row 0).toInt = some ru →
      speciesOf catalog (value row 1).toString = some species →
      saplingCellAt w.saplings
        (foldPosition ((w.units[ru]?.map fun u => u.cornerPointOffset).getD (0, 0)).1
            (value row 2).toInt,
         foldPosition ((w.units[ru]?.map fun u => u.cornerPointOffset).getD (0, 0)).2
            (value row 3).toInt) = some ci →
      w.saplings[ci]? = some e → cellFull e.2 →
      loadSaplingsStep h catalog w row = .done w ∧
      loadSaplings h catalog (row :: rest) w = loadSaplings h catalog rest w) ∧
    (∀ (env : StandEnv) (g : SaplingGrid) (row : Row) (rest : List Row) (ci : Nat)
      (e : (Int × Int) × SaplingCell),
      saplingCellAt g (lifIndexAt (storedCoord env (value row 0) (value row 1))) = some ci →
      g[ci]? = some e → cellFull e.2 →
      loadStandSaplingStep env g row = g ∧
      (row :: rest).foldl (loadStandSaplingStep env) g
        = rest.foldl (loadStandSaplingStep env) g) := by
  constructor
  · intro h catalog w row rest ru species ci e hres hsp hcell he hfull
    have hstep : loadSaplingsStep h catalog w row = .done w := by
      unfold loadSaplingsStep
      simp only [hres, hsp, hcell, he, Option.some_bind, addSapling_full e.2 hfull.2]
    exact ⟨hstep, by simp [loadSaplings, forRows, hstep]⟩
  · intro env g row rest ci e hcell he hfull
    have hstep : loadStandSaplingStep env g row = g := by
      unfold loadStandSaplingStep
      simp only [hcell, he, Option.some_bind, addSapling_full e.2 hfull.2]
      split <;> rfl
    exact ⟨hstep, by simp [List.foldl_cons, hstep]⟩

/-- C20 (witness): a record of `saplings` and a row of `saplings_stand` for the
full cell at pixel (10, 20). -/
theorem full_cell_drops_record_witness :
    (∀ e ∈ fullCellLive.saplings, cellFull e.2) ∧
    (loadSaplingsStep twoUnitHash sampleCatalog fullCellLive sampleSaplingRow
        = .done fullCellLive ∧
      loadSaplings twoUnitHash sampleCatalog [sampleSaplingRow, sampleSaplingRow] fullCellLive
        = loadSaplings twoUnitHash sampleCatalog [sampleSaplingRow] fullCellLive) ∧
    (loadStandSaplingStep (standEnv true) fullCellLive.saplings (otherSaplingRow.drop 1)
        = fullCellLive.saplings ∧
      [otherSaplingRow.drop 1, otherSaplingRow.drop 1].foldl (loadStandSaplingStep (standEnv true))
          fullCellLive.saplings
        = [otherSaplingRow.drop 1].foldl (loadStandSaplingStep (standEnv true))
          fullCellLive.saplings) :=
  ⟨by decide,
   full_cell_drops_record.1 twoUnitHash sampleCatalog fullCellLive sampleSaplingRow
     [sampleSaplingRow] 0 "piab" 0 ((10, 20), _) (by decide) (by decide) (by decide) rfl
     (by decide),
   full_cell_drops_record.2 (standEnv true) fullCellLive.saplings (otherSaplingRow.drop 1)
     [otherSaplingRow.drop 1] 0 ((10, 20), _) (by decide) rfl (by decide)⟩

theorem rowStand_standTreeRow (env : StandEnv) (X : Int) (t : Tree) :
    rowStand (standTreeRow env X t) = X := rfl

theorem selectStand_standTreeRows (env : StandEnv) (X : Int) (units : RUList) :
    selectStand X (standTreeRows env X units) = standTreeRows env X units := by
  unfold selectStand standTreeRows
  rw [List.filter_eq_self]
  intro r hr
  obtain ⟨t, _, ht⟩ := List.mem_map.mp hr
  subst ht
  simp [rowStand_standTreeRow]

theorem deleteStand_standTreeRows (env : StandEnv) (X : Int) (units : RUList) :
    deleteStand X (standTreeRows env X units) = [] := by
  unfold deleteStand standTreeRows
  rw [List.filter_eq_nil_iff]
  intro r hr
  obtain ⟨t, _, ht⟩ := List.mem_map.mp hr
  subst ht
  simp [rowStand_standTreeRow]

theorem rowStand_of_mem_standSaplingRows (env : StandEnv) (X : Int) (g : SaplingGrid)
    (r : Row) (hr : r ∈ standSaplingRows env X g) : rowStand r = X := by
  unfold standSaplingRows at hr
  obtain ⟨e, _, he⟩ := List.mem_flatMap.mp hr
  split at he
  · obtain ⟨s, _, hs⟩ := List.mem_map.mp he
    subst hs
    rfl
  · cases he

theorem deleteStand_standSaplingRows (env : StandEnv) (X : Int) (g : SaplingGrid) :
    deleteStand X (standSaplingRows env X g) = [] := by
  unfold deleteStand
  rw [List.filter_eq_nil_iff]
  intro r hr
  simp [rowStand_of_mem_standSaplingRows env X g r hr]

theorem selectStand_deleteStand (X : Int) (rows : List Row) :
    selectStand X (deleteStand X rows) = [] := by
  unfold selectStand deleteStand
  rw [List.filter_filter, List.filter_eq_nil_iff]
  intro r _
  by_cases h : rowStand r = X <;> simp [h]

theorem deleteStand_idem (X : Int) (rows : List Row) :
    deleteStand X (deleteStand X rows) = deleteStand X rows := by
  unfold deleteStand
  rw [List.filter_filter]
  congr 1
  funext r
  simp

theorem insertRows_eq_some (accepts : Row → Bool) (table rows t : List Row)
    (h : insertRows accepts table rows = some t) : t = table ++ rows := by
  unfold insertRows at h
  split at h
  · simpa using h.symm
  · cases h

theorem openStandForWrite_tables (env : StandEnv) (store s0 : StandStore)
    (hok : store.isOpen = true ∨
      (store.trees_stand.isSome = true ∧ store.saplings_stand.isSome = true))
    (hopen : openStandForWrite env store = .done s0) :
    s0.trees_stand = store.trees_stand ∧ s0.saplings_stand = store.saplings_stand := by
  unfold openStandForWrite at hopen
  split at hopen
  · cases hopen
    exact ⟨rfl, rfl⟩
  · rename_i hclosed
    rcases hok with hok | ⟨ht, hs⟩
    · exact absurd hok hclosed
    · split at hopen
      · cases hopen
      · have hnone : (store.trees_stand.isNone || store.saplings_stand.isNone) = false := by
          cases htr : store.trees_stand <;> cases hsa : store.saplings_stand <;>
            simp [htr, hsa] at ht hs ⊢
        simp only [hnone, Bool.false_eq_true, ↓reduceIte, Outcome.done.injEq] at hopen
        subst hopen
        exact ⟨rfl, rfl⟩

theorem saveStandSnapshot_done_tables (env : StandEnv) (X : Int) (w : Live)
    (store s0 s1 : StandStore) (hopen : openStandForWrite env store = .done s0)
    (hdone : saveStandSnapshot env X w store = .done s1) :
    (∃ old, s0.trees_stand = some old ∧
      s1.trees_stand = some (deleteStand X old ++ standTreeRows env X w.units)) ∧
    ((env.regenerationEnabled = false ∧ s1.saplings_stand = s0.saplings_stand) ∨
     (env.regenerationEnabled = true ∧ ∃ olds, s0.saplings_stand = some olds ∧
        s1.saplings_stand = some (deleteStand X olds ++ standSaplingRows env X w.saplings))) := by
  unfold saveStandSnapshot at hdone
  simp only [hopen] at hdone
  cases htr : s0.trees_stand with
  | none => simp [htr] at hdone
  | some old =>
    simp only [htr, Option.map_some'] at hdone
    cases hins : insertRows env.accepts (deleteStand X old) (standTreeRows env X w.units) with
    | none => simp [hins] at hdone
    | some trees1 =>
      have ht1 := insertRows_eq_some _ _ _ _ hins
      subst ht1
      simp only [hins] at hdone
      by_cases hregen : env.regenerationEnabled = true
      · simp only [hregen, ↓reduceIte] at hdone
        cases hsa : s0.saplings_stand with
        | none => simp [hsa] at hdone
        | some olds =>
          simp only [hsa] at hdone
          cases hins2 : insertRows env.accepts (deleteStand X olds)
              (standSaplingRows env X w.saplings) with
          | none => simp [hins2] at hdone
          | some saps1 =>
            have hs1 := insertRows_eq_some _ _ _ _ hins2
            subst hs1
            simp only [hins2, Outcome.done.injEq] at hdone
            subst hdone
            exact ⟨⟨old, rfl, rfl⟩, Or.inr ⟨hregen, olds, rfl, rfl⟩⟩
      · have hoff : env.regenerationEnabled = false := by simpa using hregen
        simp only [hoff, Bool.false_eq_true, ↓reduceIte, Outcome.done.injEq] at hdone
        subst hdone
        exact ⟨⟨old, rfl, rfl⟩, Or.inl ⟨hoff, rfl⟩⟩

/-! ## Stand-scoped save: the rows of other stands -/

/-- C19 (counterexample): the stand database is not open and holds
`trees_stand` with a row of stand 5 but no `saplings_stand`;
`saveStandSnapshot` for stand 1 finds a table missing, drops and creates both,
and the row of stand 5 is gone afterwards. -/
theorem saveStandSnapshot_drops_other_stand_rows :
    treesOnlyStore.trees_stand = some [otherTreeRow] ∧ rowStand otherTreeRow = 5 ∧
    saveStandSnapshot (standEnv true) 1 saplingLive treesOnlyStore
      = .done { isOpen := true
                trees_stand := some [standTreeRow (standEnv true) 1 (sampleTree 100 10 20)]
                saplings_stand := some [standSaplingRow (standEnv true) 1 (10, 20) sampleSapling] } := by
  decide

theorem openStandForWrite_keeps_iff (env : StandEnv) (X : Int) (store s0 : StandStore)
    (hopen : openStandForWrite env store = .done s0) :
    (deleteStand X (s0.trees_stand.getD []) = deleteStand X (store.trees_stand.getD []) ∧
      deleteStand X (s0.saplings_stand.getD [])
        = deleteStand X (store.saplings_stand.getD [])) ↔
    (store.isOpen = false →
      (store.trees_stand.isNone || store.saplings_stand.isNone) = true →
      deleteStand X (store.trees_stand.getD []) = [] ∧
      deleteStand X (store.saplings_stand.getD []) = []) := by
  unfold openStandForWrite at hopen
  split at hopen
  · rename_i h
    cases hopen
    exact ⟨fun _ hc => (by rw [h] at hc; cases hc), fun _ => ⟨rfl, rfl⟩⟩
  · rename_i h
    have hclosed : store.isOpen = false := by simpa using h
    split at hopen
    · cases hopen
    · split at hopen
      · rename_i hmiss
        cases hopen
        simp only [Option.getD_some]
        constructor
        · intro hh _ _
          exact ⟨hh.1.symm, hh.2.symm⟩
        · intro hh
          have := hh hclosed hmiss
          exact ⟨this.1.symm, this.2.symm⟩
      · rename_i hmiss
        cases hopen
        exact ⟨fun _ _ hc => absurd hc hmiss, fun _ => ⟨rfl, rfl⟩⟩

theorem saveStandSnapshot_done_others (env : StandEnv) (X : Int) (w : Live)
    (store s0 s1 : StandStore) (hopen : openStandForWrite env store = .done s0)
    (hdone : saveStandSnapshot env X w store = .done s1) :
    deleteStand X (s1.trees_stand.getD []) = deleteStand X (s0.trees_stand.getD []) ∧
    deleteStand X (s1.saplings_stand.getD []) = deleteStand X (s0.saplings_stand.getD []) := by
  obtain ⟨⟨old, hold, htrees⟩, hsap⟩ :=
    saveStandSnapshot_done_tables env X w store s0 s1 hopen hdone
  constructor
  · rw [hold, htrees]
    have h1 := deleteStand_idem X old
    have h2 := deleteStand_standTreeRows env X w.units
    simp only [Option.getD_some]
    unfold deleteStand at h1 h2 ⊢
    rw [List.filter_append, h1, h2, List.append_nil]
  · rcases hsap with ⟨_, hs⟩ | ⟨_, olds, holds, hs⟩
    · rw [hs]
    · rw [hs, holds]
      have h1 := deleteStand_idem X olds
      have h2 := deleteStand_standSaplingRows env X w.saplings
      simp only [Option.getD_some]
      unfold deleteStand at h1 h2 ⊢
      rw [List.filter_append, h1, h2, List.append_nil]

/-- C19 (amended): when `saveStandSnapshot(X)` completes, whatever the stand
store held before, the rows of `trees_stand` whose standID is `X` are exactly
one row per tree that the stand grid lists for `X`; and the rows of
`trees_stand` and of `saplings_stand` whose standID is not `X` are the rows
that were there before the call (a missing table has none) if and only if the
save does not drop a table that holds such a row, that is unless the stand
database is not open yet, one of the two tables is missing and an existing
table holds a row of another stand. -/
theorem saveStandSnapshot_store_isolation (env : StandEnv) (X : Int) (w : Live)
    (store s1 : StandStore) (hdone : saveStandSnapshot env X w store = .done s1) :
    s1.trees_stand.map (selectStand X)
      = some ((standTrees env X w.units).map (standTreeRow env X)) ∧
    ((deleteStand X (s1.trees_stand.getD []) = deleteStand X (store.trees_stand.getD []) ∧
      deleteStand X (s1.saplings_stand.getD [])
        = deleteStand X (store.saplings_stand.getD [])) ↔
     (store.isOpen = false →
      (store.trees_stand.isNone || store.saplings_stand.isNone) = true →
      deleteStand X (store.trees_stand.getD []) = [] ∧
      deleteStand X (store.saplings_stand.getD []) = [])) := by
  cases hopen : openStandForWrite env store with
  | raised e s0 => simp [saveStandSnapshot, hopen] at hdone
  | done s0 =>
    obtain ⟨⟨old, _, htrees⟩, _⟩ :=
      saveStandSnapshot_done_tables env X w store s0 s1 hopen hdone
    obtain ⟨ht, hs⟩ := saveStandSnapshot_done_others env X w store s0 s1 hopen hdone
    refine ⟨?_, ?_⟩
    · rw [htrees]
      simp only [Option.map_some', selectStand, List.filter_append]
      have h1 := selectStand_deleteStand X old
      have h2 := selectStand_standTreeRows env X w.units
      simp only [selectStand] at h1 h2
      rw [h1, h2]
      rfl
    · rw [ht, hs]
      exact openStandForWrite_keeps_iff env X store s0 hopen

/-- C19 (witness): the save of stand 1 into the stand database that is not
open and holds both tables, each with a row of stand 5; and the first save of
stand 1 into a stand database that has neither table. -/
theorem saveStandSnapshot_store_isolation_witness :
    (savedStandStore.trees_stand.map (selectStand 1)
        = some ((standTrees (standEnv true) 1 saplingLive.units).map
            (standTreeRow (standEnv true) 1)) ∧
      deleteStand 1 (savedStandStore.trees_stand.getD [])
        = deleteStand 1 (bothTablesStore.trees_stand.getD []) ∧
      deleteStand 1 (savedStandStore.saplings_stand.getD [])
        = deleteStand 1 (bothTablesStore.saplings_stand.getD [])) ∧
    (firstSaveStore.trees_stand.map (selectStand 1)
        = some ((standTrees (standEnv true) 1 saplingLive.units).map
            (standTreeRow (standEnv true) 1)) ∧
      deleteStand 1 (firstSaveStore.trees_stand.getD [])
        = deleteStand 1 (freshStandStore.trees_stand.getD []) ∧
      deleteStand 1 (firstSaveStore.saplings_stand.getD [])
        = deleteStand 1 (freshStandStore.saplings_stand.getD [])) :=
  ⟨⟨(saveStandSnapshot_store_isolation (standEnv true) 1 saplingLive bothTablesStore
        savedStandStore (by decide)).1,
    (saveStandSnapshot_store_isolation (standEnv true) 1 saplingLive bothTablesStore
        savedStandStore (by decide)).2.mpr (fun _ h => absurd h (by decide))⟩,
   ⟨(saveStandSnapshot_store_isolation (standEnv true) 1 saplingLive freshStandStore
        firstSaveStore (by decide)).1,
    (saveStandSnapshot_store_isolation (standEnv true) 1 saplingLive freshStandStore
        firstSaveStore (by decide)).2.mpr (fun _ _ => ⟨rfl, rfl⟩)⟩⟩

theorem loadTables_saplings_off (h : RUHash) (env : LoadEnv) (w : Live)
    (hoff : env.regenerationEnabled = false) :
    (loadTables h env w).state.saplings = w.saplings := by
  unfold loadTables
  cases loadTrees h env.catalog env.trees w.units with
  | raised e u => rfl
  | done u1 =>
    simp only
    cases loadSoil h env.soil u1 with
    | raised e u => rfl
    | done u2 =>
      simp only [hoff, Bool.false_eq_true, ↓reduceIte]
      rfl

theorem loadSnapshot_saplings_off (env : LoadEnv) (w : Live)
    (hoff : env.regenerationEnabled = false) :
    (loadSnapshot env w).state.saplings = w.saplings := by
  unfold loadSnapshot
  split
  · rfl
  · cases buildHash env w.units with
    | error e => rfl
    | ok h => exact loadTables_saplings_off h env w hoff

theorem loadStandSnapshot_saplings_off (env : StandEnv) (X : Int) (w : Live)
    (store : StandStore) (hoff : env.regenerationEnabled = false) :
    (loadStandSnapshot env X w store).state.saplings = w.saplings := by
  unfold loadStandSnapshot
  split
  · rfl
  · simp only
    cases forRows (loadStandTreeStep env) (removeStandTrees env X w.units)
        (selectStand X (store.trees_stand.getD [])) with
    | raised e u => rfl
    | done u1 =>
      simp only [hoff, Bool.false_eq_true, ↓reduceIte]
      rfl

theorem saveStandSnapshot_saplings_off (env : StandEnv) (X : Int) (w : Live)
    (store : StandStore) (hoff : env.regenerationEnabled = false)
    (hok : store.isOpen = true ∨
      (store.trees_stand.isSome = true ∧ store.saplings_stand.isSome = true)) :
    (saveStandSnapshot env X w store).state.saplings_stand = store.saplings_stand := by
  unfold saveStandSnapshot
  cases hopen : openStandForWrite env store with
  | raised e s0 =>
    simp only [Outcome.state]
    unfold openStandForWrite at hopen
    split at hopen
    · cases hopen
    · split at hopen
      · cases hopen
        rfl
      · split at hopen <;> cases hopen
  | done s0 =>
    obtain ⟨_, hsab⟩ := openStandForWrite_tables env store s0 hok hopen
    simp only
    cases s0.trees_stand with
    | none => exact hsab
    | some old =>
      simp only [Option.map_some']
      cases insertRows env.accepts (deleteStand X old) (standTreeRows env X w.units) with
      | none => exact hsab
      | some trees1 =>
        simp only [hoff, Bool.false_eq_true, ↓reduceIte]
        exact hsab

/-! ## Regeneration gate -/

/-- C15 (counterexample): regeneration is off, the stand database is not open
and holds `saplings_stand` with a row of stand 5 but no `trees_stand`;
`saveStandSnapshot` finds a table missing, drops and creates both, and
`saplings_stand` is empty afterwards. -/
theorem saveStandSnapshot_regeneration_off_drops_saplings :
    (standEnv false).regenerationEnabled = false ∧
    saplingsOnlyStore.saplings_stand = some [otherSaplingRow] ∧
    (saveStandSnapshot (standEnv false) 1 saplingLive saplingsOnlyStore).state.saplings_stand
      = some [] := by
  decide

/-- C15 (amended): when the regeneration setting is off, `loadSnapshot` and
`loadStandSnapshot` leave every slot of every sapling cell as it was, whatever
rows the store holds and whether they complete or throw; and
`saveStandSnapshot` leaves the rows of `saplings_stand` as they were when the
stand database is already open or holds both tables. -/
theorem regeneration_off_gate :
    (∀ (env : LoadEnv) (w : Live), env.regenerationEnabled = false →
      (loadSnapshot env w).state.saplings = w.saplings) ∧
    (∀ (env : StandEnv) (X : Int) (w : Live) (store : StandStore),
      env.regenerationEnabled = false →
      (loadStandSnapshot env X w store).state.saplings = w.saplings) ∧
    (∀ (env : StandEnv) (X : Int) (w : Live) (store : StandStore),
      env.regenerationEnabled = false →
      (store.isOpen = true ∨
        (store.trees_stand.isSome = true ∧ store.saplings_stand.isSome = true)) →
      (saveStandSnapshot env X w store).state.saplings_stand = store.saplings_stand) :=
  ⟨loadSnapshot_saplings_off, loadStandSnapshot_saplings_off, saveStandSnapshot_saplings_off⟩

/-- C15 (witness): the scenario load with sapling rows in the store, the load
of stand 1 and the save of stand 1 into the stand database with both tables,
all with regeneration off. -/
theorem regeneration_off_gate_witness :
    (loadSnapshot { scenarioEnv with saplings := [sampleSaplingRow] } saplingLive).state.saplings
      = saplingLive.saplings ∧
    (loadStandSnapshot (standEnv false) 1 saplingLive bothTablesStore).state.saplings
      = saplingLive.saplings ∧
    (saveStandSnapshot (standEnv false) 1 saplingLive bothTablesStore).state.saplings_stand
      = bothTablesStore.saplings_stand :=
  ⟨regeneration_off_gate.1 { scenarioEnv with saplings := [sampleSaplingRow] } saplingLive rfl,
   regeneration_off_gate.2.1 (standEnv false) 1 saplingLive bothTablesStore rfl,
   regeneration_off_gate.2.2 (standEnv false) 1 saplingLive bothTablesStore rfl
     (Or.inr (by decide))⟩

theorem forRows_state_inv {σ : Type} (step : σ → Row → Outcome σ) (P : σ → Prop)
    (rows : List Row) (hstep : ∀ s row, row ∈ rows → P s → P (step s row).state) :
    ∀ s, P s → P (forRows step s rows).state := by
  induction rows with
  | nil =>
    intro s hs
    exact hs
  | cons row rows ih =>
    intro s hs
    have h1 := hstep s row (List.mem_cons_self _ _) hs
    simp only [forRows]
    cases hr : step s row with
    | done s1 =>
      rw [hr] at h1
      exact ih (fun a r hr' => hstep a r (List.mem_cons_of_mem _ hr')) s1 h1
    | raised e s1 =>
      rw [hr] at h1
      exact h1

theorem removeStandTrees_outside (env : StandEnv) (X : Int) (units : RUList) :
    TreesOutsideSame env X units (removeStandTrees env X units) := by
  refine ⟨by simp [removeStandTrees], ?_⟩
  intro p
  simp only [removeStandTrees, List.getElem?_map, Option.map_map]
  cases units[p]? with
  | none => rfl
  | some u =>
    simp only [Option.map_some', Function.comp_apply, outsideTrees, List.filter_filter,
      Bool.and_self]

theorem addTree_outside (env : StandEnv) (X : Int) (units cur : RUList) (p : RUPtr)
    (t : Tree) (ht : env.standAt t.mPositionIndex = X)
    (hcur : TreesOutsideSame env X units cur) :
    TreesOutsideSame env X units (addTree cur p t) := by
  refine ⟨by rw [addTree_length]; exact hcur.1, ?_⟩
  intro q
  rw [← hcur.2 q, addTree_getElem?]
  cases cur[q]? with
  | none => rfl
  | some u =>
    simp only [Option.map_some', Option.some.injEq]
    split
    · simp [outsideTrees, List.filter_append, ht]
    · rfl

theorem loadStandTreeStep_outside (env : StandEnv) (X : Int) (units cur : RUList) (row : Row)
    (hrow : env.extent.contains (storedCoord env (value row 2) (value row 3)) = true →
      env.standAt (lifIndexAt (storedCoord env (value row 2) (value row 3))) = X)
    (hcur : TreesOutsideSame env X units cur) :
    TreesOutsideSame env X units (loadStandTreeStep env cur row).state := by
  unfold loadStandTreeStep
  simp only
  by_cases hc : env.extent.contains (storedCoord env (value row 2) (value row 3)) = true
  · simp only [hc, Bool.not_true, Bool.false_eq_true, ↓reduceIte]
    cases ruAt env.rugrid cur (storedCoord env (value row 2) (value row 3)) with
    | none => exact hcur
    | some ru =>
      simp only
      cases speciesOf env.catalog (value row 4).toString with
      | none => exact addTree_outside env X units cur ru _ (hrow hc) hcur
      | some s => exact addTree_outside env X units cur ru _ (hrow hc) hcur
  · have hc2 : env.extent.contains (storedCoord env (value row 2) (value row 3)) = false := by
      simpa using hc
    simp only [hc2, Bool.not_false, ↓reduceIte]
    exact hcur

theorem saplingCellAt_key (g : SaplingGrid) (px : Int × Int) (ci : Nat)
    (h : saplingCellAt g px = some ci) : ∃ e, g[ci]? = some e ∧ e.1 = px := by
  unfold saplingCellAt at h
  simp only at h
  split at h
  · rename_i hlt
    cases h
    refine ⟨g[g.findIdx fun e => decide (e.1 = px)], by simp [hlt], ?_⟩
    have := List.findIdx_of_getElem?_eq_some
      (List.getElem?_eq_getElem hlt : g[g.findIdx fun e => decide (e.1 = px)]? = some _)
    simpa using this
  · cases h

theorem clearStandSaplings_outside (env : StandEnv) (X : Int) (g : SaplingGrid) :
    SaplingsOutsideSame env X g (clearStandSaplings env X g) := by
  refine ⟨by simp [clearStandSaplings], ?_⟩
  intro i e he hout
  simp only [clearStandSaplings, List.getElem?_map, he, Option.map_some', Option.some.injEq]
  have hb : (env.standAt e.1 == X) = false := by simpa using hout
  simp [hb]

theorem loadStandSaplingStep_outside (env : StandEnv) (X : Int) (g0 g : SaplingGrid)
    (row : Row)
    (hrow : env.extent.contains (storedCoord env (value row 0) (value row 1)) = true →
      env.standAt (lifIndexAt (storedCoord env (value row 0) (value row 1))) = X)
    (hg : SaplingsOutsideSame env X g0 g) :
    SaplingsOutsideSame env X g0 (loadStandSaplingStep env g row) := by
  unfold loadStandSaplingStep
  simp only
  by_cases hc : env.extent.contains (storedCoord env (value row 0) (value row 1)) = true
  · simp only [hc, Bool.not_true, Bool.false_eq_true, ↓reduceIte]
    cases hcell : saplingCellAt g (lifIndexAt (storedCoord env (value row 0) (value row 1))) with
    | none => exact hg
    | some ci =>
      simp only
      obtain ⟨e1, he1, hkey⟩ := saplingCellAt_key g _ ci hcell
      cases hadd : g[ci]?.bind fun e =>
          addSapling e.2 (value row 4).toDouble (value row 3).toInt (value row 2).toInt with
      | none => exact hg
      | some r =>
        obtain ⟨slot, cell⟩ := r
        simp only
        refine ⟨by rw [List.length_modify]; exact hg.1, ?_⟩
        intro i e he hout
        have hgi := hg.2 i e he hout
        have hne : ci ≠ i := by
          intro heq
          subst heq
          rw [he1] at hgi
          cases hgi
          exact hout (hkey ▸ hrow hc)
        rw [List.getElem?_modify_ne _ _ hne]
        exact hgi
  · have hc2 : env.extent.contains (storedCoord env (value row 0) (value row 1)) = false := by
      simpa using hc
    simp only [hc2, Bool.not_false, ↓reduceIte]
    exact hg

theorem foldl_inv {α β : Type} (f : β → α → β) (P : β → Prop) (xs : List α)
    (hstep : ∀ b x, x ∈ xs → P b → P (f b x)) : ∀ b, P b → P (xs.foldl f b) := by
  induction xs with
  | nil =>
    intro b hb
    exact hb
  | cons x xs ih =>
    intro b hb
    exact ih (fun b' x' hx' => hstep b' x' (List.mem_cons_of_mem _ hx')) _
      (hstep b x (List.mem_cons_self _ _) hb)

theorem value_drop_one (row : Row) (k : Nat) : value (row.drop 1) k = value row (k + 1) := by
  simp [value, List.getElem?_drop, Nat.add_comm]

/-! ## Height-grid cell counter -/

/-- C22 (counterexample): a valid cell whose count is 65535;
`increaseCount()` carries into bit 16, so `count()` becomes 0 instead of
65536 and `isValid()` turns from true to false. -/
theorem increaseCount_overflows_at_65535 :
    (HeightGridValue.init 0 65535).count = 65535 ∧
    (HeightGridValue.init 0 65535).isValid = true ∧
    (HeightGridValue.init 0 65535).increaseCount.count = 0 ∧
    (HeightGridValue.init 0 65535).increaseCount.isValid = false := by
  decide

/-- C22 (amended): for every `HeightGridValue` whose `count()` is below 65535,
`increaseCount()` raises `count()` by exactly one and leaves `isValid()`,
`isForestOutside()` and `isRadiating()` unchanged. -/
theorem increaseCount_below_65535 (v : HeightGridValue) (hrange : v.mCount < 2 ^ 32)
    (hcount : v.count < 65535) :
    v.increaseCount.count = v.count + 1 ∧
    v.increaseCount.isValid = v.isValid ∧
    v.increaseCount.isForestOutside = v.isForestOutside ∧
    v.increaseCount.isRadiating = v.isRadiating := by
  obtain ⟨height, m⟩ := v
  simp only [HeightGridValue.count, HeightGridValue.increaseCount, HeightGridValue.isValid,
    HeightGridValue.isForestOutside, HeightGridValue.isRadiating, isBitSet] at *
  norm_num at *
  have h1 : (m + 1) % 4294967296 = m + 1 := by omega
  rw [h1]
  refine ⟨by omega, ?_, ?_, ?_⟩
  · have : (m + 1) / 65536 = m / 65536 := by omega
    rw [this]
  · have : (m + 1) / 131072 = m / 131072 := by omega
    rw [this]
  · have : (m + 1) / 262144 = m / 262144 := by omega
    rw [this]

/-- C22 (witness): a cell outside the project area (bit 16 set) with count 7. -/
theorem increaseCount_below_65535_witness :
    (HeightGridValue.init 0 65543).increaseCount.count = (HeightGridValue.init 0 65543).count + 1 ∧
    (HeightGridValue.init 0 65543).increaseCount.isValid = (HeightGridValue.init 0 65543).isValid ∧
    (HeightGridValue.init 0 65543).increaseCount.isForestOutside
      = (HeightGridValue.init 0 65543).isForestOutside ∧
    (HeightGridValue.init 0 65543).increaseCount.isRadiating
      = (HeightGridValue.init 0 65543).isRadiating :=
  increaseCount_below_65535 (HeightGridValue.init 0 65543) (by decide) (by decide)

/-! ## Snag load: records without a unit -/

/-- C25 (evaluation at the failing input): the second record of the snag table
carries the stored index 7, which the two-unit mapping does not resolve.
`loadSnags` completes, but it reads the unit index of that record at column 42,
where the invalid variant gives 0, and writes the zeros of the columns 43 to 83
over the snag pool of unit 0, which had just received the fields 101 to 141 of
its own record. -/
theorem loadSnags_unresolved_record_writes :
    (snagRowsWithStranger.map fun row => (value row 0).toInt) = [0, 7] ∧
    resolve twoUnitHash snagLive 7 = none ∧
    ((loadSnags twoUnitHash snagRowsWithStranger.dropLast snagLive)[0]?).bind (fun u => u.snag)
      = some (snagFrom 100) ∧
    ((loadSnags twoUnitHash snagRowsWithStranger snagLive)[0]?).bind (fun u => u.snag)
      = some (loadSnagFields (snagFrom 100) [] 0) ∧
    ((loadSnags twoUnitHash snagRowsWithStranger snagLive)[0]?).bind (fun u => u.snag)
      ≠ some (snagFrom 100) := by
  decide

theorem forRows_loadTrees_inv (h : RUHash) (catalog : List String) (rows : List Row)
    (units : RUList) (st : TreeLoad)
    (hrun : forRows (loadTreesStep h catalog) (treeLoadInit units) rows = .done st) :
    TreeLoadInv h catalog rows units st :=
  forRows_done_inv (loadTreesStep h catalog) (TreeLoadInv h catalog rows units) rows
    (fun s row s1 hrow hs hstep => loadTreesStep_inv h catalog rows units s row s1 hrow hs hstep)
    _ _ (treeLoadInit_inv h catalog rows units) hrun

theorem loadTreesStep_raised (h : RUHash) (catalog : List String) (rows : List Row)
    (units : RUList) (st st1 : TreeLoad) (row : Row) (e : SnapshotError)
    (hst : TreeLoadInv h catalog rows units st)
    (hstep : loadTreesStep h catalog st row = .raised e st1) :
    e = .invalidSpecies ∧ speciesOf catalog (value row 4).toString = none ∧
    ∃ (p : RUPtr) (u : ResourceUnit), resolve h units (value row 1).toInt = some p ∧
      units[p]? = some u ∧
      st1.units = addTree st.units p
        (treeIdPos u.cornerPointOffset.1 u.cornerPointOffset.2 row) := by
  obtain ⟨hinv, hidx⟩ := treeLookup_inv h catalog rows units st (value row 1).toInt hst
  have hun := treeLookup_units h st (value row 1).toInt
  unfold loadTreesStep at hstep
  simp only at hstep
  generalize treeLookup h st (value row 1).toInt = st2 at hinv hidx hstep hun
  cases hp : st2.ru with
  | none => simp [hp] at hstep
  | some p =>
    simp only [hp] at hstep
    cases hs : speciesOf catalog (value row 4).toString with
    | some s => simp [hs] at hstep
    | none =>
      simp only [hs, Outcome.raised.injEq] at hstep
      obtain ⟨he, hst1⟩ := hstep
      obtain ⟨_, _, hcache, _⟩ := hinv
      obtain ⟨hres, u, hu, hox, hoy⟩ := hcache p hp
      rw [hidx p hp] at hres
      refine ⟨he.symm, rfl, p, u, hres, hu, ?_⟩
      rw [← hst1, hox, hoy, hun]

/-! ## Tree load: the state at the abort -/

/-- C24: when the load of the records before record `k` completes and the load
raises at record `k`, the error is the invalid-species error, the load of the
whole table ends at that record in the same state, and that state is the one
the records before `k` leave (every earlier list cleared, then the trees of the
records before `k`) with one more tree appended to the unit that the stored
index of record `k` resolves to: a tree with the id and the folded pixel
position of the record, no species, no stamp and the scalar fields of a new
tree. -/
theorem loadTrees_abort_state (h : RUHash) (catalog : List String) (pre post : List Row)
    (row : Row) (units upre u1 : RUList) (e : SnapshotError)
    (hpre : loadTrees h catalog pre units = .done upre)
    (hraise : loadTrees h catalog (pre ++ [row]) units = .raised e u1) :
    e = .invalidSpecies ∧ speciesOf catalog (value row 4).toString = none ∧
    loadTrees h catalog (pre ++ row :: post) units = .raised .invalidSpecies u1 ∧
    loadTrees h catalog pre (clearTrees units) = .done upre ∧
    ∃ (p : RUPtr) (u : ResourceUnit), resolve h units (value row 1).toInt = some p ∧
      units[p]? = some u ∧
      u1 = addTree upre p (treeIdPos u.cornerPointOffset.1 u.cornerPointOffset.2 row) ∧
      treeIdPos u.cornerPointOffset.1 u.cornerPointOffset.2 row =
        { newTree with
          mId := (value row 0).toInt
          mPositionIndex := (foldPosition u.cornerPointOffset.1 (value row 2).toInt,
                             foldPosition u.cornerPointOffset.2 (value row 3).toInt) } ∧
      newTree.mSpecies = none ∧ newTree.mStamp = none := by
  unfold loadTrees at hpre hraise
  cases hrun : forRows (loadTreesStep h catalog) (treeLoadInit units) pre with
  | raised e2 st => simp [hrun, Outcome.map] at hpre
  | done st =>
    simp only [hrun, Outcome.map, Outcome.done.injEq] at hpre
    rw [forRows_append, hrun] at hraise
    simp only [forRows] at hraise
    cases hstep : loadTreesStep h catalog st row with
    | done st1 => simp [hstep, Outcome.map] at hraise
    | raised e2 st1 =>
      simp only [hstep, Outcome.map, Outcome.raised.injEq] at hraise
      obtain ⟨he2, hu1⟩ := hraise
      subst he2
      obtain ⟨he, hsp, p, u, hres, hu, hst1⟩ := loadTreesStep_raised h catalog pre units st st1
        row e2 (forRows_loadTrees_inv h catalog pre units st hrun) hstep
      subst he
      refine ⟨rfl, hsp, ?_, ?_, p, u, hres, hu, ?_, rfl, rfl, rfl⟩
      · unfold loadTrees
        rw [forRows_append, hrun]
        simp only [forRows, hstep, Outcome.map, hu1]
      · unfold loadTrees
        have hinit : treeLoadInit (clearTrees units) = treeLoadInit units := by
          simp only [treeLoadInit, clearTrees_idem]
        rw [hinit, hrun]
        simp [Outcome.map, hpre]
      · rw [← hu1, hst1, hpre]

/-- C24 (witness): the tree table of the scenario followed by a record of the
unknown species for unit 1 and another record. -/
theorem loadTrees_abort_state_witness :
    SnapshotError.invalidSpecies = .invalidSpecies ∧
    speciesOf sampleCatalog (value (unknownSpeciesRow 1) 4).toString = none ∧
    loadTrees twoUnitHash sampleCatalog
        (saveTrees scenarioSaved ++ unknownSpeciesRow 1 :: saveTrees scenarioSaved) scenarioLive.units
      = .raised .invalidSpecies
          [treeUnit 0 0 [sampleTree 100 10 20],
           treeUnit 1 1 [sampleTree 200 60 20,
             { newTree with mId := 300, mPositionIndex := (60, 20) }]] ∧
    loadTrees twoUnitHash sampleCatalog (saveTrees scenarioSaved) (clearTrees scenarioLive.units)
      = .done scenarioSaved ∧
    ∃ (p : RUPtr) (u : ResourceUnit),
      resolve twoUnitHash scenarioLive.units (value (unknownSpeciesRow 1) 1).toInt = some p ∧
      scenarioLive.units[p]? = some u ∧
      [treeUnit 0 0 [sampleTree 100 10 20],
        treeUnit 1 1 [sampleTree 200 60 20,
          { newTree with mId := 300, mPositionIndex := (60, 20) }]]
        = addTree scenarioSaved p
            (treeIdPos u.cornerPointOffset.1 u.cornerPointOffset.2 (unknownSpeciesRow 1)) ∧
      treeIdPos u.cornerPointOffset.1 u.cornerPointOffset.2 (unknownSpeciesRow 1) =
        { newTree with
          mId := (value (unknownSpeciesRow 1) 0).toInt
          mPositionIndex :=
            (foldPosition u.cornerPointOffset.1 (value (unknownSpeciesRow 1) 2).toInt,
             foldPosition u.cornerPointOffset.2 (value (unknownSpeciesRow 1) 3).toInt) } ∧
      newTree.mSpecies = none ∧ newTree.mStamp = none :=
  loadTrees_abort_state twoUnitHash sampleCatalog (saveTrees scenarioSaved)
    (saveTrees scenarioSaved) (unknownSpeciesRow 1) scenarioLive.units scenarioSaved _
    .invalidSpecies (by decide) (by decide)

theorem occupiedKept_refl (g : SaplingGrid) : OccupiedKept g g :=
  ⟨rfl, fun _ e he => ⟨e, he, rfl, rfl, fun _ _ hs _ => hs⟩⟩

theorem occupiedKept_trans (g0 g1 g2 : SaplingGrid) (h01 : OccupiedKept g0 g1)
    (h12 : OccupiedKept g1 g2) : OccupiedKept g0 g2 := by
  refine ⟨h12.1.trans h01.1, ?_⟩
  intro i e he
  obtain ⟨e1, he1, hk1, hl1, hs1⟩ := h01.2 i e he
  obtain ⟨e2, he2, hk2, hl2, hs2⟩ := h12.2 i e1 he1
  refine ⟨e2, he2, hk2.trans hk1, hl2.trans hl1, ?_⟩
  intro k s hs hocc
  exact hs2 k s (hs1 k s hs hocc) hocc

theorem addSapling_some (c : SaplingCell) (h : Scalar) (age species_idx : Int) (slot : Nat)
    (cell : SaplingCell) (hadd : addSapling c h age species_idx = some (slot, cell)) :
    (∃ s0, c.saplings[slot]? = some s0 ∧ s0.occupied = false) ∧
    cell.saplings = c.saplings.modify
      (fun s => { s with occupied := true, height := h, age := age,
                         species_index := species_idx }) slot := by
  unfold addSapling at hadd
  simp only at hadd
  split at hadd
  · rename_i hlt
    simp only [Option.some.injEq, Prod.mk.injEq] at hadd
    obtain ⟨hslot, hcell⟩ := hadd
    subst hslot
    refine ⟨⟨c.saplings[c.saplings.findIdx fun s => !s.occupied], by simp [hlt], ?_⟩, ?_⟩
    · have := List.findIdx_of_getElem?_eq_some
        (List.getElem?_eq_getElem hlt :
          c.saplings[c.saplings.findIdx fun s => !s.occupied]? = some _)
      simpa using this
    · rw [← hcell]
  · cases hadd

theorem addSapling_free (c : SaplingCell) (h : Scalar) (age species_idx : Int)
    (hfree : ∃ s ∈ c.saplings, s.occupied = false) :
    ∃ slot cell, addSapling c h age species_idx = some (slot, cell) := by
  unfold addSapling
  simp only
  have hlt : c.saplings.findIdx (fun s => !s.occupied) < c.saplings.length := by
    apply List.findIdx_lt_length_of_exists
    obtain ⟨s, hs, hocc⟩ := hfree
    exact ⟨s, hs, by simp [hocc]⟩
  simp only [hlt, ↓reduceIte]
  exact ⟨_, _, rfl⟩

theorem occupiedKept_fill (g : SaplingGrid) (ci slot : Nat) (e : (Int × Int) × SaplingCell)
    (s0 : SaplingTree) (f : SaplingTree → SaplingTree) (he : g[ci]? = some e)
    (hs0 : e.2.saplings[slot]? = some s0) (hfree : s0.occupied = false) :
    OccupiedKept g (g.modify (fun e1 => (e1.1, { saplings := e.2.saplings.modify f slot })) ci) := by
  refine ⟨by simp, ?_⟩
  intro i e2 he2
  by_cases hi : ci = i
  · subst hi
    rw [he] at he2
    cases he2
    refine ⟨(e.1, { saplings := e.2.saplings.modify f slot }), by simp [he], rfl, by simp, ?_⟩
    intro k s hs hocc
    have hk : slot ≠ k := by
      intro hk
      subst hk
      rw [hs0] at hs
      cases hs
      rw [hfree] at hocc
      cases hocc
    simp only [List.getElem?_modify_ne _ _ hk]
    exact hs
  · refine ⟨e2, by rw [List.getElem?_modify_ne _ _ hi]; exact he2, rfl, rfl, fun _ _ hs _ => hs⟩

theorem loadSaplingsStep_kept (h : RUHash) (catalog : List String) (w : Live) (row : Row) :
    OccupiedKept w.saplings (loadSaplingsStep h catalog w row).state.saplings := by
  unfold loadSaplingsStep
  cases resolve h w.units (value row 0).toInt with
  | none => exact occupiedKept_refl _
  | some ru =>
    simp only
    cases speciesOf catalog (value row 1).toString with
    | none => exact occupiedKept_refl _
    | some species =>
      simp only
      split
      · exact occupiedKept_refl _
      · rename_i ci hci
        cases he : w.saplings[ci]? with
        | none => exact occupiedKept_refl _
        | some e =>
          simp only [Option.some_bind]
          cases hadd : addSapling e.2 (value row 5).toDouble (value row 4).toInt
              (speciesIndex catalog species) with
          | none => exact occupiedKept_refl _
          | some r =>
            obtain ⟨slot, cell⟩ := r
            obtain ⟨⟨s0, hs0, hfree⟩, hcell⟩ := addSapling_some _ _ _ _ _ _ hadd
            simp only [Outcome.state, hcell, List.modify_modify_eq]
            exact occupiedKept_fill w.saplings ci slot e s0 _ he hs0 hfree

theorem forRows_loadSaplings_kept (h : RUHash) (catalog : List String) (rows : List Row)
    (w : Live) :
    OccupiedKept w.saplings (forRows (loadSaplingsStep h catalog) w rows).state.saplings :=
  forRows_state_inv (loadSaplingsStep h catalog) (fun s => OccupiedKept w.saplings s.saplings)
    rows
    (fun s row _ hs => occupiedKept_trans _ _ _ hs (loadSaplingsStep_kept h catalog s row))
    w (occupiedKept_refl _)

theorem loadSaplingsStep_lands (h : RUHash) (catalog : List String) (w : Live) (row : Row)
    (ru : RUPtr) (species : String) (ci : Nat) (e : (Int × Int) × SaplingCell)
    (hres : resolve h w.units (value row 0).toInt = some ru)
    (hsp : speciesOf catalog (value row 1).toString = some species)
    (hcell : saplingCellAt w.saplings
      (foldPosition ((w.units[ru]?.map fun u => u.cornerPointOffset).getD (0, 0)).1
          (value row 2).toInt,
       foldPosition ((w.units[ru]?.map fun u => u.cornerPointOffset).getD (0, 0)).2
          (value row 3).toInt) = some ci)
    (he : w.saplings[ci]? = some e) (hfree : ∃ s ∈ e.2.saplings, s.occupied = false) :
    ∃ (w1 : Live) (slot : Nat) (s0 : SaplingTree) (e1 : (Int × Int) × SaplingCell),
      loadSaplingsStep h catalog w row = .done w1 ∧
      e.2.saplings[slot]? = some s0 ∧ s0.occupied = false ∧
      w1.saplings[ci]? = some e1 ∧
      e1.2.saplings[slot]?.map (fun s => s.occupied) = some true := by
  obtain ⟨slot, cell, hadd⟩ := addSapling_free e.2 (value row 5).toDouble (value row 4).toInt
    (speciesIndex catalog species) hfree
  obtain ⟨⟨s0, hs0, hs0free⟩, hcellEq⟩ := addSapling_some _ _ _ _ _ _ hadd
  unfold loadSaplingsStep
  simp only [hres, hsp, hcell, he, Option.some_bind, hadd]
  refine ⟨_, slot, s0,
    (e.1, ⟨cell.saplings.modify (fun s => { s with stress_years := toUChar (value row 6).toInt }) slot⟩),
    rfl, hs0, hs0free, ?_, ?_⟩
  · simp only [List.getElem?_modify_eq, he, Option.map_eq_map, Option.map_some']
  · simp only [hcellEq, List.modify_modify_eq, List.getElem?_modify_eq, hs0, Option.map_eq_map,
      Option.map_some', Function.comp_apply]

theorem loadSaplings_twice_differs_aux (h : RUHash) (catalog : List String)
    (pre post : List Row) (row : Row) (w1 w2 st : Live) (ru : RUPtr) (species : String)
    (ci : Nat) (e : (Int × Int) × SaplingCell)
    (hsecond : loadSaplings h catalog (pre ++ row :: post) w1 = .done w2)
    (hpre : loadSaplings h catalog pre w1 = .done st)
    (hres : resolve h st.units (value row 0).toInt = some ru)
    (hsp : speciesOf catalog (value row 1).toString = some species)
    (hcell : saplingCellAt st.saplings
      (foldPosition ((st.units[ru]?.map fun u => u.cornerPointOffset).getD (0, 0)).1
          (value row 2).toInt,
       foldPosition ((st.units[ru]?.map fun u => u.cornerPointOffset).getD (0, 0)).2
          (value row 3).toInt) = some ci)
    (he : st.saplings[ci]? = some e) (hfree : ∃ s ∈ e.2.saplings, s.occupied = false) :
    w2 ≠ w1 := by
  obtain ⟨st1, slot, s0, e1, hstep, hs0, hs0free, he1, hocc⟩ :=
    loadSaplingsStep_lands h catalog st row ru species ci e hres hsp hcell he hfree
  unfold loadSaplings at hsecond hpre
  rw [forRows_append, hpre] at hsecond
  simp only [forRows, hstep] at hsecond
  have hk1 := forRows_loadSaplings_kept h catalog pre w1
  rw [hpre] at hk1
  have hk2 := forRows_loadSaplings_kept h catalog post st1
  rw [hsecond] at hk2
  simp only [Outcome.state] at hk1 hk2
  intro heq
  subst heq
  -- the slot is occupied after the second load
  obtain ⟨e2, he2, _, _, hkeep2⟩ := hk2.2 ci e1 he1
  cases hs1 : e1.2.saplings[slot]? with
  | none => simp [hs1] at hocc
  | some s1 =>
    simp only [hs1, Option.map_some', Option.some.injEq] at hocc
    have hs2 := hkeep2 slot s1 hs1 hocc
    -- and it was free before it
    have hlt : ci < w2.saplings.length := by
      have := (List.getElem?_eq_some_iff.mp he2).1
      exact this
    obtain ⟨e3, he3, _, hlen3, hkeep3⟩ := hk1.2 ci w2.saplings[ci] (by simp [hlt])
    rw [he] at he3
    cases he3
    have he2' : w2.saplings[ci] = e2 := by
      have := List.getElem?_eq_getElem hlt
      rw [he2] at this
      exact (Option.some.inj this).symm
    rw [he2'] at hkeep3
    have hs3 := hkeep3 slot s1 hs2 hocc
    rw [hs0] at hs3
    cases hs3
    rw [hs0free] at hocc
    cases hocc

/-! ## Full-landscape sapling load is additive -/

/-- C23 (counterexample): the cell at pixel (10, 20) has one free slot and the
sapling table holds one record for it.  The first load puts the record in the
free slot, which fills the cell; the second load of the same table finds no
free slot and leaves the state of the first load as it is. -/
theorem loadSaplings_twice_same_when_cell_fills :
    (∃ e ∈ nearlyFullLive.saplings, ∃ s ∈ e.2.saplings, s.occupied = false) ∧
    loadSaplings twoUnitHash sampleCatalog [sampleSaplingRow] nearlyFullLive
      = .done { units := scenarioSaved
                saplings := [((10, 20), { saplings := [sampleSapling, sampleSapling,
                  sampleSapling, sampleSapling,
                  { occupied := true, species_index := 0, age := 4, height := 9,
                    stress_years := 2, flags := 0 }] })] } ∧
    loadSaplings twoUnitHash sampleCatalog [sampleSaplingRow]
        { units := scenarioSaved
          saplings := [((10, 20), { saplings := [sampleSapling, sampleSapling,
            sampleSapling, sampleSapling,
            { occupied := true, species_index := 0, age := 4, height := 9,
              stress_years := 2, flags := 0 }] })] }
      = .done { units := scenarioSaved
                saplings := [((10, 20), { saplings := [sampleSapling, sampleSapling,
                  sampleSapling, sampleSapling,
                  { occupied := true, species_index := 0, age := 4, height := 9,
                    stress_years := 2, flags := 0 }] })] } := by
  decide

/-- C23 (amended): `loadSaplings` never clears or overwrites a slot that was
occupied before the load: whether it completes or throws, every cell is still
there with its slots, and every slot that was occupied holds the same sapling;
and when the table is loaded twice in succession and a record of the second
load lands in a cell that still has a free slot, the state after the second
load is not the state after the first. -/
theorem loadSaplings_additive :
    (∀ (h : RUHash) (catalog : List String) (rows : List Row) (w : Live) (i : Nat)
      (e : (Int × Int) × SaplingCell), w.saplings[i]? = some e →
      ∃ e1 : (Int × Int) × SaplingCell,
        (loadSaplings h catalog rows w).state.saplings[i]? = some e1 ∧ e1.1 = e.1 ∧
        e1.2.saplings.length = e.2.saplings.length ∧
        ∀ (k : Nat) (s : SaplingTree), e.2.saplings[k]? = some s → s.occupied = true →
          e1.2.saplings[k]? = some s) ∧
    (∀ (h : RUHash) (catalog : List String) (pre post : List Row) (row : Row)
      (w w1 w2 st : Live) (ru : RUPtr) (species : String) (ci : Nat)
      (e : (Int × Int) × SaplingCell),
      loadSaplings h catalog (pre ++ row :: post) w = .done w1 →
      loadSaplings h catalog (pre ++ row :: post) w1 = .done w2 →
      loadSaplings h catalog pre w1 = .done st →
      resolve h st.units (value row 0).toInt = some ru →
      speciesOf catalog (value row 1).toString = some species →
      saplingCellAt st.saplings
        (foldPosition ((st.units[ru]?.map fun u => u.cornerPointOffset).getD (0, 0)).1
            (value row 2).toInt,
         foldPosition ((st.units[ru]?.map fun u => u.cornerPointOffset).getD (0, 0)).2
            (value row 3).toInt) = some ci →
      st.saplings[ci]? = some e → (∃ s ∈ e.2.saplings, s.occupied = false) →
      w2 ≠ w1) := by
  constructor
  · intro h catalog rows w i e he
    exact (forRows_loadSaplings_kept h catalog rows w).2 i e he
  · intro h catalog pre post row w w1 w2 st ru species ci e _ hsecond hpre hres hsp hcell he
      hfree
    exact loadSaplings_twice_differs_aux h catalog pre post row w1 w2 st ru species ci e
      hsecond hpre hres hsp hcell he hfree

/-- C23 (witness): the cell at pixel (10, 20) with one occupied slot and four
free ones, and a table of one record for it: the first load fills the second
slot, the second load the third. -/
theorem loadSaplings_additive_witness :
    (∃ e1 : (Int × Int) × SaplingCell,
      (loadSaplings twoUnitHash sampleCatalog [sampleSaplingRow] saplingLive).state.saplings[0]?
        = some e1 ∧ e1.1 = (10, 20) ∧
      e1.2.saplings.length
        = [sampleSapling, freeSlot, freeSlot, freeSlot, freeSlot].length ∧
      ∀ (k : Nat) (s : SaplingTree),
        [sampleSapling, freeSlot, freeSlot, freeSlot, freeSlot][k]? = some s →
        s.occupied = true → e1.2.saplings[k]? = some s) ∧
    (loadSaplings twoUnitHash sampleCatalog [sampleSaplingRow] saplingLive).state ≠ saplingLive ∧
    (loadSaplings twoUnitHash sampleCatalog [sampleSaplingRow]
        (loadSaplings twoUnitHash sampleCatalog [sampleSaplingRow] saplingLive).state).state
      ≠ (loadSaplings twoUnitHash sampleCatalog [sampleSaplingRow] saplingLive).state :=
  ⟨loadSaplings_additive.1 twoUnitHash sampleCatalog [sampleSaplingRow] saplingLive 0
      ((10, 20), { saplings := [sampleSapling, freeSlot, freeSlot, freeSlot, freeSlot] }) rfl,
   by decide,
   loadSaplings_additive.2 twoUnitHash sampleCatalog [] [] sampleSaplingRow saplingLive
     (loadSaplings twoUnitHash sampleCatalog [sampleSaplingRow] saplingLive).state
     (loadSaplings twoUnitHash sampleCatalog [sampleSaplingRow]
        (loadSaplings twoUnitHash sampleCatalog [sampleSaplingRow] saplingLive).state).state
     (loadSaplings twoUnitHash sampleCatalog [sampleSaplingRow] saplingLive).state
     0 "piab" 0
     ((10, 20), { saplings := [sampleSapling,
       { occupied := true, species_index := 0, age := 4, height := 9, stress_years := 2,
         flags := 0 }, freeSlot, freeSlot, freeSlot] })
     (by decide) (by decide) (by decide) (by decide) (by decide) (by decide) (by decide)
     (by decide)⟩

theorem modify_append_cons {α : Type} (pre : List α) (a : α) (rest : List α) (f : α → α) :
    (pre ++ a :: rest).modify f pre.length = pre ++ f a :: rest := by
  induction pre with
  | nil => simp
  | cons b pre ih => simp [ih]

theorem saplingCellAt_append (pre rest : SaplingGrid) (p : Int × Int) (c : SaplingCell)
    (hpre : p ∉ pre.map Prod.fst) :
    saplingCellAt (pre ++ (p, c) :: rest) p = some pre.length := by
  unfold saplingCellAt
  have h1 : pre.findIdx (fun e => decide (e.1 = p)) = pre.length := by
    apply List.findIdx_eq_length_of_false
    intro e he
    have : e.1 ≠ p := fun heq => hpre (List.mem_map.mpr ⟨e, he, heq⟩)
    simpa using this
  simp only [List.findIdx_append, h1, Nat.lt_irrefl, ↓reduceIte, List.findIdx_cons,
    decide_True, cond_true, Nat.zero_add, List.length_append, List.length_cons]
  simp

theorem addSapling_prefix (occs tail : List SaplingTree) (free : SaplingTree)
    (hoccs : ∀ s ∈ occs, s.occupied = true) (hfree : free.occupied = false)
    (h : Scalar) (age species_idx : Int) :
    addSapling { saplings := occs ++ free :: tail } h age species_idx
      = some (occs.length,
          { saplings := occs ++ { free with occupied := true, height := h, age := age,
                                            species_index := species_idx } :: tail }) := by
  unfold addSapling
  have h1 : occs.findIdx (fun s => !s.occupied) = occs.length := by
    apply List.findIdx_eq_length_of_false
    intro s hs
    simp [hoccs s hs]
  simp only [List.findIdx_append, h1, Nat.lt_irrefl, ↓reduceIte, List.findIdx_cons, hfree,
    Bool.not_false, cond_true, Nat.zero_add, List.length_append, List.length_cons,
    modify_append_cons]
  simp

theorem toLatin1UChar_byte (v : Int) (h0 : 0 ≤ v) (h1 : v ≤ 255) : toLatin1UChar v = v := by
  unfold toLatin1UChar
  have : v % 65536 = v := by omega
  rw [this]
  simp [h1]

theorem storedCoord_standSaplingRow (env : StandEnv) (X : Int) (p : Int × Int)
    (s : SaplingTree) :
    storedCoord env (value ((standSaplingRow env X p s).drop 1) 0)
      (value ((standSaplingRow env X p s).drop 1) 1) = pixelCentre p := by
  show worldToModel env.world _ = _
  unfold worldToModel pixelCentre
  simp only [standSaplingRow, List.drop_succ_cons, List.drop_zero, value, List.getD_cons_zero,
    List.getD_cons_succ, QVariant.toInt]
  ext <;> simp

theorem lifIndexAt_pixelCentre (p : Int × Int) (h1 : 0 ≤ p.1) (h2 : 0 ≤ p.2) :
    lifIndexAt (pixelCentre p) = p := by
  unfold lifIndexAt pixelCentre cPxSize
  rw [Int.tdiv_eq_ediv (by omega) (by omega), Int.tdiv_eq_ediv (by omega) (by omega)]
  have d1 : (p.1 * 2 + 2 / 2) / 2 = p.1 := by omega
  have d2 : (p.2 * 2 + 2 / 2) / 2 = p.2 := by omega
  rw [d1, d2]

theorem loadStandSaplingStep_fills (env : StandEnv) (X : Int) (pre rest : SaplingGrid)
    (p : Int × Int) (occs tail : List SaplingTree) (s : SaplingTree)
    (hpre : p ∉ pre.map Prod.fst) (hoccs : ∀ o ∈ occs, o.occupied = true)
    (h1 : 0 ≤ p.1) (h2 : 0 ≤ p.2) (hext : env.extent.contains (pixelCentre p) = true)
    (hs : s.occupied = true) (hst : 0 ≤ s.stress_years ∧ s.stress_years ≤ 255)
    (hfl : 0 ≤ s.flags ∧ s.flags ≤ 255) :
    loadStandSaplingStep env (pre ++ (p, { saplings := occs ++ clearedSlot :: tail }) :: rest)
        ((standSaplingRow env X p s).drop 1)
      = pre ++ (p, { saplings := occs ++ s :: tail }) :: rest := by
  unfold loadStandSaplingStep
  simp only [storedCoord_standSaplingRow, hext, Bool.not_true, Bool.false_eq_true, ↓reduceIte,
    lifIndexAt_pixelCentre p h1 h2, saplingCellAt_append pre rest p _ hpre]
  have hget : (pre ++ (p, ({ saplings := occs ++ clearedSlot :: tail } : SaplingCell)) :: rest)[pre.length]?
      = some (p, { saplings := occs ++ clearedSlot :: tail }) := by
    rw [List.getElem?_append_right (Nat.le_refl _)]
    simp
  simp only [hget, Option.some_bind, addSapling_prefix occs tail clearedSlot hoccs rfl,
    modify_append_cons]
  congr 3
  simp only [standSaplingRow, List.drop_succ_cons, List.drop_zero, value, List.getD_cons_zero,
    List.getD_cons_succ, QVariant.toInt, QVariant.toDouble, toLatin1UChar_byte _ hst.1 hst.2,
    toLatin1UChar_byte _ hfl.1 hfl.2, clearedSlot]
  cases s
  simp only at hs
  subst hs
  rfl

theorem foldl_cell_rows (env : StandEnv) (X : Int) (pre rest : SaplingGrid) (p : Int × Int)
    (hpre : p ∉ pre.map Prod.fst) (h1 : 0 ≤ p.1) (h2 : 0 ≤ p.2)
    (hext : env.extent.contains (pixelCentre p) = true) :
    ∀ (ss occs : List SaplingTree) (m : Nat), ss.length ≤ m →
      (∀ o ∈ occs, o.occupied = true) →
      (∀ s ∈ ss, s.occupied = true ∧
        (0 ≤ s.stress_years ∧ s.stress_years ≤ 255) ∧ (0 ≤ s.flags ∧ s.flags ≤ 255)) →
      (ss.map fun s => (standSaplingRow env X p s).drop 1).foldl (loadStandSaplingStep env)
          (pre ++ (p, { saplings := occs ++ List.replicate m clearedSlot }) :: rest)
        = pre ++ (p, { saplings := occs ++ ss ++
            List.replicate (m - ss.length) clearedSlot }) :: rest := by
  intro ss
  induction ss with
  | nil => intro occs m _ _ _; simp
  | cons s ss ih =>
    intro occs m hm hoccs hss
    obtain ⟨m1, rfl⟩ : ∃ m1, m = m1 + 1 := ⟨m - 1, by simp at hm; omega⟩
    have hs := hss s (List.mem_cons_self _ _)
    simp only [List.map_cons, List.foldl_cons, List.replicate_succ]
    rw [loadStandSaplingStep_fills env X pre rest p occs _ s hpre hoccs h1 h2 hext hs.1
      hs.2.1 hs.2.2]
    have hcell : occs ++ s :: List.replicate m1 clearedSlot
        = (occs ++ [s]) ++ List.replicate m1 clearedSlot := by simp
    rw [hcell, ih (occs ++ [s]) m1 (by simp at hm; omega)
      (by
        intro o ho
        rcases List.mem_append.mp ho with ho | ho
        · exact hoccs o ho
        · simp only [List.mem_singleton] at ho
          subst ho
          exact hs.1)
      (fun s1 h => hss s1 (List.mem_cons_of_mem _ h))]
    simp

theorem foldl_stand_rows (env : StandEnv) (X : Int) :
    ∀ (suf suf1 pre : SaplingGrid), suf1.map Prod.fst = suf.map Prod.fst →
      (suf.map Prod.fst).Nodup → (∀ e ∈ suf, e.1 ∉ pre.map Prod.fst) →
      (∀ e ∈ suf, env.standAt e.1 = X → StandCellOk env e) →
      (∀ e ∈ suf1, env.standAt e.1 = X → e.2.saplings.length = NSAPCELLS) →
      ((standSaplingRows env X suf).map fun r => r.drop 1).foldl (loadStandSaplingStep env)
          (pre ++ clearStandSaplings env X suf1)
        = pre ++ restoredGrid env X suf suf1 := by
  intro suf
  induction suf with
  | nil =>
    intro suf1 pre hkeys _ _ _ _
    cases suf1 with
    | nil => rfl
    | cons a b => simp at hkeys
  | cons e suf ih =>
    intro suf1 pre hkeys hnodup hpre hok hlen
    cases suf1 with
    | nil => simp at hkeys
    | cons e1 suf1 =>
      simp only [List.map_cons, List.cons.injEq] at hkeys
      obtain ⟨hk, hkeys⟩ := hkeys
      simp only [List.map_cons, List.nodup_cons] at hnodup
      have hpre1 : ∀ (c : SaplingCell), ∀ e2 ∈ suf, e2.1 ∉ (pre ++ [(e.1, c)]).map Prod.fst := by
        intro c e2 he2 hmem
        simp only [List.map_append, List.map_cons, List.map_nil, List.mem_append,
          List.mem_singleton] at hmem
        rcases hmem with hmem | hmem
        · exact hpre e2 (List.mem_cons_of_mem _ he2) hmem
        · exact hnodup.1 (hmem ▸ List.mem_map.mpr ⟨e2, he2, rfl⟩)
      have hok1 : ∀ e2 ∈ suf, env.standAt e2.1 = X → StandCellOk env e2 :=
        fun e2 h => hok e2 (List.mem_cons_of_mem _ h)
      have hlen1 : ∀ e2 ∈ suf1, env.standAt e2.1 = X → e2.2.saplings.length = NSAPCELLS :=
        fun e2 h => hlen e2 (List.mem_cons_of_mem _ h)
      by_cases hst : env.standAt e.1 = X
      · have hst1 : env.standAt e1.1 = X := by rw [hk]; exact hst
        have hcell := hok e (List.mem_cons_self _ _) hst
        have hl := hlen e1 (List.mem_cons_self _ _) hst1
        have hclear : clearStandSaplings env X (e1 :: suf1)
            = (e.1, { saplings := [] ++ List.replicate NSAPCELLS clearedSlot })
                :: clearStandSaplings env X suf1 := by
          simp only [clearStandSaplings, List.map_cons, hk, hst, beq_self_eq_true, ↓reduceIte,
            List.nil_append, List.map_const', hl]
        have hrows : (standSaplingRows env X (e :: suf)).map (fun r => r.drop 1)
            = ((savedOccupants e.2).map fun s => (standSaplingRow env X e.1 s).drop 1)
              ++ (standSaplingRows env X suf).map fun r => r.drop 1 := by
          simp only [standSaplingRows, List.flatMap_cons, hst, beq_self_eq_true, ↓reduceIte,
            List.map_append, List.map_map, savedOccupants]
          rfl
        rw [hclear, hrows, List.foldl_append,
          foldl_cell_rows env X pre _ e.1 (hpre e (List.mem_cons_self _ _)) hcell.1 hcell.2.1
            hcell.2.2.1 (savedOccupants e.2) [] NSAPCELLS
            (by
              unfold savedOccupants
              exact le_trans (List.length_filter_le _ _)
                (by rw [List.length_take]; exact Nat.min_le_left _ _))
            (by intro o ho; cases ho)
            (by
              intro s hs
              unfold savedOccupants at hs
              have hocc := (List.mem_filter.mp hs).2
              have hmem := List.mem_of_mem_take (List.mem_filter.mp hs).1
              exact ⟨hocc, hcell.2.2.2 s hmem hocc⟩)]
        have happ : ∀ (c : SaplingCell), pre ++ (e.1, c) :: clearStandSaplings env X suf1
            = (pre ++ [(e.1, c)]) ++ clearStandSaplings env X suf1 := by
          intro c; simp
        rw [happ, ih suf1 _ hkeys hnodup.2 (hpre1 _) hok1 hlen1]
        simp [restoredGrid, hst, restoredCell]
      · have hst1 : ¬ env.standAt e1.1 = X := by rw [hk]; exact hst
        have hclear : clearStandSaplings env X (e1 :: suf1)
            = e1 :: clearStandSaplings env X suf1 := by
          simp [clearStandSaplings, hst1]
        have hrows : standSaplingRows env X (e :: suf) = standSaplingRows env X suf := by
          simp [standSaplingRows, hst]
        have happ : pre ++ e1 :: clearStandSaplings env X suf1
            = (pre ++ [e1]) ++ clearStandSaplings env X suf1 := by simp
        have he1 : e1 = (e.1, e1.2) := by rw [← hk]
        rw [hclear, hrows, happ, ih suf1 _ hkeys hnodup.2
          (by rw [he1]; exact hpre1 _) hok1 hlen1]
        simp [restoredGrid, hst]

theorem selectStand_standSaplingRows (env : StandEnv) (X : Int) (g : SaplingGrid)
    (olds : List Row) :
    selectStand X (deleteStand X olds ++ standSaplingRows env X g)
      = standSaplingRows env X g := by
  have h1 := selectStand_deleteStand X olds
  unfold selectStand at h1 ⊢
  rw [List.filter_append, h1, List.nil_append, List.filter_eq_self]
  intro r hr
  simp [rowStand_of_mem_standSaplingRows env X g r hr]

theorem selectStand_saved_trees (env : StandEnv) (X : Int) (units : RUList) (old : List Row) :
    selectStand X (deleteStand X old ++ standTreeRows env X units)
      = standTreeRows env X units := by
  have h1 := selectStand_deleteStand X old
  have h2 := selectStand_standTreeRows env X units
  unfold selectStand at h1 h2 ⊢
  rw [List.filter_append, h1, List.nil_append, h2]

theorem forRows_loadStandTree_done (env : StandEnv) :
    ∀ (rows : List Row) (units : RUList),
      (∀ row ∈ rows, ∃ s, speciesOf env.catalog (value row 4).toString = some s) →
      ∃ u1, forRows (loadStandTreeStep env) units rows = .done u1 := by
  intro rows
  induction rows with
  | nil => intro units _; exact ⟨units, rfl⟩
  | cons row rows ih =>
    intro units h
    obtain ⟨s, hs⟩ := h row (List.mem_cons_self _ _)
    have hstep : ∃ u, loadStandTreeStep env units row = .done u := by
      unfold loadStandTreeStep
      simp only [hs]
      split
      · exact ⟨_, rfl⟩
      · split
        · exact ⟨_, rfl⟩
        · exact ⟨_, rfl⟩
    obtain ⟨u, hu⟩ := hstep
    simp only [forRows, hu]
    exact ih u fun r hr => h r (List.mem_cons_of_mem _ hr)

theorem standTreeRows_species (env : StandEnv) (X : Int) (units : RUList)
    (hsp : ∀ t ∈ standTrees env X units, speciesKnown env.catalog t) :
    ∀ row ∈ standTreeRows env X units,
      ∃ s, speciesOf env.catalog (value row 4).toString = some s := by
  intro row hrow
  obtain ⟨t, ht, rfl⟩ := List.mem_map.mp hrow
  obtain ⟨s, hs, hts⟩ := hsp t ht
  refine ⟨s, ?_⟩
  simp [standTreeRow, value, QVariant.toString, hts, speciesOf, hs]

theorem saveStandSnapshot_done_open (env : StandEnv) (X : Int) (w : Live)
    (store s1 : StandStore) (hdone : saveStandSnapshot env X w store = .done s1) :
    ∃ s0, openStandForWrite env store = .done s0 ∧ s1.isOpen = true := by
  unfold saveStandSnapshot at hdone
  cases hopen : openStandForWrite env store with
  | raised e s => simp [hopen] at hdone
  | done s0 =>
    refine ⟨s0, rfl, ?_⟩
    have h0 : s0.isOpen = true := by
      unfold openStandForWrite at hopen
      split at hopen
      · rename_i h; cases hopen; exact h
      · split at hopen
        · cases hopen
        · split at hopen <;> cases hopen <;> rfl
    simp only [hopen] at hdone
    split at hdone
    · cases hdone
    · split at hdone
      · cases hdone
      · split at hdone
        · split at hdone
          · cases hdone
          · split at hdone
            · cases hdone
            · cases hdone; exact h0
        · cases hdone; exact h0

theorem restoredGrid_getElem? (env : StandEnv) (X : Int) :
    ∀ (g g1 : SaplingGrid) (i : Nat) (e : (Int × Int) × SaplingCell),
      g1.length = g.length → g[i]? = some e → env.standAt e.1 = X →
      (restoredGrid env X g g1)[i]? = some (e.1, restoredCell e.2) := by
  intro g g1 i e hlen hget hst
  have hi : i < g.length := (List.getElem?_eq_some_iff.mp hget).1
  obtain ⟨e1, he1⟩ : ∃ e1, g1[i]? = some e1 :=
    ⟨g1[i], List.getElem?_eq_getElem (by omega)⟩
  unfold restoredGrid
  rw [List.getElem?_zipWith]
  simp [hget, he1, hst]

theorem restoredCell_occupants (c : SaplingCell) (hlen : c.saplings.length = NSAPCELLS) :
    ((restoredCell c).saplings.filter fun s => s.occupied)
        = (c.saplings.filter fun s => s.occupied) ∧
      (restoredCell c).saplings.length = NSAPCELLS := by
  have htake : c.saplings.take NSAPCELLS = c.saplings := by
    rw [← hlen]; exact List.take_length _
  have hle : (savedOccupants c).length ≤ NSAPCELLS := by
    unfold savedOccupants
    rw [htake, ← hlen]
    exact List.length_filter_le _ _
  constructor
  · unfold restoredCell
    simp only [List.filter_append]
    rw [List.filter_replicate_of_neg (by simp [clearedSlot]), List.append_nil]
    unfold savedOccupants
    rw [htake, List.filter_filter]
    simp
  · unfold restoredCell
    simp only [List.length_append, List.length_replicate]
    omega

/-! ## Stand-scoped sapling round trip -/

/-- C21: with regeneration enabled, let `saveStandSnapshot(X)` complete on the
landscape `w`, and let `loadStandSnapshot(X)` run on a landscape `w1` with the
same sapling cells (same pixels, `NSAPCELLS` slots each) whatever their
occupants are by then.  When the saved stand trees have catalog species, the
cells of the stand lie on non-negative pixels inside the extent, the pixels of
the grid are distinct and the stress counter and flag byte of the saved
occupants are in 0..255, the load completes and every cell of the stand has
exactly the occupants it had at save time, with the same species index, age,
height, stress years and flags, and no others. -/
theorem standSnapshot_sapling_roundtrip (env : StandEnv) (X : Int) (w w1 : Live)
    (store s1 : StandStore) (hregen : env.regenerationEnabled = true)
    (hsave : saveStandSnapshot env X w store = .done s1)
    (hspecies : ∀ t ∈ standTrees env X w.units, speciesKnown env.catalog t)
    (hkeys : w1.saplings.map Prod.fst = w.saplings.map Prod.fst)
    (hnodup : (w.saplings.map Prod.fst).Nodup)
    (hok : ∀ e ∈ w.saplings, env.standAt e.1 = X →
      StandCellOk env e ∧ e.2.saplings.length = NSAPCELLS)
    (hlen : ∀ e ∈ w1.saplings, env.standAt e.1 = X → e.2.saplings.length = NSAPCELLS) :
    ∃ w2, loadStandSnapshot env X w1 s1 = .done w2 ∧
      ∀ (i : Nat) (e : (Int × Int) × SaplingCell), w.saplings[i]? = some e →
        env.standAt e.1 = X →
        ∃ c2 : SaplingCell, w2.saplings[i]? = some (e.1, c2) ∧
          (c2.saplings.filter fun s => s.occupied)
            = (e.2.saplings.filter fun s => s.occupied) ∧
          c2.saplings.length = NSAPCELLS := by
  obtain ⟨s0, hopen, hisopen⟩ := saveStandSnapshot_done_open env X w store s1 hsave
  obtain ⟨⟨old, _, htrees⟩, hsap⟩ := saveStandSnapshot_done_tables env X w store s0 s1 hopen hsave
  rcases hsap with ⟨hoff, _⟩ | ⟨_, olds, _, hsaps⟩
  · rw [hregen] at hoff; cases hoff
  · obtain ⟨u1, hu1⟩ := forRows_loadStandTree_done env (standTreeRows env X w.units)
      (removeStandTrees env X w1.units) (standTreeRows_species env X w.units hspecies)
    have hfold := foldl_stand_rows env X w.saplings w1.saplings [] hkeys hnodup
      (fun _ _ h => by cases h) (fun e he hst => (hok e he hst).1) hlen
    simp only [List.nil_append] at hfold
    refine ⟨{ units := u1, saplings := restoredGrid env X w.saplings w1.saplings }, ?_, ?_⟩
    · unfold loadStandSnapshot
      simp only [hisopen, Bool.not_true, Bool.false_and, Bool.false_eq_true, ↓reduceIte, htrees,
        hsaps, Option.getD_some, selectStand_saved_trees, hu1, hregen, selectStandSaplings,
        selectStand_standSaplingRows, hfold]
    · intro i e hget hst
      have hl : w1.saplings.length = w.saplings.length := by
        have := congrArg List.length hkeys
        simpa using this
      refine ⟨restoredCell e.2, restoredGrid_getElem? env X _ _ i e hl hget hst, ?_⟩
      exact restoredCell_occupants e.2 (hok e (List.getElem?_mem hget) hst).2

/-- C21 (witness): stand 1 of the sapling scenario is saved into the stand
database that holds rows of stand 5; by the time of the load the cell at pixel
(10, 20) has filled up with four more saplings. -/
theorem standSnapshot_sapling_roundtrip_witness :
    ∃ w2, loadStandSnapshot (standEnv true) 1 fullCellLive
        { isOpen := true
          trees_stand := some [otherTreeRow, standTreeRow (standEnv true) 1 (sampleTree 100 10 20)]
          saplings_stand := some [otherSaplingRow,
            standSaplingRow (standEnv true) 1 (10, 20) sampleSapling] } = .done w2 ∧
      ∀ (i : Nat) (e : (Int × Int) × SaplingCell), saplingLive.saplings[i]? = some e →
        (standEnv true).standAt e.1 = 1 →
        ∃ c2 : SaplingCell, w2.saplings[i]? = some (e.1, c2) ∧
          (c2.saplings.filter fun s => s.occupied)
            = (e.2.saplings.filter fun s => s.occupied) ∧
          c2.saplings.length = NSAPCELLS :=
  standSnapshot_sapling_roundtrip (standEnv true) 1 saplingLive fullCellLive bothTablesStore _
    rfl (by decide)
    (by
      intro t ht
      have : t = sampleTree 100 10 20 := by
        revert t
        decide
      subst this
      exact ⟨"piab", by decide, rfl⟩)
    rfl (by decide)
    (by
      intro e he _
      simp only [saplingLive, List.mem_singleton] at he
      subst he
      refine ⟨⟨by decide, by decide, by decide, ?_⟩, rfl⟩
      decide)
    (by
      intro e he _
      simp only [fullCellLive, List.mem_singleton] at he
      subst he
      rfl)

theorem removeStandTrees_kept (env : StandEnv) (X : Int) (units : RUList) :
    TreesOutsideKept env X units (removeStandTrees env X units) := by
  refine ⟨by simp [removeStandTrees], ?_⟩
  intro p u hu
  refine ⟨{ u with trees := u.trees.filter fun t => env.standAt t.mPositionIndex != X }, [],
    by simp [removeStandTrees, hu], ?_⟩
  simp [outsideTrees, List.filter_filter]

theorem addTree_kept (env : StandEnv) (X : Int) (units cur : RUList) (p : RUPtr) (t : Tree)
    (hcur : TreesOutsideKept env X units cur) :
    TreesOutsideKept env X units (addTree cur p t) := by
  refine ⟨by rw [addTree_length]; exact hcur.1, ?_⟩
  intro q u hu
  obtain ⟨u1, added, hu1, hout⟩ := hcur.2 q u hu
  rw [addTree_getElem?, hu1]
  by_cases hpq : p = q
  · refine ⟨{ u1 with trees := u1.trees ++ [t] },
      added ++ [t].filter fun t => env.standAt t.mPositionIndex != X, by simp [hpq], ?_⟩
    simp only [outsideTrees, List.filter_append] at hout ⊢
    rw [hout, List.append_assoc]
  · exact ⟨u1, added, by simp [hpq], hout⟩

theorem loadStandTreeStep_kept (env : StandEnv) (X : Int) (units cur : RUList) (row : Row)
    (hcur : TreesOutsideKept env X units cur) :
    TreesOutsideKept env X units (loadStandTreeStep env cur row).state := by
  unfold loadStandTreeStep
  simp only
  split
  · exact hcur
  · cases ruAt env.rugrid cur (storedCoord env (value row 2) (value row 3)) with
    | none => exact hcur
    | some ru =>
      simp only
      cases speciesOf env.catalog (value row 4).toString with
      | none => exact addTree_kept env X units cur ru _ hcur
      | some s => exact addTree_kept env X units cur ru _ hcur

theorem loadStandSaplingStep_kept (env : StandEnv) (g : SaplingGrid) (row : Row) :
    OccupiedKept g (loadStandSaplingStep env g row) := by
  unfold loadStandSaplingStep
  simp only
  split
  · exact occupiedKept_refl _
  · split
    · exact occupiedKept_refl _
    · rename_i ci hci
      cases he : g[ci]? with
      | none => exact occupiedKept_refl _
      | some e =>
        simp only [Option.some_bind]
        cases hadd : addSapling e.2 (value row 4).toDouble (value row 3).toInt
            (value row 2).toInt with
        | none => exact occupiedKept_refl _
        | some r =>
          obtain ⟨slot, cell⟩ := r
          obtain ⟨⟨s0, hs0, hfree⟩, hcell⟩ := addSapling_some _ _ _ _ _ _ hadd
          simp only [hcell, List.modify_modify_eq]
          exact occupiedKept_fill g ci slot e s0 _ he hs0 hfree

theorem foldl_loadStandSapling_kept (env : StandEnv) (rows : List Row) (g : SaplingGrid) :
    OccupiedKept g (rows.foldl (loadStandSaplingStep env) g) := by
  induction rows generalizing g with
  | nil => exact occupiedKept_refl _
  | cons row rows ih =>
    exact occupiedKept_trans _ _ _ (loadStandSaplingStep_kept env g row) (ih _)

/-! ## Stand-scoped load: the pixels of other stands -/

/-- C18 (counterexample): `trees_stand` holds one row tagged with stand 1 whose
stored coordinates are those of pixel (60, 20), a pixel of stand 2;
`loadStandSnapshot(1)` removes tree 100 of stand 1 and adds the tree of the row
to unit 1 on the pixel of stand 2, next to tree 200. -/
theorem loadStandSnapshot_adds_outside_footprint :
    rowStand strayTreeRow = 1 ∧
    lifIndexAt (storedCoord (standEnv false) (value strayTreeRow 2) (value strayTreeRow 3))
      = (60, 20) ∧
    sampleStandAt (60, 20) = 2 ∧
    loadStandSnapshot (standEnv false) 1 saplingLive strayStore
      = .done { units := [treeUnit 0 0 [],
                          treeUnit 1 1 [sampleTree 200 60 20, sampleTree 900 60 20]]
                saplings := saplingLive.saplings } := by
  decide

/-- C18 (amended): for every stand `X`, every stand map and every content of
`trees_stand` and `saplings_stand`, `loadStandSnapshot(X)` removes none and
changes none outside the footprint of `X`, whether it completes or throws:
every unit keeps its trees outside the footprint, in their order and followed
at most by added trees, and every sapling cell outside the footprint keeps its
occupied slots as they were.  When in addition every row of `trees_stand` (of
`saplings_stand`) that is tagged with stand `X` and lies inside the model
extent has its stored coordinates on a pixel of stand `X`, it adds none
either: the trees (the sapling cells) outside the footprint are the same as
before the call. -/
theorem loadStandSnapshot_isolation (env : StandEnv) (X : Int) (w : Live)
    (store : StandStore) :
    (∀ (p : RUPtr) (u : ResourceUnit), w.units[p]? = some u →
      ∃ (u1 : ResourceUnit) (added : List Tree),
        (loadStandSnapshot env X w store).state.units[p]? = some u1 ∧
        (u1.trees.filter fun t => env.standAt t.mPositionIndex != X)
          = (u.trees.filter fun t => env.standAt t.mPositionIndex != X) ++ added) ∧
    (∀ (i : Nat) (e : (Int × Int) × SaplingCell), w.saplings[i]? = some e →
      env.standAt e.1 ≠ X →
      ∃ e1 : (Int × Int) × SaplingCell,
        (loadStandSnapshot env X w store).state.saplings[i]? = some e1 ∧ e1.1 = e.1 ∧
        e1.2.saplings.length = e.2.saplings.length ∧
        ∀ (k : Nat) (s : SaplingTree), e.2.saplings[k]? = some s → s.occupied = true →
          e1.2.saplings[k]? = some s) ∧
    ((∀ row ∈ store.trees_stand.getD [], rowStand row = X →
        env.extent.contains (storedCoord env (value row 2) (value row 3)) = true →
        env.standAt (lifIndexAt (storedCoord env (value row 2) (value row 3))) = X) →
      ∀ p : RUPtr,
        (loadStandSnapshot env X w store).state.units[p]?.map
            (fun u => u.trees.filter fun t => env.standAt t.mPositionIndex != X)
          = w.units[p]?.map
            (fun u => u.trees.filter fun t => env.standAt t.mPositionIndex != X)) ∧
    ((∀ row ∈ store.saplings_stand.getD [], rowStand row = X →
        env.extent.contains (storedCoord env (value row 1) (value row 2)) = true →
        env.standAt (lifIndexAt (storedCoord env (value row 1) (value row 2))) = X) →
      ∀ (i : Nat) (e : (Int × Int) × SaplingCell), w.saplings[i]? = some e →
        env.standAt e.1 ≠ X →
        (loadStandSnapshot env X w store).state.saplings[i]? = some e) := by
  have hkeptU : TreesOutsideKept env X w.units
      (forRows (loadStandTreeStep env) (removeStandTrees env X w.units)
        (selectStand X (store.trees_stand.getD []))).state :=
    forRows_state_inv (loadStandTreeStep env) (TreesOutsideKept env X w.units) _
      (fun cur row _ hcur => loadStandTreeStep_kept env X w.units cur row hcur) _
      (removeStandTrees_kept env X w.units)
  have hkeptS : ∀ (i : Nat) (e : (Int × Int) × SaplingCell), w.saplings[i]? = some e →
      env.standAt e.1 ≠ X →
      ∃ e1 : (Int × Int) × SaplingCell,
        ((selectStandSaplings X (store.saplings_stand.getD [])).foldl
          (loadStandSaplingStep env) (clearStandSaplings env X w.saplings))[i]? = some e1 ∧
        e1.1 = e.1 ∧ e1.2.saplings.length = e.2.saplings.length ∧
        ∀ (k : Nat) (s : SaplingTree), e.2.saplings[k]? = some s → s.occupied = true →
          e1.2.saplings[k]? = some s := by
    intro i e he hout
    exact (foldl_loadStandSapling_kept env _ (clearStandSaplings env X w.saplings)).2 i e
      ((clearStandSaplings_outside env X w.saplings).2 i e he hout)
  have hunits : (∀ row ∈ store.trees_stand.getD [], rowStand row = X →
        env.extent.contains (storedCoord env (value row 2) (value row 3)) = true →
        env.standAt (lifIndexAt (storedCoord env (value row 2) (value row 3))) = X) →
      TreesOutsideSame env X w.units
        (forRows (loadStandTreeStep env) (removeStandTrees env X w.units)
          (selectStand X (store.trees_stand.getD []))).state := by
    intro htrees
    refine forRows_state_inv (loadStandTreeStep env) (TreesOutsideSame env X w.units) _ ?_ _
      (removeStandTrees_outside env X w.units)
    intro cur row hrow hcur
    have hmem := List.mem_filter.mp hrow
    refine loadStandTreeStep_outside env X w.units cur row ?_ hcur
    exact htrees row hmem.1 (by simpa [selectStand] using hmem.2)
  have hsap : (∀ row ∈ store.saplings_stand.getD [], rowStand row = X →
        env.extent.contains (storedCoord env (value row 1) (value row 2)) = true →
        env.standAt (lifIndexAt (storedCoord env (value row 1) (value row 2))) = X) →
      SaplingsOutsideSame env X w.saplings
        ((selectStandSaplings X (store.saplings_stand.getD [])).foldl
          (loadStandSaplingStep env) (clearStandSaplings env X w.saplings)) := by
    intro hsaps
    refine foldl_inv (loadStandSaplingStep env) (SaplingsOutsideSame env X w.saplings) _ ?_ _
      (clearStandSaplings_outside env X w.saplings)
    intro g row hrow hg
    obtain ⟨r, hr, hrr⟩ := List.mem_map.mp hrow
    have hmem := List.mem_filter.mp hr
    subst hrr
    refine loadStandSaplingStep_outside env X w.saplings g (r.drop 1) ?_ hg
    rw [value_drop_one, value_drop_one]
    exact hsaps r hmem.1 (by simpa [selectStand] using hmem.2)
  have hselfK : ∀ (i : Nat) (e : (Int × Int) × SaplingCell), w.saplings[i]? = some e →
      env.standAt e.1 ≠ X →
      ∃ e1 : (Int × Int) × SaplingCell, w.saplings[i]? = some e1 ∧ e1.1 = e.1 ∧
        e1.2.saplings.length = e.2.saplings.length ∧
        ∀ (k : Nat) (s : SaplingTree), e.2.saplings[k]? = some s → s.occupied = true →
          e1.2.saplings[k]? = some s :=
    fun _ e he _ => ⟨e, he, rfl, rfl, fun _ _ hs _ => hs⟩
  have hselfU : TreesOutsideKept env X w.units w.units :=
    ⟨rfl, fun _ u hu => ⟨u, [], hu, by simp⟩⟩
  unfold loadStandSnapshot
  split
  · exact ⟨hselfU.2, hselfK, fun _ _ => rfl, fun _ _ _ he _ => he⟩
  · simp only
    cases hrun : forRows (loadStandTreeStep env) (removeStandTrees env X w.units)
        (selectStand X (store.trees_stand.getD [])) with
    | raised e u =>
      rw [hrun] at hunits hkeptU
      exact ⟨hkeptU.2, hselfK, fun h => (hunits h).2, fun _ _ _ he _ => he⟩
    | done u1 =>
      rw [hrun] at hunits hkeptU
      simp only
      split
      · exact ⟨hkeptU.2, hkeptS, fun h => (hunits h).2, fun h => (hsap h).2⟩
      · exact ⟨hkeptU.2, hselfK, fun h => (hunits h).2, fun _ _ _ he _ => he⟩

/-- C18 (witness): the load of stand 1 from the rows that its save wrote, in a
stand database that also holds rows of stand 5. -/
theorem loadStandSnapshot_isolation_witness :
    (∀ (p : RUPtr) (u : ResourceUnit), saplingLive.units[p]? = some u →
      ∃ (u1 : ResourceUnit) (added : List Tree),
        (loadStandSnapshot (standEnv true) 1 saplingLive savedStandStore).state.units[p]?
          = some u1 ∧
        (u1.trees.filter fun t => (standEnv true).standAt t.mPositionIndex != 1)
          = (u.trees.filter fun t => (standEnv true).standAt t.mPositionIndex != 1) ++ added) ∧
    (∀ (i : Nat) (e : (Int × Int) × SaplingCell), saplingLive.saplings[i]? = some e →
      (standEnv true).standAt e.1 ≠ 1 →
      ∃ e1 : (Int × Int) × SaplingCell,
        (loadStandSnapshot (standEnv true) 1 saplingLive savedStandStore).state.saplings[i]?
          = some e1 ∧ e1.1 = e.1 ∧
        e1.2.saplings.length = e.2.saplings.length ∧
        ∀ (k : Nat) (s : SaplingTree), e.2.saplings[k]? = some s → s.occupied = true →
          e1.2.saplings[k]? = some s) ∧
    (∀ p : RUPtr,
      (loadStandSnapshot (standEnv true) 1 saplingLive savedStandStore).state.units[p]?.map
          (fun u => u.trees.filter fun t => (standEnv true).standAt t.mPositionIndex != 1)
        = saplingLive.units[p]?.map
          (fun u => u.trees.filter fun t => (standEnv true).standAt t.mPositionIndex != 1)) ∧
    (∀ (i : Nat) (e : (Int × Int) × SaplingCell), saplingLive.saplings[i]? = some e →
      (standEnv true).standAt e.1 ≠ 1 →
      (loadStandSnapshot (standEnv true) 1 saplingLive savedStandStore).state.saplings[i]?
        = some e) :=
  ⟨(loadStandSnapshot_isolation (standEnv true) 1 saplingLive savedStandStore).1,
   (loadStandSnapshot_isolation (standEnv true) 1 saplingLive savedStandStore).2.1,
   (loadStandSnapshot_isolation (standEnv true) 1 saplingLive savedStandStore).2.2.1
     (by decide),
   (loadStandSnapshot_isolation (standEnv true) 1 saplingLive savedStandStore).2.2.2
     (by decide)⟩

end Snapshot
